import Mathlib

/-!
# FlyBird: the game simulation of `src/game.js`

A shallow embedding of the simulation core of `game.js` (classes `Particle`,
`Bird`, `Pipe` and `Game`) together with theorems about it.

Modelling conventions.

* JavaScript numbers are modelled as exact rationals (`ℚ`); fields that only
  ever hold integers (counters, scores, durations) are `Int` or `Nat`.
  Floating-point rounding is not modelled: `0.25` is `1/4`, `0.1` is `1/10`.
* `Math.PI` is the rational value of the IEEE double `3.141592653589793`.
* `Math.random`, `Math.cos`, `Math.sin` and `new Date()` are supplied by an
  environment record `Env`; the state counts the `Math.random()` calls made so
  far (`randomCalls`) so that successive calls read successive draws.
* Audio, DOM updates and canvas painting have no effect on the simulation
  state and are left out.
-/

namespace FlyBird

/-! ## Numbers -/

/-- The double `Math.PI`, as an exact rational. -/
def Math_PI : ℚ := 884279719003555 / 281474976710656

/-- Truncation toward zero of a rational. -/
def trunc (q : ℚ) : Int := if 0 ≤ q then ⌊q⌋ else ⌈q⌉

/-- The `%` operator of JavaScript on numbers (remainder with the sign of the dividend). -/
def jsMod (a b : ℚ) : ℚ := a - b * (trunc (a / b) : ℚ)

/-! ## Bird -/

/-- State of a `Bird` (the colour table `characterColors` is constant and left out). -/
structure Bird where
  character : String
  x : ℚ
  y : ℚ
  width : ℚ
  height : ℚ
  velocity : ℚ
  gravity : ℚ
  flapPower : ℚ
  maxVelocity : ℚ
  rotation : ℚ
  wingFlap : ℚ
  deriving DecidableEq, Repr

/-- The `Bird` constructor. -/
def Bird.new (character : String) : Bird :=
  { character := character
    x := 100
    y := 200
    width := 30
    height := 25
    velocity := 0
    gravity := 1 / 4
    flapPower := -6
    maxVelocity := 7
    rotation := 0
    wingFlap := 0 }

/-- `Bird.update()`. -/
def Bird.update (b : Bird) : Bird :=
  let velocity := min (b.velocity + b.gravity) b.maxVelocity
  { b with
    velocity := velocity
    y := b.y + velocity
    rotation := min (b.rotation + 1 / 20) (Math_PI / 6)
    wingFlap := jsMod (b.wingFlap + 1 / 10) (Math_PI * 2) }

/-- `Bird.flap()`. -/
def Bird.flap (b : Bird) : Bird :=
  { b with
    velocity := b.flapPower
    rotation := -Math_PI / 6
    wingFlap := -Math_PI / 4 }

/-- `Bird.isAlive()`. -/
def Bird.isAlive (b : Bird) : Bool := decide (b.y > -50) && decide (b.y < 10000)

/-- A call made on a bird after its construction. -/
inductive BirdOp where
  | update
  | flap
  deriving DecidableEq, Repr

/-- Apply one call to a bird. -/
def Bird.apply (b : Bird) : BirdOp → Bird
  | .update => b.update
  | .flap => b.flap

/-- Apply a sequence of calls, first call first. -/
def Bird.run (b : Bird) (ops : List BirdOp) : Bird := ops.foldl Bird.apply b

/-! ## Pipe -/

/-- State of a `Pipe`. -/
structure Pipe where
  x : ℚ
  gap : ℚ
  gapSize : ℚ
  width : ℚ
  speed : ℚ
  passed : Bool
  deriving DecidableEq, Repr

/-- The `Pipe` constructor. -/
def Pipe.new (x gap gapSize : ℚ) : Pipe :=
  { x := x, gap := gap, gapSize := gapSize, width := 60, speed := 4, passed := false }

/-- `Pipe.update()`. -/
def Pipe.update (p : Pipe) : Pipe := { p with x := p.x - p.speed }

/-- `Pipe.isOffScreen()`. -/
def Pipe.isOffScreen (p : Pipe) : Bool := decide (p.x + p.width < 0)

/-- `Pipe.collidesWith(bird)`. -/
def Pipe.collidesWith (p : Pipe) (bird : Bird) : Bool :=
  let birdLeft := bird.x - bird.width / 2
  let birdRight := bird.x + bird.width / 2
  let birdTop := bird.y - bird.height / 2
  let birdBottom := bird.y + bird.height / 2
  let pipeLeft := p.x
  let pipeRight := p.x + p.width
  if birdRight > pipeLeft ∧ birdLeft < pipeRight then
    if birdTop < p.gap ∨ birdBottom > p.gap + p.gapSize then
      true
    else
      false
  else
    false

/-! ## Entities owned by the game -/

/-- State of a `Particle`. -/
structure Particle where
  x : ℚ
  y : ℚ
  vx : ℚ
  vy : ℚ
  color : String
  life : Int
  maxLife : Int
  deriving DecidableEq, Repr

/-- The `Particle` constructor. -/
def Particle.new (x y vx vy : ℚ) (color : String) (life : Int) : Particle :=
  { x := x, y := y, vx := vx, vy := vy, color := color, life := life, maxLife := life }

/-- `Particle.update()`. -/
def Particle.update (p : Particle) : Particle :=
  { p with x := p.x + p.vx, y := p.y + p.vy, vy := p.vy + 1 / 5, life := p.life - 1 }

/-- The keys of `powerUpTypes`. -/
inductive PowerUpType where
  | shield
  | slowMotion
  | magnet
  | doublePoints
  | ghost
  | speedBoost
  | coin
  deriving DecidableEq, Repr

/-- The string a power-up type is written as in the source. -/
def PowerUpType.name : PowerUpType → String
  | .shield => "shield"
  | .slowMotion => "slowMotion"
  | .magnet => "magnet"
  | .doublePoints => "doublePoints"
  | .ghost => "ghost"
  | .speedBoost => "speedBoost"
  | .coin => "coin"

/-- An entry of the table `powerUpTypes`. -/
structure PowerUpSetting where
  duration : Int
  color : String
  emoji : String
  deriving DecidableEq, Repr

/-- The table `this.powerUpTypes`. -/
def powerUpTypes : PowerUpType → PowerUpSetting
  | .shield => { duration := 300, color := "#FFD700", emoji := "🛡" }
  | .slowMotion => { duration := 350, color := "#00BFFF", emoji := "⏱" }
  | .magnet => { duration := 500, color := "#FF69B4", emoji := "🧲" }
  | .doublePoints => { duration := 750, color := "#FFB700", emoji := "2x" }
  | .ghost => { duration := 150, color := "#E0E0E0", emoji := "👻" }
  | .speedBoost => { duration := 400, color := "#FF4500", emoji := "⚡" }
  | .coin => { duration := 0, color := "#FFD700", emoji := "💰" }

/-- A value stored in `activePowerUps`: `uses` is present only on the ghost entry. -/
structure ActivePowerUp where
  duration : Int
  uses : Option Int
  deriving DecidableEq, Repr

/-- The object `activePowerUps`: a key is present when it maps to `some`. -/
abbrev ActivePowerUps := PowerUpType → Option ActivePowerUp

/-- The empty object `{}`. -/
def ActivePowerUps.empty : ActivePowerUps := fun _ => none

/-- Assignment `activePowerUps[k] = v`. -/
def ActivePowerUps.set (m : ActivePowerUps) (k : PowerUpType) (v : ActivePowerUp) :
    ActivePowerUps :=
  fun k' => if k' = k then some v else m k'

/-- The statement `delete activePowerUps[k]`. -/
def ActivePowerUps.delete (m : ActivePowerUps) (k : PowerUpType) : ActivePowerUps :=
  fun k' => if k' = k then none else m k'

/-- Truthiness of `activePowerUps[k]`. -/
def ActivePowerUps.has (m : ActivePowerUps) (k : PowerUpType) : Bool := (m k).isSome

/-- A live power-up in `powerUps`. -/
structure PowerUp where
  type : PowerUpType
  x : ℚ
  y : ℚ
  width : ℚ
  height : ℚ
  speed : ℚ
  rotation : ℚ
  deriving DecidableEq, Repr

/-- An element of `scoreFloaters`. -/
structure ScoreFloater where
  x : ℚ
  y : ℚ
  text : String
  alpha : ℚ
  vx : ℚ
  deriving DecidableEq, Repr

/-- The object `sessionStats`. -/
structure SessionStats where
  gamesPlayed : Int
  totalScore : Int
  totalCoins : Int
  gamesWon : Int
  bestCombo : Int
  longestSession : Int
  pipesAvoided : Int
  deriving DecidableEq, Repr

/-- An entry of the persisted leaderboard. -/
structure ScoreEntry where
  score : Int
  character : String
  difficulty : String
  coins : Int
  combo : Int
  timestamp : String
  deriving DecidableEq, Repr

/-- The three `localStorage` keys the game uses; `none` is an absent key. -/
structure Storage where
  flybird_stats : Option SessionStats
  flappyBirdHighScore : Option Int
  flappyBirdScores : Option (List ScoreEntry)
  deriving DecidableEq, Repr

/-- A difficulty profile. -/
structure Difficulty where
  id : String
  name : String
  gapSize : ℚ
  spawnRate : Nat
  deriving DecidableEq, Repr

/-- The list `difficulties` of `populateDifficultySelect`. -/
def difficulties : List Difficulty :=
  [ { id := "veryeasy", name := "Very Easy", gapSize := 200, spawnRate := 180 },
    { id := "easy", name := "Easy", gapSize := 180, spawnRate := 160 },
    { id := "normal", name := "Normal", gapSize := 150, spawnRate := 140 },
    { id := "hard", name := "Hard", gapSize := 120, spawnRate := 120 },
    { id := "extreme", name := "Extreme", gapSize := 100, spawnRate := 100 } ]

/-- The canvas dimensions. -/
structure Canvas where
  width : ℚ
  height : ℚ
  deriving DecidableEq, Repr

/-- The values of `gameState`. -/
inductive GameState where
  | menu
  | playing
  | paused
  | gameover
  deriving DecidableEq, Repr

/-- What the surroundings supply: the stream of `Math.random()` results, `Math.cos`,
`Math.sin`, the ISO string of `new Date()` and whether `adMobManager` is defined. -/
structure Env where
  random : Nat → ℚ
  cos : ℚ → ℚ
  sin : ℚ → ℚ
  now : String
  adMobManager : Bool

/-! ## Game -/

/-- State of a `Game`. `storage` is the content of `localStorage`; `randomCalls` counts the
calls of `Math.random()` made so far. -/
structure Game where
  canvas : Canvas
  bird : Bird
  pipes : List Pipe
  particles : List Particle
  powerUps : List PowerUp
  score : Int
  coins : Int
  highScore : Int
  gameRunning : Bool
  gamePaused : Bool
  difficulty : String
  frameCount : Nat
  sessionStats : SessionStats
  activePowerUps : ActivePowerUps
  gameSpeedMultiplier : ℚ
  difficultySettings : Difficulty
  screenShake : Int
  screenShakeIntensity : ℚ
  scoreFloaters : List ScoreFloater
  pipesMissed : Int
  gameState : GameState
  comboMultiplier : ℚ
  consecutiveScores : Int
  storage : Storage
  randomCalls : Nat

/-- `Math.random()`: the next draw and the state that has consumed it. -/
def Game.random (env : Env) (g : Game) : ℚ × Game :=
  (env.random g.randomCalls, { g with randomCalls := g.randomCalls + 1 })

/-- `n.toString(16).padStart(2, '0')`. -/
def hex2 (n : Nat) : String :=
  let s := String.mk (Nat.toDigits 16 n)
  if s.length < 2 then "0" ++ s else s

/-- `createScoreFloater(x, y, text)`. -/
def Game.createScoreFloater (env : Env) (x y : ℚ) (text : String) (g : Game) : Game :=
  let (r, g) := g.random env
  { g with
    scoreFloaters := g.scoreFloaters ++
      [{ x := x, y := y, text := text, alpha := 1, vx := (r - 1 / 2) * 2 }] }

/-- `createScoreParticles(x, y)`: iterations `i, i+1, ..., 7` when called with `8 - i` rounds. -/
def Game.createScoreParticlesFrom (env : Env) (x y : ℚ) : Nat → Nat → Game → Game
  | 0, _, g => g
  | n + 1, i, g =>
    let angle := Math_PI * 2 * (i : ℚ) / 8
    let speed : ℚ := 3
    let g := { g with
      particles := g.particles ++
        [Particle.new x y (env.cos angle * speed) (env.sin angle * speed) "#FFD700" 30] }
    Game.createScoreParticlesFrom env x y n (i + 1) g

/-- `createScoreParticles(x, y)`. -/
def Game.createScoreParticles (env : Env) (x y : ℚ) (g : Game) : Game :=
  Game.createScoreParticlesFrom env x y 8 0 g

/-- `createComboBonusParticles()`: iterations `i, i+1, ...` for the given number of rounds. -/
def Game.createComboBonusParticlesFrom (env : Env) : Nat → Nat → Game → Game
  | 0, _, g => g
  | n + 1, i, g =>
    let (r1, g) := g.random env
    let angle := r1 * Math_PI * 2
    let (r2, g) := g.random env
    let speed := 2 + r2 * 3
    let g := { g with
      particles := g.particles ++
        [Particle.new (g.canvas.width / 2) (g.canvas.height / 2)
          (env.cos angle * speed) (env.sin angle * speed)
          (if i % 2 = 0 then "#FFD700" else "#FFA500") 50] }
    Game.createComboBonusParticlesFrom env n (i + 1) g

/-- `createComboBonusParticles()`. -/
def Game.createComboBonusParticles (env : Env) (g : Game) : Game :=
  Game.createComboBonusParticlesFrom env 25 0 g

/-- `createExplosionParticles(x, y)`: the given number of loop rounds. -/
def Game.createExplosionParticlesFrom (env : Env) (x y : ℚ) : Nat → Game → Game
  | 0, g => g
  | n + 1, g =>
    let (r1, g) := g.random env
    let angle := r1 * Math_PI * 2
    let (r2, g) := g.random env
    let speed := 2 + r2 * 4
    let (r3, g) := g.random env
    let color := "#FF" ++ hex2 (⌊r3 * 256⌋).toNat ++ "00"
    let g := { g with
      particles := g.particles ++
        [Particle.new x y (env.cos angle * speed) (env.sin angle * speed) color 50] }
    Game.createExplosionParticlesFrom env x y n g

/-- `createExplosionParticles(x, y)`. -/
def Game.createExplosionParticles (env : Env) (x y : ℚ) (g : Game) : Game :=
  Game.createExplosionParticlesFrom env x y 20 g

/-- `generatePipe()`. The profile `difficultySettings` is always set, so its `gapSize` is
used. -/
def Game.generatePipe (env : Env) (g : Game) : Game :=
  let gapSize := g.difficultySettings.gapSize
  let minGap : ℚ := 75
  let maxGap := g.canvas.height - gapSize - 75
  let (r, g) := g.random env
  let gap := r * (maxGap - minGap) + minGap
  { g with pipes := g.pipes ++ [Pipe.new g.canvas.width gap gapSize] }

/-- The keys of `powerUpTypes` other than `coin`, in the order of the table. -/
def nonCoinTypes : List PowerUpType :=
  [.shield, .slowMotion, .magnet, .doublePoints, .ghost, .speedBoost]

/-- `spawnPowerUp()`. An index outside the list (no draw in `[0, 1)` gives one) is read as
`coin`. -/
def Game.spawnPowerUp (env : Env) (g : Game) : Game :=
  let types := nonCoinTypes
  let (r1, g) := g.random env
  let (randomType, g) :=
    if r1 < 2 / 5 then (PowerUpType.coin, g)
    else
      let (r2, g) := g.random env
      ((types.get? (⌊r2 * (types.length : ℚ)⌋).toNat).getD PowerUpType.coin, g)
  let (r3, g) := g.random env
  let powerUp : PowerUp :=
    { type := randomType
      x := g.canvas.width
      y := r3 * (g.canvas.height - 80) + 40
      width := 30
      height := 30
      speed := 3
      rotation := 0 }
  { g with powerUps := g.powerUps ++ [powerUp] }

/-- `activatePowerUp(type)`. -/
def Game.activatePowerUp (env : Env) (type : PowerUpType) (g : Game) : Game :=
  let settings := powerUpTypes type
  match type with
  | .shield =>
    let g := { g with
      activePowerUps := g.activePowerUps.set .shield { duration := settings.duration, uses := none } }
    g.createExplosionParticles env g.bird.x g.bird.y
  | .slowMotion =>
    { g with
      activePowerUps :=
        g.activePowerUps.set .slowMotion { duration := settings.duration, uses := none } }
  | .magnet =>
    { g with
      activePowerUps := g.activePowerUps.set .magnet { duration := settings.duration, uses := none } }
  | .doublePoints =>
    { g with
      activePowerUps :=
        g.activePowerUps.set .doublePoints { duration := settings.duration, uses := none } }
  | .ghost =>
    { g with
      activePowerUps := g.activePowerUps.set .ghost { duration := settings.duration, uses := some 2 } }
  | .speedBoost =>
    { g with
      activePowerUps :=
        g.activePowerUps.set .speedBoost { duration := settings.duration, uses := none } }
  | .coin => g

/-- The comparison `(a, b) => b.score - a.score` of the leaderboard sorts, as the order
"a may stand before b". -/
def scoreOrder (a b : ScoreEntry) : Prop := b.score ≤ a.score

instance : DecidableRel scoreOrder := fun a b => inferInstanceAs (Decidable (b.score ≤ a.score))

/-- The call `scores.sort((a, b) => b.score - a.score)`: a stable sort, descending by score. -/
def sortScores (scores : List ScoreEntry) : List ScoreEntry :=
  scores.insertionSort scoreOrder

/-- `loadHighScore()`. -/
def Game.loadHighScore (g : Game) : Int :=
  match g.storage.flappyBirdHighScore with
  | some saved => saved
  | none => 0

/-- `saveHighScore()`. -/
def Game.saveHighScore (g : Game) : Game :=
  { g with storage := { g.storage with flappyBirdHighScore := some g.highScore } }

/-- `loadStats()`. -/
def Game.loadStats (g : Game) : Game :=
  match g.storage.flybird_stats with
  | some saved => { g with sessionStats := saved }
  | none => g

/-- `saveStats()`. -/
def Game.saveStats (g : Game) : Game :=
  { g with storage := { g.storage with flybird_stats := some g.sessionStats } }

/-- `getTopScores()`. -/
def Game.getTopScores (g : Game) : List ScoreEntry :=
  let scores :=
    match g.storage.flappyBirdScores with
    | some saved => saved
    | none => []
  (sortScores scores).take 10

/-- `saveScore(score)`. -/
def Game.saveScore (env : Env) (score : Int) (g : Game) : Game :=
  let scores := g.getTopScores
  let scores := scores ++
    [{ score := score
       character := g.bird.character
       difficulty := g.difficulty
       coins := g.coins
       combo := g.sessionStats.bestCombo
       timestamp := env.now }]
  { g with storage := { g.storage with flappyBirdScores := some ((sortScores scores).take 20) } }

/-- `endGame()`. -/
def Game.endGame (env : Env) (g : Game) : Game :=
  let g := { g with gameRunning := false, gameState := GameState.gameover }
  let g := g.createExplosionParticles env g.bird.x g.bird.y
  -- the interstitial-ad test draws a number only when `adMobManager` is defined
  let g := if env.adMobManager then (g.random env).2 else g
  let g :=
    if g.score > g.highScore then
      Game.saveHighScore { g with highScore := g.score }
    else g
  let g := g.saveScore env g.score
  let g := { g with
    sessionStats := { g.sessionStats with
      totalScore := g.sessionStats.totalScore + g.score } }
  let g := { g with
    sessionStats := { g.sessionStats with
      totalCoins := g.sessionStats.totalCoins + g.coins } }
  g.saveStats

/-- `startGame()`. -/
def Game.startGame (g : Game) : Game :=
  { g with
    bird := Bird.new g.bird.character
    pipes := []
    particles := []
    powerUps := []
    scoreFloaters := []
    score := 0
    coins := 0
    activePowerUps := ActivePowerUps.empty
    frameCount := 0
    pipesMissed := 0
    gameRunning := true
    gamePaused := false
    gameState := GameState.playing
    comboMultiplier := 1
    consecutiveScores := 0
    sessionStats := { g.sessionStats with gamesPlayed := g.sessionStats.gamesPlayed + 1 }
    screenShake := 0 }

/-- `togglePause()`. -/
def Game.togglePause (g : Game) : Game :=
  if g.gameState = GameState.playing then
    { g with gamePaused := true, gameState := GameState.paused }
  else if g.gameState = GameState.paused then
    { g with gamePaused := false, gameState := GameState.playing }
  else g

/-- `goToMenu()`. -/
def Game.goToMenu (g : Game) : Game :=
  { g with gameState := GameState.menu, gameRunning := false, gamePaused := false }

/-- `handleInput()`: a click, a touch or the space key. -/
def Game.handleInput (g : Game) : Game :=
  if g.gameState = GameState.playing then { g with bird := g.bird.flap } else g

/-! ### The per-frame update -/

/-- The score-floater loop of `update()`: every floater rises by 2 and fades by 0.02, and a
floater whose alpha is then `≤ 0` is spliced out. -/
def updateScoreFloaters (fs : List ScoreFloater) : List ScoreFloater :=
  fs.filterMap fun f =>
    let f := { f with y := f.y - 2, alpha := f.alpha - 1 / 50 }
    if f.alpha ≤ 0 then none else some f

/-- The particle loop of `update()`: every particle is updated, and a particle whose life is
then `≤ 0` is spliced out. -/
def updateParticles (ps : List Particle) : List Particle :=
  ps.filterMap fun p =>
    let p := p.update
    if p.life ≤ 0 then none else some p

/-- The modifier-timer loop of `update()`: every entry loses one unit of duration and is
deleted when its duration is then `≤ 0`. -/
def tickPowerUps (m : ActivePowerUps) : ActivePowerUps :=
  fun key =>
    match m key with
    | none => none
    | some e =>
      let e := { e with duration := e.duration - 1 }
      if e.duration ≤ 0 then none else some e

/-- The speed multiplier `update()` computes before the pipe loop. -/
def Game.speedMultiplier (g : Game) : ℚ :=
  if g.activePowerUps.has .slowMotion then g.gameSpeedMultiplier * (1 / 2)
  else if g.activePowerUps.has .speedBoost then g.gameSpeedMultiplier * (13 / 10)
  else g.gameSpeedMultiplier

/-- The ghost branch of the collision handling: `ghost.uses--`, then the entry is deleted
when its uses are `≤ 0`. -/
def Game.useGhost (g : Game) : Game :=
  match g.activePowerUps .ghost with
  | some ghost =>
    let ghost := { ghost with uses := ghost.uses.map (· - 1) }
    let exhausted :=
      match ghost.uses with
      | some uses => decide (uses ≤ 0)
      | none => false
    if exhausted then { g with activePowerUps := g.activePowerUps.delete .ghost }
    else { g with activePowerUps := g.activePowerUps.set .ghost ghost }
  | none => g

/-- The body of `if (this.pipes[i].collidesWith(this.bird))` in `update()`. The flag says
whether `update()` returned from here (after `endGame()`). -/
def Game.resolveCollision (env : Env) (g : Game) : Game × Bool :=
  if !g.activePowerUps.has .shield && !g.activePowerUps.has .ghost then
    let g := g.createExplosionParticles env g.bird.x g.bird.y
    let g := { g with
      screenShake := 10
      screenShakeIntensity := 5
      consecutiveScores := 0
      comboMultiplier := 1 }
    (g.endGame env, true)
  else if g.activePowerUps.has .shield then
    let g := { g with activePowerUps := g.activePowerUps.delete .shield }
    let g := g.createExplosionParticles env g.bird.x g.bird.y
    ({ g with screenShake := 5 }, false)
  else if g.activePowerUps.has .ghost then (g.useGhost, false)
  else (g, false)

/-- The assignment `this.pipes[i].passed = true`. -/
def setPassed (pipes : List Pipe) (i : Nat) : List Pipe :=
  match pipes[i]? with
  | some p => pipes.set i { p with passed := true }
  | none => pipes

/-- The combo multiplier for a streak: `Math.min(1 + (consecutiveScores * 0.1), 3)`. -/
def comboFor (consecutiveScores : Int) : ℚ :=
  min (1 + (consecutiveScores : ℚ) * (1 / 10)) 3

/-- The points of one pass: `Math.floor(points * this.comboMultiplier)` with `points` 2 under
the double-points modifier and 1 otherwise. -/
def Game.finalScore (g : Game) (comboMultiplier : ℚ) : Int :=
  let points : ℚ := if g.activePowerUps.has .doublePoints then 2 else 1
  ⌊points * comboMultiplier⌋

/-- The counters part of the score check: the flag, `pipesMissed`, the streak, the combo
multiplier, the score and `sessionStats.pipesAvoided`. -/
def Game.awardPass (i : Nat) (g : Game) : Game :=
  let consecutiveScores := g.consecutiveScores + 1
  let comboMultiplier := comboFor consecutiveScores
  let finalScore := g.finalScore comboMultiplier
  { g with
    pipes := setPassed g.pipes i
    pipesMissed := g.pipesMissed + 1
    consecutiveScores := consecutiveScores
    comboMultiplier := comboMultiplier
    score := g.score + finalScore
    sessionStats := { g.sessionStats with pipesAvoided := g.sessionStats.pipesAvoided + 1 } }

/-- The bonus for high combos in the score check. -/
def Game.comboBonus (env : Env) (g : Game) : Game :=
  if g.consecutiveScores % 5 = 0 ∧ g.consecutiveScores > 0 then
    Game.createScoreFloater env (g.canvas.width / 2) (g.canvas.height / 2)
      ("COMBO x" ++ toString g.consecutiveScores ++ "!") (g.createComboBonusParticles env)
  else g

/-- The best-combo tracking in the score check. -/
def Game.trackBestCombo (g : Game) : Game :=
  if g.consecutiveScores > g.sessionStats.bestCombo then
    { g with sessionStats := { g.sessionStats with bestCombo := g.consecutiveScores } }
  else g

/-- The body of the score check `if (!this.pipes[i].passed && ...)` in `update()`: the
counters, then the score particles and floater, the combo bonus and the best combo. -/
def Game.scorePipe (env : Env) (i : Nat) (g : Game) : Game :=
  let finalScore := g.finalScore (comboFor (g.consecutiveScores + 1))
  let g := g.awardPass i
  let g := g.createScoreParticles env g.bird.x g.bird.y
  let g := g.createScoreFloater env g.bird.x g.bird.y ("+" ++ toString finalScore)
  Game.trackBestCombo (g.comboBonus env)

/-- The movement of a pipe in the pipe loop: `speed = 3 * speedMultiplier`, then
`Pipe.update()`. -/
def Pipe.move (p : Pipe) (speedMultiplier : ℚ) : Pipe :=
  Pipe.update { p with speed := 3 * speedMultiplier }

/-- The score test `!pipe.passed && pipe.x + pipe.width < bird.x`. -/
def Pipe.scores (p : Pipe) (bird : Bird) : Bool :=
  !p.passed && decide (p.x + p.width < bird.x)

/-- The score check and the removal of one round of the pipe loop, for the moved pipe `p`
at index `i`. The score check leaves the position of pipe `i` as in `p`. -/
def Game.scoreAndRemove (env : Env) (i : Nat) (p : Pipe) (g : Game) : Game :=
  -- check score
  let g := if p.scores g.bird then g.scorePipe env i else g
  -- remove off-screen pipes
  if p.isOffScreen then { g with pipes := g.pipes.eraseIdx i } else g

/-- One round of the pipe loop of `update()`, for index `i`, with the speed multiplier of
this tick. The flag says whether `update()` returned from inside the round. An index outside
the array is not reached by the loop. -/
def Game.pipeIter (env : Env) (speedMultiplier : ℚ) (i : Nat) (g : Game) : Game × Bool :=
  match g.pipes[i]? with
  | none => (g, false)
  | some p =>
    let moved : Game := { g with pipes := g.pipes.set i (p.move speedMultiplier) }
    -- check collision
    if (p.move speedMultiplier).collidesWith g.bird then
      match moved.resolveCollision env with
      | (g, true) => (g, true)
      | (g, false) => (g.scoreAndRemove env i (p.move speedMultiplier), false)
    else (moved.scoreAndRemove env i (p.move speedMultiplier), false)

/-- The pipe loop of `update()`: the rounds for indices `n - 1, n - 2, ..., 0`. -/
def Game.pipeLoop (env : Env) (speedMultiplier : ℚ) : Nat → Game → Game × Bool
  | 0, g => (g, false)
  | n + 1, g =>
    match g.pipeIter env speedMultiplier n with
    | (g, true) => (g, true)
    | (g, false) => Game.pipeLoop env speedMultiplier n g

/-- The first steps of `update()`: the frame counter, the screen shake, the bird and the
score floaters. -/
def Game.advance (g : Game) : Game :=
  { g with
    frameCount := g.frameCount + 1
    screenShake := if g.screenShake > 0 then g.screenShake - 1 else g.screenShake
    bird := g.bird.update
    scoreFloaters := updateScoreFloaters g.scoreFloaters }

/-- The spawn step of `update()`, with `spawnRate = this.difficultySettings.spawnRate || 160`. -/
def Game.spawnStep (env : Env) (g : Game) : Game :=
  let spawnRate :=
    if g.difficultySettings.spawnRate = 0 then 160 else g.difficultySettings.spawnRate
  if g.frameCount % spawnRate = 0 then g.generatePipe env else g

/-- The last steps of `update()`, after the pipe loop: the modifier timers, the particles
and the random power-up spawn. -/
def Game.finishTick (env : Env) (g : Game) : Game :=
  let g := { g with
    activePowerUps := tickPowerUps g.activePowerUps
    particles := updateParticles g.particles }
  let (r, g) := g.random env
  if r < 3 / 200 then g.spawnPowerUp env else g

/-- `update()`. -/
def Game.update (env : Env) (g : Game) : Game :=
  if !g.gameRunning || g.gamePaused then g
  else
    let g := g.advance
    -- check bounds
    if g.bird.y > g.canvas.height ∨ g.bird.y < 0 then g.endGame env
    else
      -- generate pipes
      let g := g.spawnStep env
      -- update pipes
      match g.pipeLoop env g.speedMultiplier g.pipes.length with
      | (g, true) => g
      | (g, false) => g.finishTick env

/-- The `Game` constructor, given the content of `localStorage`: the canvas is 400 by 640,
the profile is `easy` (set by `populateDifficultySelect`). The constructor leaves
`comboMultiplier` and `consecutiveScores` unset; nothing reads them before `startGame()`
assigns them, and they are given the values it assigns. -/
def Game.new (storage : Storage) : Game :=
  Game.loadStats
    { canvas := { width := 400, height := 640 }
      bird := Bird.new "classic"
      pipes := []
      particles := []
      powerUps := []
      score := 0
      coins := 0
      highScore :=
        match storage.flappyBirdHighScore with
        | some saved => saved
        | none => 0
      gameRunning := false
      gamePaused := false
      difficulty := "normal"
      frameCount := 0
      sessionStats :=
        { gamesPlayed := 0, totalScore := 0, totalCoins := 0, gamesWon := 0, bestCombo := 0,
          longestSession := 0, pipesAvoided := 0 }
      activePowerUps := ActivePowerUps.empty
      gameSpeedMultiplier := 13 / 20
      difficultySettings := { id := "easy", name := "Easy", gapSize := 180, spawnRate := 160 }
      screenShake := 0
      screenShakeIntensity := 0
      scoreFloaters := []
      pipesMissed := 0
      gameState := GameState.menu
      comboMultiplier := 1
      consecutiveScores := 0
      storage := storage
      randomCalls := 0 }

/-- Run `update()` the given number of times, with no other call in between. -/
def Game.updates (env : Env) : Nat → Game → Game
  | 0, g => g
  | n + 1, g => Game.updates env n (g.update env)

/-! ### Ranks -/

/-- An entry of the table `ranks`; `maxScore = none` is `Infinity`. -/
structure Rank where
  name : String
  minScore : Int
  maxScore : Option Int
  color : String
  icon : String
  deriving DecidableEq, Repr

/-- The first entry of `ranks`. -/
def Rank.rookie : Rank :=
  { name := "Rookie", minScore := 0, maxScore := some 49, color := "#888888", icon := "🔰" }

/-- The second entry of `ranks`. -/
def Rank.beginner : Rank :=
  { name := "Beginner", minScore := 50, maxScore := some 99, color := "#4CAF50", icon := "🌱" }

/-- The third entry of `ranks`. -/
def Rank.amateur : Rank :=
  { name := "Amateur", minScore := 100, maxScore := some 199, color := "#2196F3", icon := "⭐" }

/-- The fourth entry of `ranks`. -/
def Rank.pro : Rank :=
  { name := "Pro", minScore := 200, maxScore := some 399, color := "#FF9800", icon := "🏆" }

/-- The fifth entry of `ranks`. -/
def Rank.expert : Rank :=
  { name := "Expert", minScore := 400, maxScore := some 699, color := "#F44336", icon := "🔥" }

/-- The sixth entry of `ranks`. -/
def Rank.master : Rank :=
  { name := "Master", minScore := 700, maxScore := some 999, color := "#9C27B0", icon := "👑" }

/-- The last entry of `ranks`. -/
def Rank.legend : Rank :=
  { name := "Legend", minScore := 1000, maxScore := none, color := "#FFD700", icon := "✨" }

/-- The table `this.ranks`. -/
def ranks : List Rank :=
  [Rank.rookie, Rank.beginner, Rank.amateur, Rank.pro, Rank.expert, Rank.master, Rank.legend]

/-- The test `score >= rank.minScore && score <= rank.maxScore`. -/
def Rank.holds (rank : Rank) (score : Int) : Bool :=
  decide (score ≥ rank.minScore) &&
    (match rank.maxScore with
     | some maxScore => decide (score ≤ maxScore)
     | none => true)

/-- The expression `this.ranks.find(rank => ...) || this.ranks[0]` for a score. -/
def rankFor (score : Int) : Rank :=
  match ranks.find? (fun rank => rank.holds score) with
  | some rank => rank
  | none => ranks.headD Rank.rookie

/-- `getCurrentRank()`. -/
def Game.getCurrentRank (g : Game) : Rank := rankFor g.score

/-- `getHighScoreRank()`. -/
def Game.getHighScoreRank (g : Game) : Rank := rankFor g.highScore

/-- `getRankProgress()`. -/
def Game.getRankProgress (g : Game) : ℚ :=
  let currentRank := g.getCurrentRank
  match ranks.get? (ranks.indexOf currentRank + 1) with
  | none => 100
  | some nextRank =>
    let progress :=
      ((g.score : ℚ) - currentRank.minScore) / ((nextRank.minScore : ℚ) - currentRank.minScore)
        * 100
    min progress 100

/-! ### Drawing -/

/-- `createPowerUpParticles(x, y)`: iterations `i, i+1, ...` for the given number of rounds. -/
def Game.createPowerUpParticlesFrom (env : Env) (x y : ℚ) : Nat → Nat → Game → Game
  | 0, _, g => g
  | n + 1, i, g =>
    let angle := Math_PI * 2 * (i : ℚ) / 16
    let speed : ℚ := 7 / 2
    let g := { g with
      particles := g.particles ++
        [Particle.new x y (env.cos angle * speed) (env.sin angle * speed) "#FFD700" 30] }
    Game.createPowerUpParticlesFrom env x y n (i + 1) g

/-- `createPowerUpParticles(x, y)`. -/
def Game.createPowerUpParticles (env : Env) (x y : ℚ) (g : Game) : Game :=
  Game.createPowerUpParticlesFrom env x y 16 0 g

/-- The screen-shake step of `draw()`: two draws of `Math.random()` while shaking. -/
def Game.drawShake (env : Env) (g : Game) : Game :=
  if g.screenShake > 0 then (Game.random env (Game.random env g).2).2 else g

/-- The coin reward of a pick-up in `draw()`. -/
def Game.coinReward (type : PowerUpType) (g : Game) : Game :=
  if type = PowerUpType.coin then
    { g with
      coins := g.coins + 10
      sessionStats := { g.sessionStats with totalCoins := g.sessionStats.totalCoins + 10 } }
  else g

/-- The body of the pick-up test of `draw()` for the power-up `pu` at index `i`. -/
def Game.pickUp (env : Env) (i : Nat) (pu : PowerUp) (g : Game) : Game :=
  let g := g.activatePowerUp env pu.type
  let g := g.coinReward pu.type
  let g := g.createPowerUpParticles env pu.x pu.y
  let g := g.createScoreFloater env pu.x pu.y
    (if pu.type = PowerUpType.coin then "+10 🪙" else "+" ++ pu.type.name)
  { g with powerUps := g.powerUps.eraseIdx i }

/-- The movement of a power-up in `draw()`: `pu.x -= pu.speed` and the rotation. -/
def PowerUp.move (pu : PowerUp) : PowerUp :=
  { pu with
    x := pu.x - pu.speed
    rotation := jsMod (pu.rotation + 1 / 20) (Math_PI * 2) }

/-- The pick-up test of `draw()`:
`Math.abs(pu.x - bird.x) < 30 && Math.abs(pu.y - bird.y) < 30`. -/
def PowerUp.touches (pu : PowerUp) (bird : Bird) : Bool :=
  decide (|pu.x - bird.x| < 30) && decide (|pu.y - bird.y| < 30)

/-- The off-screen test of `draw()`: `pu.x + pu.width < 0`. -/
def PowerUp.isOffScreen (pu : PowerUp) : Bool := decide (pu.x + pu.width < 0)

/-- One round of the power-up loop of `draw()`, for index `i`. -/
def Game.drawPowerUpIter (env : Env) (i : Nat) (g : Game) : Game :=
  match g.powerUps[i]? with
  | none => g
  | some pu =>
    -- check collision with bird
    if pu.move.touches g.bird then
      Game.pickUp env i pu.move { g with powerUps := g.powerUps.set i pu.move }
    -- remove if off-screen
    else if pu.move.isOffScreen then
      { g with powerUps := (g.powerUps.set i pu.move).eraseIdx i }
    else { g with powerUps := g.powerUps.set i pu.move }

/-- The power-up loop of `draw()`: the rounds for indices `n - 1, ..., 0`. -/
def Game.drawPowerUpLoop (env : Env) : Nat → Game → Game
  | 0, g => g
  | n + 1, g => Game.drawPowerUpLoop env n (g.drawPowerUpIter env n)

/-- `draw()`: its effect on the game state (painting and the DOM are left out). -/
def Game.draw (env : Env) (g : Game) : Game :=
  let g := g.drawShake env
  if g.gameState = GameState.menu then g
  else Game.drawPowerUpLoop env g.powerUps.length g

/-- `gameLoop()`, one frame. -/
def Game.gameLoop (env : Env) (g : Game) : Game := Game.draw env (g.update env)

/-! ### Concrete surroundings used in examples -/

/-- Surroundings whose every `Math.random()` call returns `r`. -/
def Env.const (r : ℚ) : Env :=
  { random := fun _ => r, cos := fun _ => 1, sin := fun _ => 0, now := "2024-01-01T00:00:00.000Z",
    adMobManager := false }

/-- An empty `localStorage`. -/
def Storage.empty : Storage :=
  { flybird_stats := none, flappyBirdHighScore := none, flappyBirdScores := none }

/-- A freshly constructed game on an empty `localStorage`, after `startGame()`. -/
def Game.fresh : Game := Game.startGame (Game.new Storage.empty)

/-! ### Predicates used in the proofs -/

/-- The constants of a bird and the bounds on its velocity and rotation. -/
def Bird.Inv (b : Bird) : Prop :=
  b.gravity = 1 / 4 ∧ b.flapPower = -6 ∧ b.maxVelocity = 7 ∧ b.velocity ≤ 7 ∧
    -Math_PI / 6 ≤ b.rotation ∧ b.rotation ≤ Math_PI / 6

/-- A game state with other visual effects: the particles, the score floaters and the count
of `Math.random()` calls are replaced, everything else is kept. -/
def Game.withFx (g : Game) (ps : List Particle) (fs : List ScoreFloater) (n : Nat) : Game :=
  { g with particles := ps, scoreFloaters := fs, randomCalls := n }

/-- The state `g'` differs from `g` at most in its visual effects. -/
def Game.FxOnly (g g' : Game) : Prop :=
  ∃ ps fs n, g' = g.withFx ps fs n

/-- The statistics `endGame()` writes: the session's score and coins are added. -/
def Game.finalStats (g : Game) : SessionStats :=
  { g.sessionStats with
    totalScore := g.sessionStats.totalScore + g.score
    totalCoins := g.sessionStats.totalCoins + g.coins }

/-- The leaderboard entry `saveScore(score)` appends. -/
def Game.scoreEntry (env : Env) (score : Int) (g : Game) : ScoreEntry :=
  { score := score
    character := g.bird.character
    difficulty := g.difficulty
    coins := g.coins
    combo := g.sessionStats.bestCombo
    timestamp := env.now }

/-- A fresh game whose only pipe has already gone by the bird (right edge at 60, bird at 100). -/
def Game.onePipeBehind : Game := { Game.fresh with pipes := [Pipe.new 0 100 180] }

/-- The fresh game right after a ghost pick-up. -/
def Game.ghosted : Game := Game.fresh.activatePowerUp (Env.const (1 / 2)) PowerUpType.ghost

/-- The game `ghosted` after one collision check that found a collision. -/
def Game.ghostedOnce : Game := (Game.ghosted.resolveCollision (Env.const (1 / 2))).1

/-- The game `ghosted` after two collision checks that found a collision. -/
def Game.ghostedTwice : Game := (Game.ghostedOnce.resolveCollision (Env.const (1 / 2))).1

/-- The fresh game with an active shield and two pipes around the bird: after the next
update the bird's box (85..115 by 187.75..212.75) overlaps both pipes above their gaps. -/
def Game.shieldedTwoPipes : Game :=
  { Game.fresh.activatePowerUp (Env.const (1 / 2)) PowerUpType.shield with
    pipes := [Pipe.new 80 300 180, Pipe.new 100 300 180] }

/-- Height of a fresh bird after `n` unflapped updates: it accelerates by 0.25 per tick for
28 ticks and then falls at the terminal speed 7. -/
def fallY (n : Nat) : ℚ :=
  if n ≤ 28 then 200 + (n : ℚ) * ((n : ℚ) + 1) / 8 else 603 / 2 + 7 * ((n : ℚ) - 28)

/-- A session on the 640-high canvas with spawn rate 160 in which the bird has only fallen
for `n` ticks since `startGame()`: still running, no pipe yet, no modifier. -/
def Game.Falling (n : Nat) (g : Game) : Prop :=
  g.gameRunning = true ∧ g.gamePaused = false ∧ g.gameState = GameState.playing ∧
    g.frameCount = n ∧ g.pipes = [] ∧ g.canvas.height = 640 ∧
    g.difficultySettings.spawnRate = 160 ∧ g.bird.gravity = 1 / 4 ∧ g.bird.maxVelocity = 7 ∧
    g.bird.velocity = min ((1 / 4 : ℚ) * n) 7 ∧ g.bird.y = fallY n

/-- The fresh game with the bird on the lower edge of the canvas, a streak of three and the
combo multiplier 1.3 that goes with it. -/
def Game.fallingOut : Game :=
  { Game.fresh with
    bird := { Bird.new "classic" with y := 640 }
    consecutiveScores := 3
    comboMultiplier := 13 / 10 }

/-- The fresh game with a score of 5 (the high score is 0). -/
def Game.scoredFive : Game := { Game.fresh with score := 5 }

/-- The fresh game on a canvas only 200 high (the easy gap size is 180). -/
def Game.smallCanvas : Game := { Game.fresh with canvas := { width := 400, height := 200 } }

/-- A run of `saveScore` calls, first score first. -/
def Game.saveScores (env : Env) (scores : List Int) (g : Game) : Game :=
  scores.foldl (fun g score => g.saveScore env score) g

/-- The scores of the persisted leaderboard, in stored order. -/
def Game.storedScores (g : Game) : List Int :=
  match g.storage.flappyBirdScores with
  | some saved => saved.map ScoreEntry.score
  | none => []

/-- The scores 1, 2, ..., 25. -/
def oneTo25 : List Int := (List.range 25).map fun n => (n : Int) + 1

/-- The fresh game, paused, with a coin three units right of the bird. -/
def Game.pausedWithCoin : Game :=
  { Game.fresh.togglePause with
    powerUps :=
      [{ type := PowerUpType.coin, x := 103, y := 200, width := 30, height := 30, speed := 3,
         rotation := 0 }] }

/-- The fresh game with a score of 120. -/
def Game.scored120 : Game := { Game.fresh with score := 120 }

/-- What one round of the pipe loop does to its own pipe: the pipe is moved and, unless
`update()` returns from inside the round (`returned`), it is marked passed when the score test
holds. The flag says whether the score branch ran for it. -/
def Pipe.round (speedMultiplier : ℚ) (bird : Bird) (returned : Bool) (p : Pipe) : Pipe × Bool :=
  if !returned && (p.move speedMultiplier).scores bird then
    ({ p.move speedMultiplier with passed := true }, true)
  else (p.move speedMultiplier, false)

/-- The rounds one pipe goes through during its life, first round first: each round has its
speed multiplier, its bird and its `returned` flag. The result is the pipe after the rounds
and the number of times the score branch ran for it. -/
def Pipe.rounds : List (ℚ × Bird × Bool) → Pipe → Pipe × Nat
  | [], p => (p, 0)
  | (speedMultiplier, bird, returned) :: rest, p =>
    ((Pipe.rounds rest (p.round speedMultiplier bird returned).1).1,
      (if (p.round speedMultiplier bird returned).2 then 1 else 0) +
        (Pipe.rounds rest (p.round speedMultiplier bird returned).1).2)

/-- Two rounds of the pipe behind the bird, at the base speed, against a fresh bird. -/
def twoRounds : List (ℚ × Bird × Bool) :=
  [(13 / 20, Bird.new "classic", false), (13 / 20, Bird.new "classic", false)]

/-- What a round that goes on leaves of its pipe: nothing when the moved pipe is off screen,
the pipe after `Pipe.round` otherwise. -/
def Pipe.survive (speedMultiplier : ℚ) (bird : Bird) (p : Pipe) : Option Pipe :=
  if (p.move speedMultiplier).isOffScreen then none
  else some (p.round speedMultiplier bird false).1

/-! ### Runs of calls -/

/-- A call made on the game during a session: a frame's `update()` or `draw()` with what the
surroundings supply to it, a flap (`handleInput()`), a pause toggle, a direct
`activatePowerUp(type)` and `goToMenu()`. -/
inductive Command where
  | update (env : Env)
  | draw (env : Env)
  | flap
  | pause
  | activate (env : Env) (type : PowerUpType)
  | menu

/-- Perform one call. -/
def Game.step (g : Game) : Command → Game
  | .update env => g.update env
  | .draw env => g.draw env
  | .flap => g.handleInput
  | .pause => g.togglePause
  | .activate env type => g.activatePowerUp env type
  | .menu => g.goToMenu

/-- Perform a sequence of calls, first call first. -/
def Game.run (cmds : List Command) (g : Game) : Game := cmds.foldl Game.step g

/-- A sequence of sessions: each one is `startGame()` followed by its calls. -/
def Game.runSessions (sessions : List (List Command)) (g : Game) : Game :=
  sessions.foldl (fun g cmds => Game.run cmds g.startGame) g

/-- The combo multiplier is the one of the streak, and the streak and the score are not
negative. -/
def Game.ComboInv (g : Game) : Prop :=
  g.comboMultiplier = comboFor g.consecutiveScores ∧ 0 ≤ g.consecutiveScores ∧ 0 ≤ g.score

/-- What a step that does not end the session keeps: the coins, the cumulative coins and
score, the running flags, the phase, the bird, the speed constant, the live power-ups, every
modifier other than shield and ghost; the combo invariant, under which the score does not
decrease. -/
def Game.Survives (g g' : Game) : Prop :=
  g'.coins = g.coins ∧ g'.sessionStats.totalCoins = g.sessionStats.totalCoins ∧
    g'.sessionStats.totalScore = g.sessionStats.totalScore ∧
    g'.gameRunning = g.gameRunning ∧ g'.gamePaused = g.gamePaused ∧
    g'.gameState = g.gameState ∧ g'.bird = g.bird ∧
    g'.gameSpeedMultiplier = g.gameSpeedMultiplier ∧ g'.powerUps = g.powerUps ∧
    (∀ k, k ≠ PowerUpType.shield → k ≠ PowerUpType.ghost →
      g'.activePowerUps k = g.activePowerUps k) ∧
    (g.ComboInv → g'.ComboInv ∧ g.score ≤ g'.score)

/-- What holds when a step ends the session: the session is over, the coins are kept and
added once more to the cumulative coins, the final score is added to the cumulative score;
the live power-ups, the modifiers other than shield and ghost and the speed constant are
kept. -/
def Game.EndsFrom (g g' : Game) : Prop :=
  g'.gameRunning = false ∧ g'.gameState = GameState.gameover ∧ g'.coins = g.coins ∧
    g'.sessionStats.totalCoins = g.sessionStats.totalCoins + g.coins ∧
    g'.sessionStats.totalScore = g.sessionStats.totalScore + g'.score ∧
    g'.powerUps = g.powerUps ∧
    (∀ k, k ≠ PowerUpType.shield → k ≠ PowerUpType.ghost →
      g'.activePowerUps k = g.activePowerUps k) ∧
    (g.ComboInv → g'.ComboInv ∧ g.score ≤ g'.score) ∧
    g'.gameSpeedMultiplier = g.gameSpeedMultiplier

/-- What holds after a tick that does not end the session: the session runs on in the same
phase, the coins and the cumulative coins and score are kept, the bird has been updated, every
modifier other than shield and ghost has gone through the timer step, the combo invariant is
kept and under it the score has not decreased. -/
def Game.TickOn (g u : Game) : Prop :=
  u.gameRunning = true ∧ u.gamePaused = g.gamePaused ∧ u.gameState = g.gameState ∧
    u.coins = g.coins ∧ u.sessionStats.totalCoins = g.sessionStats.totalCoins ∧
    u.sessionStats.totalScore = g.sessionStats.totalScore ∧ u.bird = g.bird.update ∧
    u.gameSpeedMultiplier = g.gameSpeedMultiplier ∧
    (∀ k, k ≠ PowerUpType.shield → k ≠ PowerUpType.ghost →
      u.activePowerUps k = tickPowerUps g.activePowerUps k) ∧
    (g.ComboInv → u.ComboInv ∧ g.score ≤ u.score)

/-- The entry `activatePowerUp(type)` installs: the table duration, and 2 uses for the
ghost. -/
def freshEntry (type : PowerUpType) : ActivePowerUp :=
  { duration := (powerUpTypes type).duration
    uses := if type = PowerUpType.ghost then some 2 else none }

/-- The modifiers after `activatePowerUp(type)`: nothing changes for `coin`, the entry of
`type` is replaced by a fresh one otherwise. -/
def ActivePowerUps.activate (m : ActivePowerUps) (type : PowerUpType) : ActivePowerUps :=
  if type = PowerUpType.coin then m else m.set type (freshEntry type)

/-- What a drawing pass leaves of a power-up: nothing when the moved power-up touches the
bird (it is picked up) or is off screen, the moved power-up otherwise. -/
def PowerUp.survive (bird : Bird) (pu : PowerUp) : Option PowerUp :=
  if pu.move.touches bird || pu.move.isOffScreen then none else some pu.move

/-- Whether a drawing pass picks the power-up up as a coin. -/
def PowerUp.coinPicked (bird : Bird) (pu : PowerUp) : Bool :=
  pu.move.touches bird && decide (pu.type = PowerUpType.coin)

/-- What a drawing pass keeps: the score, the streak, the combo multiplier, the running
flags, the phase, the bird, the pipes, the cumulative score, the absence of a `coin`
modifier, the speed constant; the coins and the cumulative coins grow by the same amount. -/
def Game.DrawKeeps (g g' : Game) : Prop :=
  g'.score = g.score ∧ g'.consecutiveScores = g.consecutiveScores ∧
    g'.comboMultiplier = g.comboMultiplier ∧ g'.gameRunning = g.gameRunning ∧
    g'.gamePaused = g.gamePaused ∧ g'.gameState = g.gameState ∧ g'.bird = g.bird ∧
    g'.pipes = g.pipes ∧ g'.sessionStats.totalScore = g.sessionStats.totalScore ∧
    (g.activePowerUps PowerUpType.coin = none → g'.activePowerUps PowerUpType.coin = none) ∧
    g'.sessionStats.totalCoins - g.sessionStats.totalCoins = g'.coins - g.coins ∧
    g'.gameSpeedMultiplier = g.gameSpeedMultiplier

/-- The number of coins the drawing passes of a run pick up. -/
def Game.coinsPicked : List Command → Game → Nat
  | [], _ => 0
  | c :: cmds, g =>
    (match c with
      | .draw _ =>
        if g.gameState = GameState.menu then 0 else g.powerUps.countP (PowerUp.coinPicked g.bird)
      | _ => 0) + Game.coinsPicked cmds (g.step c)

/-- The coins and the cumulative statistics of a session that started with the cumulative
coins `T0` and score `S0` and has picked up `k` coins: the session coins are `10 k`, and while
the session runs the cumulative coins are `T0 + 10 k` and the cumulative score is still `S0`. -/
def Game.StatsInv (T0 S0 : Int) (k : Nat) (g : Game) : Prop :=
  g.coins = 10 * (k : Int) ∧
    (g.gameRunning = true →
      g.sessionStats.totalCoins = T0 + 10 * (k : Int) ∧ g.sessionStats.totalScore = S0)

/-- The fresh game with an active double-points modifier. -/
def Game.doubled : Game := Game.fresh.activatePowerUp (Env.const (1 / 2)) PowerUpType.doublePoints

/-- Surroundings whose first tick spawns a coin at the height 200: the draws 0 and 1 are 0,
draw 2 is 2/7, and every later draw is 1/2. -/
def Env.coinAtBird : Env :=
  { random := fun n => if n < 2 then 0 else if n = 2 then 2 / 7 else 1 / 2
    cos := fun _ => 1, sin := fun _ => 0, now := "2024-01-01T00:00:00.000Z",
    adMobManager := false }

/-- A session without a flap: one tick, which spawns a coin, 91 drawing passes, the last of
which picks the coin up, and 75 more ticks. The next tick takes the bird below the canvas. -/
def coinSession : List Command :=
  Command.update Env.coinAtBird :: (List.replicate 91 (Command.draw Env.coinAtBird) ++
    List.replicate 75 (Command.update Env.coinAtBird))

/-- A coin at the position `(x, y)`, with the size and the speed `spawnPowerUp()` gives. -/
def PowerUp.coinAt (x y : ℚ) : PowerUp :=
  { type := PowerUpType.coin, x := x, y := y, width := 30, height := 30, speed := 3,
    rotation := 0 }

/-- The fresh game with both the slow-motion and the speed-boost modifier active and one pipe
ahead of the bird. -/
def Game.slowAndBoosted : Game :=
  { (Game.fresh.activatePowerUp (Env.const (1 / 2)) PowerUpType.slowMotion).activatePowerUp
      (Env.const (1 / 2)) PowerUpType.speedBoost with
    pipes := [Pipe.new 300 200 180] }

/-- The state of a tick after its pipe loop, that is after the collision handling of the
tick and before the modifier timers. -/
def Game.afterPipes (env : Env) (g : Game) : Game :=
  ((g.advance.spawnStep env).pipeLoop env (g.advance.spawnStep env).speedMultiplier
    (g.advance.spawnStep env).pipes.length).1

/-- The fresh game with a magnet entry that has two ticks left. -/
def Game.magnetEnding : Game :=
  { Game.fresh with
    activePowerUps :=
      ActivePowerUps.empty.set PowerUpType.magnet { duration := 2, uses := none } }

/-- The `k` highest of a list of scores, highest first: the list in descending order, cut
after `k` places. -/
def highestScores (k : Nat) (scores : List Int) : List Int :=
  (scores.insertionSort (· ≥ ·)).take k

/-- The fresh game on a canvas 300 high (the easy gap size is 180, so the nominal gap range
`[75, 45]` is empty). -/
def Game.lowCanvas : Game := { Game.fresh with canvas := { width := 400, height := 300 } }

/-- The pipes a tick spawns: what its spawn step appends to `pipes`. -/
def Game.spawned (env : Env) (g : Game) : List Pipe :=
  (g.advance.spawnStep env).pipes.drop g.pipes.length

/-- The speed multiplier and the bird of the pipe loop of each of the next `n` ticks. -/
def Game.tickInputs (env : Env) : Nat → Game → List (ℚ × Bird)
  | 0, _ => []
  | n + 1, g => (g.speedMultiplier, g.bird.update) :: Game.tickInputs env n (g.update env)

/-- The life of a pipe over ticks that go on, one round per tick with the speed multiplier and
the bird of that tick: the pipe it has become if it is still live (nothing once a round has
removed it off screen), and the number of times the score branch ran for it. -/
def Pipe.life : List (ℚ × Bird) → Pipe → Option Pipe × Nat
  | [], p => (some p, 0)
  | (speedMultiplier, bird) :: rest, p =>
    match Pipe.survive speedMultiplier bird p with
    | none => (none, if (p.round speedMultiplier bird false).2 then 1 else 0)
    | some q =>
      ((Pipe.life rest q).1,
        (if (p.round speedMultiplier bird false).2 then 1 else 0) + (Pipe.life rest q).2)

/-- The pipes spawned during the next `n` ticks, as they are after these ticks, and the number
of times the score branch ran for them. -/
def Game.laterPipes (env : Env) : Nat → Game → List Pipe × Nat
  | 0, _ => ([], 0)
  | n + 1, g =>
    ((g.spawned env).filterMap (fun p => (p.life (Game.tickInputs env (n + 1) g)).1) ++
        (Game.laterPipes env n (g.update env)).1,
      ((g.spawned env).map fun p => (p.life (Game.tickInputs env (n + 1) g)).2).sum +
        (Game.laterPipes env n (g.update env)).2)

/-- The number of times the score branch runs during the next `n` ticks: the sum over the
pipes live at the start and the pipes spawned on the way of the count of each one's life. -/
def Game.awardsInRun (env : Env) (n : Nat) (g : Game) : Nat :=
  (g.pipes.map fun p => (p.life (Game.tickInputs env n g)).2).sum + (Game.laterPipes env n g).2

/-- The number of pipes spawned during the next `n` ticks. -/
def Game.spawnedInRun (env : Env) : Nat → Game → Nat
  | 0, _ => 0
  | n + 1, g => (g.spawned env).length + Game.spawnedInRun env n (g.update env)

/-! ## Theorems -/

/-! ### Pipe collision -/

/-- C1: `Pipe.collidesWith(bird)` is true exactly when the bird's box overlaps the pipe
horizontally and its top is above the gap start or its bottom below the gap end. -/
theorem collidesWith_iff (p : Pipe) (bird : Bird) :
    p.collidesWith bird = true ↔
      (bird.x + bird.width / 2 > p.x ∧ bird.x - bird.width / 2 < p.x + p.width) ∧
        (bird.y - bird.height / 2 < p.gap ∨ bird.y + bird.height / 2 > p.gap + p.gapSize) := by
  unfold Pipe.collidesWith
  by_cases h1 : bird.x + bird.width / 2 > p.x ∧ bird.x - bird.width / 2 < p.x + p.width
  · by_cases h2 : bird.y - bird.height / 2 < p.gap ∨ bird.y + bird.height / 2 > p.gap + p.gapSize
    · simp [h1, h2]
    · simp only [h1, h2, and_self, if_true, if_false, and_false]
      simp
  · simp only [h1, if_false, false_and]
    simp

/-- No collision when the bird's box does not overlap the pipe horizontally, or when it lies
within the closed gap. -/
theorem collidesWith_eq_false (p : Pipe) (bird : Bird)
    (h : ¬ (bird.x + bird.width / 2 > p.x ∧ bird.x - bird.width / 2 < p.x + p.width) ∨
      (p.gap ≤ bird.y - bird.height / 2 ∧ bird.y + bird.height / 2 ≤ p.gap + p.gapSize)) :
    p.collidesWith bird = false := by
  rw [← Bool.not_eq_true, collidesWith_iff]
  rcases h with h | ⟨h1, h2⟩
  · exact fun hc => h hc.1
  · rintro ⟨-, hc | hc⟩
    · exact absurd hc (not_lt.mpr h1)
    · exact absurd hc (not_lt.mpr h2)

/-- C2: collision is exact-boundary. With horizontal overlap, a box whose top is on the gap
start (bottom inside) or whose bottom is on the gap end (top inside) does not collide, and a
box one unit past either gap edge collides; a box whose right edge is on the pipe's left edge,
or whose left edge is on the pipe's right edge, never collides. -/
theorem collidesWith_exact_boundary (p : Pipe) (bird : Bird) :
    ((bird.x + bird.width / 2 > p.x ∧ bird.x - bird.width / 2 < p.x + p.width) →
      ((bird.y - bird.height / 2 = p.gap ∧ bird.y + bird.height / 2 ≤ p.gap + p.gapSize) ∨
        (bird.y + bird.height / 2 = p.gap + p.gapSize ∧ p.gap ≤ bird.y - bird.height / 2)) →
      p.collidesWith bird = false) ∧
    ((bird.x + bird.width / 2 > p.x ∧ bird.x - bird.width / 2 < p.x + p.width) →
      (bird.y - bird.height / 2 = p.gap - 1 ∨
        bird.y + bird.height / 2 = p.gap + p.gapSize + 1) →
      p.collidesWith bird = true) ∧
    ((bird.x + bird.width / 2 = p.x ∨ bird.x - bird.width / 2 = p.x + p.width) →
      p.collidesWith bird = false) := by
  refine ⟨?_, ?_, ?_⟩
  · rintro - (⟨h1, h2⟩ | ⟨h1, h2⟩)
    · exact collidesWith_eq_false p bird (Or.inr ⟨h1.ge, h2⟩)
    · exact collidesWith_eq_false p bird (Or.inr ⟨h2, h1.le⟩)
  · intro ho h
    rw [collidesWith_iff]
    refine ⟨ho, ?_⟩
    rcases h with h | h
    · left; rw [h]; linarith
    · right; rw [h]; linarith
  · intro h
    apply collidesWith_eq_false p bird
    left
    rintro ⟨h1, h2⟩
    rcases h with h | h
    · rw [h] at h1; exact lt_irrefl _ h1
    · rw [h] at h2; exact lt_irrefl _ h2

/-- Witness for C2: a fresh bird (box 85..115 by 187.5..212.5) against a pipe whose gap starts
at its top, a pipe whose gap starts one unit lower, and a pipe starting at its right edge. -/
theorem collidesWith_exact_boundary_witness :
    (Pipe.new 100 (375 / 2) 180).collidesWith (Bird.new "classic") = false ∧
      (Pipe.new 100 (377 / 2) 180).collidesWith (Bird.new "classic") = true ∧
      (Pipe.new 115 0 10).collidesWith (Bird.new "classic") = false :=
  ⟨(collidesWith_exact_boundary (Pipe.new 100 (375 / 2) 180) (Bird.new "classic")).1
      (by norm_num [Pipe.new, Bird.new]) (Or.inl (by norm_num [Pipe.new, Bird.new])),
    (collidesWith_exact_boundary (Pipe.new 100 (377 / 2) 180) (Bird.new "classic")).2.1
      (by norm_num [Pipe.new, Bird.new]) (Or.inl (by norm_num [Pipe.new, Bird.new])),
    (collidesWith_exact_boundary (Pipe.new 115 0 10) (Bird.new "classic")).2.2
      (Or.inl (by norm_num [Pipe.new, Bird.new]))⟩

/-! ### Bird -/

theorem Math_PI_pos : 0 < Math_PI := by norm_num [Math_PI]

theorem Bird.inv_new (character : String) : (Bird.new character).Inv := by
  have := Math_PI_pos
  refine ⟨rfl, rfl, rfl, ?_, ?_, ?_⟩ <;> simp only [Bird.new] <;> linarith

theorem Bird.inv_update (b : Bird) (h : b.Inv) : b.update.Inv := by
  obtain ⟨h1, h2, h3, -, h5, -⟩ := h
  have := Math_PI_pos
  refine ⟨h1, h2, h3, ?_, ?_, ?_⟩
  · simp only [Bird.update, h3]; exact min_le_right _ _
  · simp only [Bird.update]; exact le_min (by linarith) (by linarith)
  · simp only [Bird.update]; exact min_le_right _ _

theorem Bird.inv_flap (b : Bird) (h : b.Inv) : b.flap.Inv := by
  obtain ⟨h1, h2, h3, -, -, -⟩ := h
  have := Math_PI_pos
  refine ⟨h1, h2, h3, ?_, ?_, ?_⟩
  · simp only [Bird.flap, h2]; norm_num
  · simp only [Bird.flap]; exact le_refl _
  · simp only [Bird.flap]; linarith

theorem Bird.inv_run (ops : List BirdOp) (b : Bird) (h : b.Inv) : (b.run ops).Inv := by
  induction ops generalizing b with
  | nil => exact h
  | cons op ops ih =>
    cases op
    · exact ih _ (Bird.inv_update b h)
    · exact ih _ (Bird.inv_flap b h)

/-- Velocity after `N` further unflapped updates of a bird that has the velocity of `k`. -/
theorem Bird.velocity_updates (N : Nat) (b : Bird) (k : Nat) (hg : b.gravity = 1 / 4)
    (hm : b.maxVelocity = 7) (hv : b.velocity = min ((1 / 4 : ℚ) * k) 7) :
    (b.run (List.replicate N BirdOp.update)).velocity = min ((1 / 4 : ℚ) * ((k + N : Nat) : ℚ)) 7 := by
  induction N generalizing b k with
  | zero => simpa [Bird.run] using hv
  | succ N ih =>
    have h := ih b.update (k + 1) hg hm (by
      simp only [Bird.update, hg, hm, hv]
      push_cast
      rcases le_total ((1 / 4 : ℚ) * k) 7 with hk | hk
      · rw [min_eq_left hk]; congr 1; ring
      · rw [min_eq_right hk, min_eq_right (by norm_num), min_eq_right (by linarith)])
    have e : k + 1 + N = k + (N + 1) := by omega
    rw [e] at h
    simpa [Bird.run, List.replicate, Bird.apply] using h

/-- C5: every bird reached from the constructor by `update()` and `flap()` calls has
`velocity ≤ maxVelocity = 7` and `-π/6 ≤ rotation ≤ π/6`; after `N` unflapped updates of a
fresh bird the velocity is `min(0.25 * N, 7)`. -/
theorem bird_state_invariant (character : String) (ops : List BirdOp) (N : Nat) :
    ((Bird.new character).run ops).velocity ≤ ((Bird.new character).run ops).maxVelocity ∧
      ((Bird.new character).run ops).maxVelocity = 7 ∧
      -Math_PI / 6 ≤ ((Bird.new character).run ops).rotation ∧
      ((Bird.new character).run ops).rotation ≤ Math_PI / 6 ∧
      ((Bird.new character).run (List.replicate N BirdOp.update)).velocity =
        min ((1 / 4 : ℚ) * N) 7 := by
  obtain ⟨-, -, h3, h4, h5, h6⟩ := Bird.inv_run ops _ (Bird.inv_new character)
  refine ⟨by rw [h3]; exact h4, h3, h5, h6, ?_⟩
  have h := Bird.velocity_updates N (Bird.new character) 0 rfl rfl (by simp [Bird.new])
  simpa using h

/-- C6: `flap()` sets the velocity to `flapPower` (which is -6 on every bird reached from the
constructor) whatever the prior velocity, the rotation to `-π/6` and `wingFlap` to `-π/4`,
leaves `x`, `y`, `gravity`, `flapPower` and `maxVelocity` unchanged, and a second flap
changes nothing more. -/
theorem flap_spec (b : Bird) (character : String) (ops : List BirdOp) :
    b.flap.velocity = b.flapPower ∧ b.flap.rotation = -Math_PI / 6 ∧
      b.flap.wingFlap = -Math_PI / 4 ∧ b.flap.x = b.x ∧ b.flap.y = b.y ∧
      b.flap.gravity = b.gravity ∧ b.flap.flapPower = b.flapPower ∧
      b.flap.maxVelocity = b.maxVelocity ∧ b.flap.flap = b.flap ∧
      ((Bird.new character).run ops).flapPower = -6 ∧
      ((Bird.new character).run ops).flap.velocity = -6 := by
  obtain ⟨-, h2, -⟩ := Bird.inv_run ops _ (Bird.inv_new character)
  exact ⟨rfl, rfl, rfl, rfl, rfl, rfl, rfl, rfl, rfl, h2, h2⟩

/-! ### Spawning a pipe -/

/-- The pipe `generatePipe()` appends, and the range of its gap when `H - G - 75 ≥ 75`. -/
theorem Game.generatePipe_bounds (env : Env) (g : Game)
    (hH : g.canvas.height - g.difficultySettings.gapSize - 75 ≥ 75)
    (hr0 : 0 ≤ env.random g.randomCalls) (hr1 : env.random g.randomCalls < 1) :
    ∃ pipe : Pipe, (g.generatePipe env).pipes = g.pipes ++ [pipe] ∧
      pipe.x = g.canvas.width ∧ pipe.passed = false ∧
      pipe.gapSize = g.difficultySettings.gapSize ∧
      pipe.gap = env.random g.randomCalls *
        (g.canvas.height - g.difficultySettings.gapSize - 150) + 75 ∧
      75 ≤ pipe.gap ∧ pipe.gap ≤ g.canvas.height - g.difficultySettings.gapSize - 75 := by
  refine ⟨_, rfl, rfl, rfl, rfl, ?_, ?_, ?_⟩
  · simp only [Game.random, Pipe.new]; ring
  · simp only [Game.random, Pipe.new]
    have : 0 ≤ env.random g.randomCalls *
        (g.canvas.height - g.difficultySettings.gapSize - 75 - 75) :=
      mul_nonneg hr0 (by linarith)
    linarith
  · simp only [Game.random, Pipe.new]
    have : env.random g.randomCalls *
        (g.canvas.height - g.difficultySettings.gapSize - 75 - 75) ≤
        1 * (g.canvas.height - g.difficultySettings.gapSize - 75 - 75) :=
      mul_le_mul_of_nonneg_right hr1.le (by linarith)
    linarith

/-- C7: when `H - G - 75 ≥ 75` (as for the 640-high canvas and each of the five profiles) and
the draw `r` lies in `[0, 1)`, `generatePipe()` appends exactly one pipe, at `x = canvas.width`,
not passed, with `gapSize = G` and `gap = r * (H - G - 150) + 75`, and `75 ≤ gap ≤ H - G - 75`. -/
theorem generatePipe_spec (env : Env) (g : Game)
    (hH : g.canvas.height - g.difficultySettings.gapSize - 75 ≥ 75)
    (hr0 : 0 ≤ env.random g.randomCalls) (hr1 : env.random g.randomCalls < 1) :
    (∀ d ∈ difficulties, (640 : ℚ) - d.gapSize - 75 ≥ 75) ∧
      ∃ pipe : Pipe, (g.generatePipe env).pipes = g.pipes ++ [pipe] ∧
        pipe.x = g.canvas.width ∧ pipe.passed = false ∧
        pipe.gapSize = g.difficultySettings.gapSize ∧
        pipe.gap = env.random g.randomCalls *
          (g.canvas.height - g.difficultySettings.gapSize - 150) + 75 ∧
        75 ≤ pipe.gap ∧ pipe.gap ≤ g.canvas.height - g.difficultySettings.gapSize - 75 := by
  exact ⟨by simp [difficulties]; norm_num, Game.generatePipe_bounds env g hH hr0 hr1⟩

/-- Witness for C7: the fresh game (640-high canvas, easy profile) with the draw `1/2`. -/
theorem generatePipe_spec_witness :
    ∃ pipe : Pipe, (Game.fresh.generatePipe (Env.const (1 / 2))).pipes = Game.fresh.pipes ++ [pipe] ∧
      75 ≤ pipe.gap ∧ pipe.gap ≤ 640 - 180 - 75 := by
  obtain ⟨pipe, h1, -, -, -, -, h6, h7⟩ :=
    (generatePipe_spec (Env.const (1 / 2)) Game.fresh
      (by norm_num [Game.fresh, Game.startGame, Game.new, Game.loadStats, Storage.empty])
      (by norm_num [Env.const]) (by norm_num [Env.const])).2
  exact ⟨pipe, h1, h6, by
    simpa [Game.fresh, Game.startGame, Game.new, Game.loadStats, Storage.empty] using h7⟩


/-! ### Visual effects leave the simulation alone -/

theorem Game.FxOnly.refl (g : Game) : g.FxOnly g := ⟨_, _, _, rfl⟩

theorem Game.FxOnly.trans {a b c : Game} (h1 : a.FxOnly b) (h2 : b.FxOnly c) : a.FxOnly c := by
  obtain ⟨_, _, _, rfl⟩ := h1
  obtain ⟨_, _, _, rfl⟩ := h2
  exact ⟨_, _, _, rfl⟩

theorem Game.fxOnly_random (env : Env) (g : Game) : g.FxOnly (g.random env).2 :=
  ⟨_, _, _, rfl⟩

theorem Game.fxOnly_createScoreFloater (env : Env) (x y : ℚ) (text : String) (g : Game) :
    g.FxOnly (g.createScoreFloater env x y text) := ⟨_, _, _, rfl⟩

theorem Game.fxOnly_createScoreParticlesFrom (env : Env) (x y : ℚ) (n i : Nat) (g : Game) :
    g.FxOnly (Game.createScoreParticlesFrom env x y n i g) := by
  induction n generalizing i g with
  | zero => exact Game.FxOnly.refl g
  | succ n ih => exact Game.FxOnly.trans ⟨_, _, _, rfl⟩ (ih _ _)

theorem Game.fxOnly_createScoreParticles (env : Env) (x y : ℚ) (g : Game) :
    g.FxOnly (g.createScoreParticles env x y) :=
  Game.fxOnly_createScoreParticlesFrom env x y 8 0 g

theorem Game.fxOnly_createPowerUpParticlesFrom (env : Env) (x y : ℚ) (n i : Nat) (g : Game) :
    g.FxOnly (Game.createPowerUpParticlesFrom env x y n i g) := by
  induction n generalizing i g with
  | zero => exact Game.FxOnly.refl g
  | succ n ih => exact Game.FxOnly.trans ⟨_, _, _, rfl⟩ (ih _ _)

theorem Game.fxOnly_createPowerUpParticles (env : Env) (x y : ℚ) (g : Game) :
    g.FxOnly (g.createPowerUpParticles env x y) :=
  Game.fxOnly_createPowerUpParticlesFrom env x y 16 0 g

theorem Game.fxOnly_createComboBonusParticlesFrom (env : Env) (n i : Nat) (g : Game) :
    g.FxOnly (Game.createComboBonusParticlesFrom env n i g) := by
  induction n generalizing i g with
  | zero => exact Game.FxOnly.refl g
  | succ n ih => exact Game.FxOnly.trans ⟨_, _, _, rfl⟩ (ih _ _)

theorem Game.fxOnly_createComboBonusParticles (env : Env) (g : Game) :
    g.FxOnly (g.createComboBonusParticles env) :=
  Game.fxOnly_createComboBonusParticlesFrom env 25 0 g

theorem Game.fxOnly_createExplosionParticlesFrom (env : Env) (x y : ℚ) (n : Nat) (g : Game) :
    g.FxOnly (Game.createExplosionParticlesFrom env x y n g) := by
  induction n generalizing g with
  | zero => exact Game.FxOnly.refl g
  | succ n ih => exact Game.FxOnly.trans ⟨_, _, _, rfl⟩ (ih _)

theorem Game.fxOnly_createExplosionParticles (env : Env) (x y : ℚ) (g : Game) :
    g.FxOnly (g.createExplosionParticles env x y) :=
  Game.fxOnly_createExplosionParticlesFrom env x y 20 g

/-- The state after `endGame()`, field by field. -/
theorem Game.endGame_eq (env : Env) (g : Game) :
    ∃ ps fs n, g.endGame env =
      { g with
        gameRunning := false
        gameState := GameState.gameover
        particles := ps
        scoreFloaters := fs
        randomCalls := n
        highScore := if g.score > g.highScore then g.score else g.highScore
        sessionStats := g.finalStats
        storage :=
          { flybird_stats := some g.finalStats
            flappyBirdHighScore :=
              if g.score > g.highScore then some g.score else g.storage.flappyBirdHighScore
            flappyBirdScores :=
              some ((sortScores (g.getTopScores ++ [g.scoreEntry env g.score])).take 20) } } := by
  obtain ⟨ps, fs, n, e⟩ := Game.fxOnly_createExplosionParticles env g.bird.x g.bird.y
    { g with gameRunning := false, gameState := GameState.gameover }
  unfold Game.endGame
  simp only [e]
  cases hA : env.adMobManager <;> by_cases hs : g.score > g.highScore
  all_goals
    simp only [Game.withFx, Game.random, hs, if_true, if_false, Bool.false_eq_true]
    exact ⟨_, _, _, rfl⟩


/-! ### The score check -/

theorem Game.fxOnly_comboBonus (env : Env) (g : Game) : g.FxOnly (g.comboBonus env) := by
  unfold Game.comboBonus
  split
  · exact Game.FxOnly.trans (Game.fxOnly_createComboBonusParticles env _)
      (Game.fxOnly_createScoreFloater env _ _ _ _)
  · exact Game.FxOnly.refl _

/-- The state after the body of the score check: the counters of `awardPass`, other visual
effects and possibly a new best combo. -/
theorem Game.scorePipe_eq (env : Env) (i : Nat) (g : Game) :
    ∃ ps fs n bc, g.scorePipe env i =
      { (g.awardPass i).withFx ps fs n with
        sessionStats := { (g.awardPass i).sessionStats with bestCombo := bc } } := by
  have h1 : (g.awardPass i).FxOnly
      (Game.comboBonus env
        (Game.createScoreFloater env
          (Game.createScoreParticles env (g.awardPass i).bird.x (g.awardPass i).bird.y
            (g.awardPass i)).bird.x
          (Game.createScoreParticles env (g.awardPass i).bird.x (g.awardPass i).bird.y
            (g.awardPass i)).bird.y
          ("+" ++ toString (g.finalScore (comboFor (g.consecutiveScores + 1))))
          (Game.createScoreParticles env (g.awardPass i).bird.x (g.awardPass i).bird.y
            (g.awardPass i)))) := by
    exact Game.FxOnly.trans
      (Game.FxOnly.trans (Game.fxOnly_createScoreParticles env _ _ _)
        (Game.fxOnly_createScoreFloater env _ _ _ _))
      (Game.fxOnly_comboBonus env _)
  obtain ⟨ps, fs, n, e⟩ := h1
  have h2 : g.scorePipe env i = Game.trackBestCombo ((g.awardPass i).withFx ps fs n) := by
    rw [← e]; rfl
  rw [h2]
  unfold Game.trackBestCombo
  split
  · exact ⟨ps, fs, n, _, rfl⟩
  · exact ⟨ps, fs, n, (g.awardPass i).sessionStats.bestCombo, rfl⟩

theorem setPassed_getElem? (pipes : List Pipe) (i : Nat) (p : Pipe) (h : pipes[i]? = some p) :
    (setPassed pipes i)[i]? = some { p with passed := true } := by
  have hlt : i < pipes.length := by
    by_contra hc
    rw [List.getElem?_eq_none (not_lt.mp hc)] at h
    exact absurd h (by simp)
  simp [setPassed, h, hlt]

theorem setPassed_getElem?_ne (pipes : List Pipe) (i j : Nat) (h : j ≠ i) :
    (setPassed pipes i)[j]? = pipes[j]? := by
  unfold setPassed
  split
  · simp [List.getElem?_set, Ne.symm h]
  · rfl

theorem setPassed_length (pipes : List Pipe) (i : Nat) :
    (setPassed pipes i).length = pipes.length := by
  unfold setPassed
  split <;> simp

/-- C3: when the score check of `update()` fires for a pipe (not passed, right edge left of
the bird), the pipe is marked passed, the streak grows by one, the combo multiplier becomes
`min(1 + streak * 0.1, 3)` for the new streak, and the score grows by
`floor(points * comboMultiplier)` with `points` 2 under double points and 1 otherwise; the
formula gives 1 at streak 0 and 3 at streaks 20 and 25. -/
theorem score_check_spec (env : Env) (i : Nat) (p : Pipe) (g : Game)
    (hi : g.pipes[i]? = some p) (hp : p.passed = false) (hx : p.x + p.width < g.bird.x) :
    (g.scoreAndRemove env i p).consecutiveScores = g.consecutiveScores + 1 ∧
      (g.scoreAndRemove env i p).comboMultiplier =
        min (1 + ((g.consecutiveScores + 1 : Int) : ℚ) * (1 / 10)) 3 ∧
      (g.scoreAndRemove env i p).score = g.score +
        ⌊(if g.activePowerUps.has PowerUpType.doublePoints = true then (2 : ℚ) else 1) *
          (g.scoreAndRemove env i p).comboMultiplier⌋ ∧
      (g.scoreAndRemove env i p).pipesMissed = g.pipesMissed + 1 ∧
      (g.scorePipe env i).pipes[i]? = some { p with passed := true } ∧
      (p.isOffScreen = false →
        (g.scoreAndRemove env i p).pipes[i]? = some { p with passed := true }) ∧
      comboFor 0 = 1 ∧ comboFor 20 = 3 ∧ comboFor 25 = 3 := by
  have hs : p.scores g.bird = true := by simp [Pipe.scores, hp, hx]
  obtain ⟨ps, fs, n, bc, e⟩ := Game.scorePipe_eq env i g
  have hpipes : (g.scorePipe env i).pipes[i]? = some { p with passed := true } := by
    rw [e]; exact setPassed_getElem? g.pipes i p hi
  refine ⟨?_, ?_, ?_, ?_, hpipes, ?_, ?_, ?_, ?_⟩
  · unfold Game.scoreAndRemove; simp only [hs, if_true, e]; split <;> rfl
  · unfold Game.scoreAndRemove; simp only [hs, if_true, e]; split <;> rfl
  · unfold Game.scoreAndRemove; simp only [hs, if_true, e]; split <;> rfl
  · unfold Game.scoreAndRemove; simp only [hs, if_true, e]; split <;> rfl
  · intro ho
    unfold Game.scoreAndRemove
    simp only [hs, if_true, ho, Bool.false_eq_true, if_false]
    exact hpipes
  · norm_num [comboFor]
  · norm_num [comboFor]
  · norm_num [comboFor]

/-- Witness for C3: the fresh game with one pipe behind the bird. -/
theorem score_check_spec_witness :
    (Game.onePipeBehind.scoreAndRemove (Env.const (1 / 2)) 0 (Pipe.new 0 100 180)).consecutiveScores =
        Game.onePipeBehind.consecutiveScores + 1 ∧
      (Game.onePipeBehind.scoreAndRemove (Env.const (1 / 2)) 0 (Pipe.new 0 100 180)).score =
        Game.onePipeBehind.score +
          ⌊(if Game.onePipeBehind.activePowerUps.has PowerUpType.doublePoints = true
              then (2 : ℚ) else 1) *
            (Game.onePipeBehind.scoreAndRemove (Env.const (1 / 2)) 0
              (Pipe.new 0 100 180)).comboMultiplier⌋ :=
  have h := score_check_spec (Env.const (1 / 2)) 0 (Pipe.new 0 100 180) Game.onePipeBehind rfl rfl
    (by norm_num [Game.onePipeBehind, Game.fresh, Game.startGame, Bird.new, Pipe.new])
  ⟨h.1, h.2.2.1⟩


/-! ### Collision resolution -/

theorem ActivePowerUps.has_eq_false (m : ActivePowerUps) (k : PowerUpType) :
    m.has k = false ↔ m k = none := by
  simp [ActivePowerUps.has]

theorem ActivePowerUps.has_eq_true (m : ActivePowerUps) (k : PowerUpType) :
    m.has k = true ↔ m k ≠ none := by
  simp [ActivePowerUps.has, Option.isSome_iff_ne_none]

/-- A collision while the shield is active: the shield entry is deleted, the shake is 5, the
visual effects change, and `update()` goes on. -/
theorem Game.resolveCollision_shield (env : Env) (g : Game)
    (h : g.activePowerUps.has PowerUpType.shield = true) :
    ∃ ps fs n, g.resolveCollision env =
      ({ g.withFx ps fs n with
          activePowerUps := g.activePowerUps.delete PowerUpType.shield
          screenShake := 5 }, false) := by
  obtain ⟨ps, fs, n, e⟩ := Game.fxOnly_createExplosionParticles env g.bird.x g.bird.y
    { g with activePowerUps := g.activePowerUps.delete PowerUpType.shield }
  refine ⟨ps, fs, n, ?_⟩
  unfold Game.resolveCollision
  simp only [h, Bool.not_true, Bool.false_and, Bool.false_eq_true, if_false, if_true]
  rw [e]
  rfl

/-- A collision with neither shield nor ghost: `update()` returns after `endGame()`, with the
streak and the combo multiplier reset. -/
theorem Game.resolveCollision_fatal (env : Env) (g : Game)
    (hs : g.activePowerUps PowerUpType.shield = none)
    (hg : g.activePowerUps PowerUpType.ghost = none) :
    (g.resolveCollision env).2 = true ∧
      (g.resolveCollision env).1.gameState = GameState.gameover ∧
      (g.resolveCollision env).1.gameRunning = false ∧
      (g.resolveCollision env).1.consecutiveScores = 0 ∧
      (g.resolveCollision env).1.comboMultiplier = 1 ∧
      (g.resolveCollision env).1.pipes = g.pipes ∧
      (g.resolveCollision env).1.score = g.score ∧
      (g.resolveCollision env).1.pipesMissed = g.pipesMissed := by
  have h1 := (ActivePowerUps.has_eq_false _ _).mpr hs
  have h2 := (ActivePowerUps.has_eq_false _ _).mpr hg
  obtain ⟨ps, fs, n, e⟩ := Game.fxOnly_createExplosionParticles env g.bird.x g.bird.y g
  unfold Game.resolveCollision
  simp only [h1, h2, Bool.not_false, Bool.and_self, if_true, e]
  obtain ⟨ps', fs', n', e'⟩ := Game.endGame_eq env
    { g.withFx ps fs n with
      screenShake := 10
      screenShakeIntensity := 5
      consecutiveScores := 0
      comboMultiplier := 1 }
  simp only [Game.withFx] at e' ⊢
  rw [e']
  refine ⟨?_, ?_, ?_, ?_, ?_, ?_, ?_, ?_⟩ <;> first | rfl | trivial

/-- A collision with the ghost modifier and no shield: one use of the ghost is spent. -/
theorem Game.resolveCollision_ghost (env : Env) (g : Game)
    (hs : g.activePowerUps PowerUpType.shield = none)
    (hg : g.activePowerUps PowerUpType.ghost ≠ none) :
    g.resolveCollision env = (g.useGhost, false) := by
  have h1 := (ActivePowerUps.has_eq_false _ _).mpr hs
  have h2 := (ActivePowerUps.has_eq_true _ _).mpr hg
  unfold Game.resolveCollision
  simp [h1, h2]

/-- C9: a ghost pick-up absorbs exactly two collisions. `activatePowerUp('ghost')` installs
the ghost entry with 2 uses; with no shield, a collision check on a ghost entry with 2 uses
leaves 1 use and the phase as it was, a collision check on a ghost entry with 1 use removes
the entry and leaves the phase as it was, and a collision check with no ghost entry ends the
session. -/
theorem ghost_consumption (env : Env) (g : Game) (d : Int)
    (hs : g.activePowerUps PowerUpType.shield = none) :
    ((g.activatePowerUp env PowerUpType.ghost).activePowerUps PowerUpType.ghost =
        some { duration := 150, uses := some 2 } ∧
      (g.activatePowerUp env PowerUpType.ghost).activePowerUps PowerUpType.shield = none ∧
      (g.activatePowerUp env PowerUpType.ghost).gameState = g.gameState) ∧
    (g.activePowerUps PowerUpType.ghost = some { duration := d, uses := some 2 } →
      (g.resolveCollision env).2 = false ∧
        (g.resolveCollision env).1.gameState = g.gameState ∧
        (g.resolveCollision env).1.gameRunning = g.gameRunning ∧
        (g.resolveCollision env).1.activePowerUps PowerUpType.ghost =
          some { duration := d, uses := some 1 } ∧
        (g.resolveCollision env).1.activePowerUps PowerUpType.shield = none) ∧
    (g.activePowerUps PowerUpType.ghost = some { duration := d, uses := some 1 } →
      (g.resolveCollision env).2 = false ∧
        (g.resolveCollision env).1.gameState = g.gameState ∧
        (g.resolveCollision env).1.gameRunning = g.gameRunning ∧
        (g.resolveCollision env).1.activePowerUps PowerUpType.ghost = none ∧
        (g.resolveCollision env).1.activePowerUps PowerUpType.shield = none) ∧
    (g.activePowerUps PowerUpType.ghost = none →
      (g.resolveCollision env).2 = true ∧
        (g.resolveCollision env).1.gameState = GameState.gameover ∧
        (g.resolveCollision env).1.gameRunning = false) := by
  refine ⟨⟨?_, ?_, rfl⟩, ?_, ?_, ?_⟩
  · simp [Game.activatePowerUp, ActivePowerUps.set, powerUpTypes]
  · simp [Game.activatePowerUp, ActivePowerUps.set, hs]
  · intro hg
    rw [Game.resolveCollision_ghost env g hs (by rw [hg]; simp)]
    simp [Game.useGhost, hg, ActivePowerUps.set, hs]
  · intro hg
    rw [Game.resolveCollision_ghost env g hs (by rw [hg]; simp)]
    simp [Game.useGhost, hg, ActivePowerUps.delete, hs]
  · intro hg
    obtain ⟨h1, h2, h3, -, -⟩ := Game.resolveCollision_fatal env g hs hg
    exact ⟨h1, h2, h3⟩


/-- Witness for C9: three collision checks in a row after a ghost pick-up in the fresh game. -/
theorem ghost_consumption_witness :
    Game.ghostedOnce.activePowerUps PowerUpType.ghost = some { duration := 150, uses := some 1 } ∧
      Game.ghostedOnce.gameState = GameState.playing ∧
      Game.ghostedTwice.activePowerUps PowerUpType.ghost = none ∧
      Game.ghostedTwice.gameState = GameState.playing ∧
      (Game.ghostedTwice.resolveCollision (Env.const (1 / 2))).2 = true ∧
      (Game.ghostedTwice.resolveCollision (Env.const (1 / 2))).1.gameState = GameState.gameover :=
  have h0 := ghost_consumption (Env.const (1 / 2)) Game.fresh 150 rfl
  have h1 := (ghost_consumption (Env.const (1 / 2)) Game.ghosted 150 h0.1.2.1).2.1 h0.1.1
  have h2 := (ghost_consumption (Env.const (1 / 2)) Game.ghostedOnce 150 h1.2.2.2.2).2.2.1
    h1.2.2.2.1
  have h3 := (ghost_consumption (Env.const (1 / 2)) Game.ghostedTwice 150 h2.2.2.2.2).2.2.2
    h2.2.2.2.1
  ⟨h1.2.2.2.1, h1.2.1.trans h0.1.2.2, h2.2.2.2.1, h2.2.1.trans (h1.2.1.trans h0.1.2.2),
    h3.1, h3.2.1⟩

/-! ### The pipe loop -/

theorem Game.scoreAndRemove_frame (env : Env) (i : Nat) (p : Pipe) (g : Game) :
    (g.scoreAndRemove env i p).activePowerUps = g.activePowerUps ∧
      (g.scoreAndRemove env i p).bird = g.bird ∧
      (g.scoreAndRemove env i p).gameState = g.gameState ∧
      (g.scoreAndRemove env i p).gameRunning = g.gameRunning ∧
      (g.scoreAndRemove env i p).gamePaused = g.gamePaused ∧
      (g.scoreAndRemove env i p).frameCount = g.frameCount ∧
      (g.scoreAndRemove env i p).canvas = g.canvas ∧
      (g.scoreAndRemove env i p).difficultySettings = g.difficultySettings ∧
      (g.scoreAndRemove env i p).gameSpeedMultiplier = g.gameSpeedMultiplier ∧
      (g.scoreAndRemove env i p).powerUps = g.powerUps ∧
      (g.scoreAndRemove env i p).coins = g.coins ∧
      (g.scoreAndRemove env i p).highScore = g.highScore ∧
      (g.scoreAndRemove env i p).storage = g.storage := by
  obtain ⟨ps, fs, n, bc, e⟩ := Game.scorePipe_eq env i g
  unfold Game.scoreAndRemove
  simp only [e]
  split <;> split <;> exact ⟨rfl, rfl, rfl, rfl, rfl, rfl, rfl, rfl, rfl, rfl, rfl, rfl, rfl⟩

theorem Game.scoreAndRemove_pipes_lt (env : Env) (i : Nat) (p : Pipe) (g : Game) (j : Nat)
    (hj : j < i) : (g.scoreAndRemove env i p).pipes[j]? = g.pipes[j]? := by
  obtain ⟨ps, fs, n, bc, e⟩ := Game.scorePipe_eq env i g
  have hne : j ≠ i := Nat.ne_of_lt hj
  unfold Game.scoreAndRemove
  simp only [e]
  split <;> split
  · simp only [Game.withFx, Game.awardPass]
    rw [List.getElem?_eraseIdx_of_lt _ _ _ hj, setPassed_getElem?_ne _ _ _ hne]
  · rw [List.getElem?_eraseIdx_of_lt _ _ _ hj]
  · simp only [Game.withFx, Game.awardPass]
    rw [setPassed_getElem?_ne _ _ _ hne]
  · rfl


theorem Game.pipeIter_none (env : Env) (sm : ℚ) (i : Nat) (g : Game)
    (h : g.pipes[i]? = none) : g.pipeIter env sm i = (g, false) := by
  unfold Game.pipeIter
  simp only [h]

theorem Game.pipeIter_miss (env : Env) (sm : ℚ) (i : Nat) (g : Game) (p : Pipe)
    (h : g.pipes[i]? = some p) (hc : (p.move sm).collidesWith g.bird = false) :
    g.pipeIter env sm i =
      (Game.scoreAndRemove env i (p.move sm) { g with pipes := g.pipes.set i (p.move sm) },
        false) := by
  unfold Game.pipeIter
  simp only [h, hc, Bool.false_eq_true, if_false]

theorem Game.pipeIter_hit (env : Env) (sm : ℚ) (i : Nat) (g : Game) (p : Pipe)
    (h : g.pipes[i]? = some p) (hc : (p.move sm).collidesWith g.bird = true) :
    g.pipeIter env sm i =
      match Game.resolveCollision env { g with pipes := g.pipes.set i (p.move sm) } with
      | (g', true) => (g', true)
      | (g', false) => (g'.scoreAndRemove env i (p.move sm), false) := by
  unfold Game.pipeIter
  simp only [h, hc, if_true]

/-- With neither shield nor ghost, a pipe loop that meets a colliding pipe ends the session. -/
theorem Game.pipeLoop_fatal (env : Env) (sm : ℚ) (n : Nat) (g : Game)
    (hs : g.activePowerUps PowerUpType.shield = none)
    (hg : g.activePowerUps PowerUpType.ghost = none)
    (hc : ∃ j p, j < n ∧ g.pipes[j]? = some p ∧ (p.move sm).collidesWith g.bird = true) :
    (g.pipeLoop env sm n).2 = true ∧ (g.pipeLoop env sm n).1.gameState = GameState.gameover ∧
      (g.pipeLoop env sm n).1.gameRunning = false := by
  induction n generalizing g with
  | zero => obtain ⟨j, p, hj, -⟩ := hc; exact absurd hj (Nat.not_lt_zero j)
  | succ n ih =>
    obtain ⟨j, p, hj, hp, hcol⟩ := hc
    unfold Game.pipeLoop
    cases hn : g.pipes[n]? with
    | none =>
      rw [Game.pipeIter_none env sm n g hn]
      have hjn : j < n := by
        rcases Nat.lt_succ_iff_lt_or_eq.mp hj with h | h
        · exact h
        · rw [h, hn] at hp; exact absurd hp (by simp)
      exact ih g hs hg ⟨j, p, hjn, hp, hcol⟩
    | some q =>
      cases hq : (q.move sm).collidesWith g.bird with
      | true =>
        rw [Game.pipeIter_hit env sm n g q hn hq]
        obtain ⟨h1, h2, h3, -⟩ := Game.resolveCollision_fatal env
          { g with pipes := g.pipes.set n (q.move sm) } hs hg
        generalize Game.resolveCollision env { g with pipes := g.pipes.set n (q.move sm) } = r
          at h1 h2 h3
        obtain ⟨g', b⟩ := r
        simp only at h1 h2 h3
        subst h1
        exact ⟨rfl, h2, h3⟩
      | false =>
        rw [Game.pipeIter_miss env sm n g q hn hq]
        have hjn : j < n := by
          rcases Nat.lt_succ_iff_lt_or_eq.mp hj with h | h
          · exact h
          · rw [h, hn] at hp
            rw [Option.some.inj hp, hcol] at hq
            exact absurd hq (by simp)
        obtain ⟨f1, f2, -⟩ := Game.scoreAndRemove_frame env n (q.move sm)
          { g with pipes := g.pipes.set n (q.move sm) }
        have f3 := Game.scoreAndRemove_pipes_lt env n (q.move sm)
          { g with pipes := g.pipes.set n (q.move sm) } j hjn
        apply ih
        · rw [f1]; exact hs
        · rw [f1]; exact hg
        · refine ⟨j, p, hjn, ?_, ?_⟩
          · rw [f3]
            simp only [List.getElem?_set, Nat.ne_of_gt hjn, if_false]
            exact hp
          · rw [f2]; exact hcol


/-- With an active shield and no ghost, a pipe loop that meets two colliding pipes ends the
session: the first collision it meets spends the shield, the next one is fatal. -/
theorem Game.pipeLoop_shield_twice (env : Env) (sm : ℚ) (n : Nat) (g : Game)
    (hs : g.activePowerUps PowerUpType.shield ≠ none)
    (hg : g.activePowerUps PowerUpType.ghost = none)
    (hc : ∃ j1 j2 p1 p2, j1 < j2 ∧ j2 < n ∧ g.pipes[j1]? = some p1 ∧ g.pipes[j2]? = some p2 ∧
      (p1.move sm).collidesWith g.bird = true ∧ (p2.move sm).collidesWith g.bird = true) :
    (g.pipeLoop env sm n).2 = true ∧ (g.pipeLoop env sm n).1.gameState = GameState.gameover ∧
      (g.pipeLoop env sm n).1.gameRunning = false := by
  induction n generalizing g with
  | zero => obtain ⟨j1, j2, p1, p2, -, hj, -⟩ := hc; exact absurd hj (Nat.not_lt_zero j2)
  | succ n ih =>
    obtain ⟨j1, j2, p1, p2, h12, hj, hp1, hp2, hc1, hc2⟩ := hc
    have hj1 : j1 < n := by omega
    unfold Game.pipeLoop
    cases hn : g.pipes[n]? with
    | none =>
      rw [Game.pipeIter_none env sm n g hn]
      have hjn : j2 < n := by
        rcases Nat.lt_succ_iff_lt_or_eq.mp hj with h | h
        · exact h
        · rw [h, hn] at hp2; exact absurd hp2 (by simp)
      exact ih g hs hg ⟨j1, j2, p1, p2, h12, hjn, hp1, hp2, hc1, hc2⟩
    | some q =>
      cases hq : (q.move sm).collidesWith g.bird with
      | true =>
        rw [Game.pipeIter_hit env sm n g q hn hq]
        obtain ⟨ps, fs, k, e⟩ := Game.resolveCollision_shield env
          { g with pipes := g.pipes.set n (q.move sm) }
          ((ActivePowerUps.has_eq_true _ _).mpr hs)
        rw [e]
        simp only
        obtain ⟨f1, f2, -⟩ := Game.scoreAndRemove_frame env n (q.move sm)
          { Game.withFx { g with pipes := g.pipes.set n (q.move sm) } ps fs k with
            activePowerUps := g.activePowerUps.delete PowerUpType.shield
            screenShake := 5 }
        have f3 := Game.scoreAndRemove_pipes_lt env n (q.move sm)
          { Game.withFx { g with pipes := g.pipes.set n (q.move sm) } ps fs k with
            activePowerUps := g.activePowerUps.delete PowerUpType.shield
            screenShake := 5 } j1 hj1
        apply Game.pipeLoop_fatal
        · rw [f1]; simp [ActivePowerUps.delete]
        · rw [f1]; simpa [ActivePowerUps.delete] using hg
        · refine ⟨j1, p1, hj1, ?_, ?_⟩
          · rw [f3]
            simp only [Game.withFx, List.getElem?_set, Nat.ne_of_gt hj1, if_false]
            exact hp1
          · rw [f2]; exact hc1
      | false =>
        rw [Game.pipeIter_miss env sm n g q hn hq]
        have hjn : j2 < n := by
          rcases Nat.lt_succ_iff_lt_or_eq.mp hj with h | h
          · exact h
          · rw [h, hn] at hp2
            rw [Option.some.inj hp2, hc2] at hq
            exact absurd hq (by simp)
        obtain ⟨f1, f2, -⟩ := Game.scoreAndRemove_frame env n (q.move sm)
          { g with pipes := g.pipes.set n (q.move sm) }
        have f3 := fun j hj => Game.scoreAndRemove_pipes_lt env n (q.move sm)
          { g with pipes := g.pipes.set n (q.move sm) } j hj
        apply ih
        · rw [f1]; exact hs
        · rw [f1]; exact hg
        · refine ⟨j1, j2, p1, p2, h12, hjn, ?_, ?_, ?_, ?_⟩
          · rw [f3 j1 hj1]
            simp only [List.getElem?_set, Nat.ne_of_gt hj1, if_false]
            exact hp1
          · rw [f3 j2 hjn]
            simp only [List.getElem?_set, Nat.ne_of_gt hjn, if_false]
            exact hp2
          · rw [f2]; exact hc1
          · rw [f2]; exact hc2

theorem Game.spawnStep_frame (env : Env) (g : Game) :
    (g.spawnStep env).activePowerUps = g.activePowerUps ∧
      (g.spawnStep env).bird = g.bird ∧
      (g.spawnStep env).gameSpeedMultiplier = g.gameSpeedMultiplier ∧
      (∀ j, j < g.pipes.length → (g.spawnStep env).pipes[j]? = g.pipes[j]?) ∧
      g.pipes.length ≤ (g.spawnStep env).pipes.length := by
  by_cases h : g.frameCount %
      (if g.difficultySettings.spawnRate = 0 then 160 else g.difficultySettings.spawnRate) = 0
  · simp only [Game.spawnStep, h, if_true]
    refine ⟨rfl, rfl, rfl, ?_, ?_⟩
    · intro j hj
      simp only [Game.generatePipe, Game.random]
      exact List.getElem?_append_left hj
    · simp [Game.generatePipe, Game.random]
  · simp [Game.spawnStep, h]


/-! ### The update tick -/

/-- `update()` on a running, unpaused game: the bounds check ends the session, or the tick
goes through the spawn step and the pipe loop. -/
theorem Game.update_running (env : Env) (g : Game) (hr : g.gameRunning = true)
    (hp : g.gamePaused = false) :
    g.update env =
      if g.bird.update.y > g.canvas.height ∨ g.bird.update.y < 0 then g.advance.endGame env
      else
        match (g.advance.spawnStep env).pipeLoop env (g.advance.spawnStep env).speedMultiplier
          (g.advance.spawnStep env).pipes.length with
        | (g', true) => g'
        | (g', false) => g'.finishTick env := by
  unfold Game.update
  simp only [hr, hp, Bool.not_true, Bool.or_self, Bool.false_eq_true, if_false]
  rfl

/-- C8: a collision while the shield is active removes the shield, sets the screen shake to
5, leaves the phase as it was and does not touch the ghost entry; and in a tick of a running
game with a shield and no ghost in which two pipes collide, the session ends. -/
theorem shield_consumption (env : Env) (g : Game)
    (h : g.activePowerUps PowerUpType.shield ≠ none) :
    ((g.resolveCollision env).2 = false ∧
      (g.resolveCollision env).1.gameState = g.gameState ∧
      (g.resolveCollision env).1.gameRunning = g.gameRunning ∧
      (g.resolveCollision env).1.activePowerUps PowerUpType.shield = none ∧
      (g.resolveCollision env).1.screenShake = 5 ∧
      (g.resolveCollision env).1.activePowerUps PowerUpType.ghost =
        g.activePowerUps PowerUpType.ghost) ∧
    (∀ (j1 j2 : Nat) (p1 p2 : Pipe), g.gameRunning = true → g.gamePaused = false →
      ¬ (g.bird.update.y > g.canvas.height ∨ g.bird.update.y < 0) →
      g.activePowerUps PowerUpType.ghost = none →
      j1 < j2 → g.pipes[j1]? = some p1 → g.pipes[j2]? = some p2 →
      (p1.move g.speedMultiplier).collidesWith g.bird.update = true →
      (p2.move g.speedMultiplier).collidesWith g.bird.update = true →
      (g.update env).gameState = GameState.gameover ∧ (g.update env).gameRunning = false) := by
  constructor
  · obtain ⟨ps, fs, n, e⟩ := Game.resolveCollision_shield env g
      ((ActivePowerUps.has_eq_true _ _).mpr h)
    rw [e]
    refine ⟨rfl, rfl, rfl, ?_, rfl, ?_⟩
    · simp [ActivePowerUps.delete]
    · simp [ActivePowerUps.delete]
  · intro j1 j2 p1 p2 hr hp hb hg h12 hp1 hp2 hc1 hc2
    rw [Game.update_running env g hr hp, if_neg hb]
    obtain ⟨f1, f2, f3, f4, f5⟩ := Game.spawnStep_frame env g.advance
    have hl2 : j2 < g.pipes.length := by
      by_contra hc
      rw [List.getElem?_eq_none (not_lt.mp hc)] at hp2
      exact absurd hp2 (by simp)
    have hsm : (g.advance.spawnStep env).speedMultiplier = g.speedMultiplier := by
      unfold Game.speedMultiplier
      rw [f1, f3]
      rfl
    have key := Game.pipeLoop_shield_twice env (g.advance.spawnStep env).speedMultiplier
      (g.advance.spawnStep env).pipes.length (g.advance.spawnStep env)
      (by rw [f1]; exact h) (by rw [f1]; exact hg)
      ⟨j1, j2, p1, p2, h12, lt_of_lt_of_le hl2 f5,
        by rw [f4 j1 (lt_trans h12 hl2)]; exact hp1,
        by rw [f4 j2 hl2]; exact hp2,
        by rw [hsm, f2]; exact hc1,
        by rw [hsm, f2]; exact hc2⟩
    generalize (g.advance.spawnStep env).pipeLoop env (g.advance.spawnStep env).speedMultiplier
      (g.advance.spawnStep env).pipes.length = r at key
    obtain ⟨g', b⟩ := r
    obtain ⟨k1, k2, k3⟩ := key
    simp only at k1 k2 k3
    subst k1
    exact ⟨k2, k3⟩

theorem Game.shieldedTwoPipes_bird : Game.shieldedTwoPipes.bird = Bird.new "classic" := rfl

theorem Game.shieldedTwoPipes_active :
    Game.shieldedTwoPipes.activePowerUps =
      ActivePowerUps.empty.set PowerUpType.shield { duration := 300, uses := none } := rfl

theorem Game.shieldedTwoPipes_height : Game.shieldedTwoPipes.canvas.height = 640 := rfl

theorem Game.shieldedTwoPipes_speed :
    Game.shieldedTwoPipes.speedMultiplier = 13 / 20 := by
  simp only [Game.speedMultiplier, Game.shieldedTwoPipes_active]
  have h : Game.shieldedTwoPipes.gameSpeedMultiplier = 13 / 20 := rfl
  simp [ActivePowerUps.has, ActivePowerUps.set, ActivePowerUps.empty, h]

/-- Witness for C8: the fresh game with a shield and two pipes overlapping the bird. -/
theorem shield_consumption_witness :
    (Game.update (Env.const (1 / 2)) Game.shieldedTwoPipes).gameState = GameState.gameover ∧
      (Game.update (Env.const (1 / 2)) Game.shieldedTwoPipes).gameRunning = false :=
  (shield_consumption (Env.const (1 / 2)) Game.shieldedTwoPipes
      (by rw [Game.shieldedTwoPipes_active]; simp [ActivePowerUps.set])).2
    0 1 (Pipe.new 80 300 180) (Pipe.new 100 300 180) rfl rfl
    (by
      rw [Game.shieldedTwoPipes_bird, Game.shieldedTwoPipes_height]
      norm_num [Bird.update, Bird.new])
    (by rw [Game.shieldedTwoPipes_active]; simp [ActivePowerUps.set, ActivePowerUps.empty])
    (by decide) rfl rfl
    (by
      rw [Game.shieldedTwoPipes_bird, Game.shieldedTwoPipes_speed]
      norm_num [Pipe.move, Pipe.update, Pipe.new, Pipe.collidesWith, Bird.update, Bird.new])
    (by
      rw [Game.shieldedTwoPipes_bird, Game.shieldedTwoPipes_speed]
      norm_num [Pipe.move, Pipe.update, Pipe.new, Pipe.collidesWith, Bird.update, Bird.new])


theorem Game.spawnPowerUp_frame (env : Env) (g : Game) :
    ∃ pus n, g.spawnPowerUp env = { g with powerUps := pus, randomCalls := n } := by
  unfold Game.spawnPowerUp
  simp only [Game.random]
  split <;> exact ⟨_, _, rfl⟩

/-- The last steps of a tick touch only the modifiers, the particles, the power-ups and the
count of random draws. -/
theorem Game.finishTick_eq (env : Env) (g : Game) :
    ∃ pus n, g.finishTick env =
      { g with
        activePowerUps := tickPowerUps g.activePowerUps
        particles := updateParticles g.particles
        powerUps := pus
        randomCalls := n } := by
  unfold Game.finishTick
  simp only [Game.random]
  split
  · obtain ⟨pus, n, e⟩ := Game.spawnPowerUp_frame env
      { g with
        activePowerUps := tickPowerUps g.activePowerUps
        particles := updateParticles g.particles
        randomCalls := g.randomCalls + 1 }
    rw [e]
    exact ⟨pus, n, rfl⟩
  · exact ⟨g.powerUps, g.randomCalls + 1, rfl⟩

/-- A tick of a running game without pipes, with the bird in bounds and no spawn due. -/
theorem Game.update_no_pipes (env : Env) (g : Game) (hr : g.gameRunning = true)
    (hp : g.gamePaused = false)
    (hb : ¬ (g.bird.update.y > g.canvas.height ∨ g.bird.update.y < 0))
    (hn : g.pipes = [])
    (hs : (g.frameCount + 1) %
      (if g.difficultySettings.spawnRate = 0 then 160 else g.difficultySettings.spawnRate) ≠ 0) :
    g.update env = g.advance.finishTick env := by
  rw [Game.update_running env g hr hp, if_neg hb]
  have e : g.advance.spawnStep env = g.advance := by
    simp only [Game.spawnStep]
    rw [if_neg]
    exact hs
  rw [e]
  have hl : g.advance.pipes.length = 0 := by
    show g.pipes.length = 0
    rw [hn]; rfl
  rw [hl]
  rfl

theorem fallY_succ (n : Nat) : fallY (n + 1) = fallY n + min ((1 / 4 : ℚ) * ((n + 1 : Nat) : ℚ)) 7 := by
  unfold fallY
  push_cast
  rcases Nat.lt_or_ge n 28 with h | h
  · have h1 : n ≤ 27 := by omega
    have h2 : n ≤ 28 := by omega
    have h3 : ((n : ℚ) + 1) ≤ 28 := by exact_mod_cast h
    rw [if_pos h1, if_pos h2, min_eq_left (by linarith)]
    ring
  · have h1 : ¬ n ≤ 27 := by omega
    have h3 : (28 : ℚ) ≤ n := by exact_mod_cast h
    rw [if_neg h1, min_eq_right (by linarith)]
    by_cases h2 : n ≤ 28
    · have h4 : n = 28 := by omega
      subst h4
      norm_num
    · rw [if_neg h2]; ring

theorem fallY_bounds (n : Nat) (h : n ≤ 76) : 0 ≤ fallY n ∧ fallY n ≤ 640 := by
  unfold fallY
  have h0 : (0 : ℚ) ≤ n := Nat.cast_nonneg n
  have h1 : (n : ℚ) ≤ 76 := by exact_mod_cast h
  split
  · rename_i h2
    have h3 : (n : ℚ) ≤ 28 := by exact_mod_cast h2
    constructor
    · positivity
    · nlinarith
  · rename_i h2
    have h3 : (28 : ℚ) ≤ n := by
      have : 28 ≤ n := by omega
      exact_mod_cast this
    constructor <;> linarith

theorem Game.falling_start (g : Game) (h1 : g.canvas.height = 640)
    (h2 : g.difficultySettings.spawnRate = 160) : Game.Falling 0 g.startGame := by
  refine ⟨rfl, rfl, rfl, rfl, rfl, h1, h2, rfl, rfl, ?_, ?_⟩
  · simp [Game.startGame, Bird.new]
  · simp [Game.startGame, Bird.new, fallY]

theorem Game.falling_bird (n : Nat) (g : Game) (h : Game.Falling n g) :
    g.bird.update.velocity = min ((1 / 4 : ℚ) * ((n + 1 : Nat) : ℚ)) 7 ∧
      g.bird.update.y = fallY (n + 1) := by
  obtain ⟨-, -, -, -, -, -, -, h8, h9, h10, h11⟩ := h
  have hv : g.bird.update.velocity = min ((1 / 4 : ℚ) * ((n + 1 : Nat) : ℚ)) 7 := by
    simp only [Bird.update, h8, h9, h10]
    push_cast
    rcases le_total ((1 / 4 : ℚ) * n) 7 with hk | hk
    · rw [min_eq_left hk]; congr 1; ring
    · rw [min_eq_right hk, min_eq_right (by norm_num), min_eq_right (by linarith)]
  refine ⟨hv, ?_⟩
  rw [fallY_succ, ← hv, ← h11]
  rfl

theorem Game.falling_step (env : Env) (n : Nat) (g : Game) (h : Game.Falling n g)
    (hn : n < 76) : Game.Falling (n + 1) (g.update env) := by
  obtain ⟨hv, hy⟩ := Game.falling_bird n g h
  obtain ⟨h1, h2, h3, h4, h5, h6, h7, h8, h9, h10, h11⟩ := h
  obtain ⟨b0, b1⟩ := fallY_bounds (n + 1) (by omega)
  have hu : g.update env = g.advance.finishTick env := by
    apply Game.update_no_pipes env g h1 h2 _ h5
    · rw [h7, h4]; simp only [OfNat.ofNat_ne_zero, if_false]; omega
    · rw [hy, h6]; rintro (hc | hc) <;> linarith
  obtain ⟨pus, k, e⟩ := Game.finishTick_eq env g.advance
  rw [hu, e]
  exact ⟨h1, h2, h3, by show g.frameCount + 1 = n + 1; rw [h4], h5, h6, h7, h8, h9, hv, hy⟩


theorem Game.updates_succ (env : Env) (n : Nat) (g : Game) :
    Game.updates env (n + 1) g = (Game.updates env n g).update env := by
  induction n generalizing g with
  | zero => rfl
  | succ n ih =>
    show Game.updates env (n + 1) (g.update env) = _
    rw [ih]
    rfl

theorem Game.updates_add (env : Env) (m n : Nat) (g : Game) :
    Game.updates env (m + n) g = Game.updates env n (Game.updates env m g) := by
  induction n with
  | zero => rfl
  | succ n ih => rw [← Nat.add_assoc, Game.updates_succ, ih, Game.updates_succ]

/-- `update()` does nothing on a game that is not running or is paused. -/
theorem Game.update_idle (env : Env) (g : Game)
    (h : g.gameRunning = false ∨ g.gamePaused = true) : g.update env = g := by
  unfold Game.update
  rcases h with h | h <;> simp [h]

theorem Game.updates_idle (env : Env) (n : Nat) (g : Game)
    (h : g.gameRunning = false ∨ g.gamePaused = true) : Game.updates env n g = g := by
  induction n with
  | zero => rfl
  | succ n ih => rw [Game.updates_succ, ih, Game.update_idle env g h]

theorem Game.falling_updates (env : Env) (g : Game) (h : Game.Falling 0 g) (n : Nat)
    (hn : n ≤ 76) : Game.Falling n (Game.updates env n g) := by
  induction n with
  | zero => exact h
  | succ n ih =>
    rw [Game.updates_succ]
    exact Game.falling_step env n _ (ih (by omega)) (by omega)

/-- The 77th unflapped tick takes the bird below the canvas and ends the session. -/
theorem Game.falling_end (env : Env) (g : Game) (h : Game.Falling 76 g) :
    (g.update env).gameRunning = false ∧ (g.update env).gameState = GameState.gameover ∧
      (g.update env).pipes = [] ∧ (g.update env).frameCount = 77 := by
  obtain ⟨-, hy⟩ := Game.falling_bird 76 g h
  obtain ⟨h1, h2, -, h4, h5, h6, -⟩ := h
  have hb : g.bird.update.y > g.canvas.height ∨ g.bird.update.y < 0 := by
    left
    rw [hy, h6]
    norm_num [fallY]
  rw [Game.update_running env g h1 h2, if_pos hb]
  obtain ⟨ps, fs, n, e⟩ := Game.endGame_eq env g.advance
  rw [e]
  exact ⟨rfl, rfl, h5, by show g.frameCount + 1 = 77; rw [h4]⟩

/-- From a falling start, 160 updates without a flap leave no pipe: the session ends on
tick 77 and the later calls do nothing. -/
theorem Game.falling_160 (env : Env) (g : Game) (h : Game.Falling 0 g) :
    (Game.updates env 76 g).gameState = GameState.playing ∧
      (Game.updates env 160 g).gameState = GameState.gameover ∧
      (Game.updates env 160 g).pipes = [] ∧ (Game.updates env 160 g).frameCount = 77 := by
  have h76 := Game.falling_updates env g h 76 (le_refl _)
  obtain ⟨e1, e2, e3, e4⟩ := Game.falling_end env _ h76
  rw [← Game.updates_succ] at e1 e2 e3 e4
  have e : Game.updates env 160 g = Game.updates env 77 g := by
    rw [show 160 = 77 + 83 from rfl, Game.updates_add]
    exact Game.updates_idle env 83 _ (Or.inl e1)
  rw [e]
  exact ⟨h76.2.2.1, e2, e3, e4⟩

theorem Game.new_canvas (storage : Storage) :
    (Game.new storage).canvas.height = 640 ∧
      (Game.new storage).difficultySettings.spawnRate = 160 := by
  unfold Game.new Game.loadStats
  split <;> exact ⟨rfl, rfl⟩

/-- Counterexample to C10: on the fresh game, 160 updates without a flap leave a number of
pipes other than one. -/
theorem no_flap_run_not_one_pipe :
    (Game.updates (Env.const (1 / 2)) 160 Game.fresh).pipes.length ≠ 1 := by
  have h := Game.falling_160 (Env.const (1 / 2)) Game.fresh
    (Game.falling_start _ (Game.new_canvas Storage.empty).1 (Game.new_canvas Storage.empty).2)
  rw [h.2.2.1]
  decide

/-- C10, amended: from `startGame()` on a constructed game (640-high canvas, spawn rate 160),
with no flap and whatever the random draws, the session is still in play after 76 updates,
and after 160 updates the pipe collection is empty, the phase is `gameover` and the frame
counter stands at 77: the bird falls below the canvas on the 77th tick, before the first
spawn is due. -/
theorem no_flap_run (env : Env) (storage : Storage) :
    (Game.updates env 76 (Game.new storage).startGame).gameState = GameState.playing ∧
      (Game.updates env 160 (Game.new storage).startGame).gameState = GameState.gameover ∧
      (Game.updates env 160 (Game.new storage).startGame).pipes.length = 0 ∧
      (Game.updates env 160 (Game.new storage).startGame).frameCount = 77 := by
  have h := Game.falling_160 env (Game.new storage).startGame
    (Game.falling_start _ (Game.new_canvas storage).1 (Game.new_canvas storage).2)
  refine ⟨h.1, h.2.1, ?_, h.2.2.2⟩
  rw [h.2.2.1]
  rfl


/-- C11: in a tick of a running, unpaused game, if the advanced bird is below the canvas or
above its top, the phase becomes `gameover`, `gameRunning` becomes false, and the pipes, the
modifiers, the score, the streak and `pipesMissed` are as before the tick; otherwise the tick
goes on with the spawn step and the pipe loop on the advanced state, still running. -/
theorem bounds_check_early_return (env : Env) (g : Game) (hr : g.gameRunning = true)
    (hp : g.gamePaused = false) :
    ((g.bird.update.y > g.canvas.height ∨ g.bird.update.y < 0) →
      (g.update env).gameState = GameState.gameover ∧ (g.update env).gameRunning = false ∧
        (g.update env).pipes = g.pipes ∧ (g.update env).activePowerUps = g.activePowerUps ∧
        (g.update env).score = g.score ∧ (g.update env).pipesMissed = g.pipesMissed ∧
        (g.update env).consecutiveScores = g.consecutiveScores) ∧
    ((0 ≤ g.bird.update.y ∧ g.bird.update.y ≤ g.canvas.height) →
      g.advance.gameRunning = true ∧ g.advance.gameState = g.gameState ∧
        g.update env =
          match (g.advance.spawnStep env).pipeLoop env (g.advance.spawnStep env).speedMultiplier
            (g.advance.spawnStep env).pipes.length with
          | (g', true) => g'
          | (g', false) => g'.finishTick env) := by
  constructor
  · intro hb
    rw [Game.update_running env g hr hp, if_pos hb]
    obtain ⟨ps, fs, n, e⟩ := Game.endGame_eq env g.advance
    rw [e]
    exact ⟨rfl, rfl, rfl, rfl, rfl, rfl, rfl⟩
  · rintro ⟨h0, h1⟩
    refine ⟨hr, rfl, ?_⟩
    rw [Game.update_running env g hr hp, if_neg]
    rintro (hc | hc)
    · exact absurd hc (not_lt.mpr h1)
    · exact absurd hc (not_lt.mpr h0)

/-- Witness for C11: the bird on the lower edge falls out; the fresh bird stays in. -/
theorem bounds_check_early_return_witness :
    ((Game.fallingOut.update (Env.const (1 / 2))).gameState = GameState.gameover ∧
        (Game.fallingOut.update (Env.const (1 / 2))).pipes = Game.fallingOut.pipes) ∧
      Game.fresh.advance.gameRunning = true :=
  have h := (bounds_check_early_return (Env.const (1 / 2)) Game.fallingOut rfl rfl).1
    (Or.inl (by norm_num [Game.fallingOut, Game.fresh, Game.startGame, Game.new,
      Game.loadStats, Storage.empty, Bird.update, Bird.new]))
  ⟨⟨h.1, h.2.2.1⟩,
    ((bounds_check_early_return (Env.const (1 / 2)) Game.fresh rfl rfl).2
      (by norm_num [Game.fresh, Game.startGame, Game.new, Game.loadStats, Storage.empty,
        Bird.update, Bird.new])).1⟩

/-- C12: after `endGame()` the high score is the maximum of the previous high score and the
score; the persisted high score is overwritten with the score when the score is greater than
the previous high score, and is left as it was otherwise. -/
theorem high_score_persistence (env : Env) (g : Game) :
    (g.endGame env).highScore = max g.highScore g.score ∧
      (g.score > g.highScore →
        (g.endGame env).storage.flappyBirdHighScore = some g.score) ∧
      (¬ g.score > g.highScore →
        (g.endGame env).storage.flappyBirdHighScore = g.storage.flappyBirdHighScore) := by
  obtain ⟨ps, fs, n, e⟩ := Game.endGame_eq env g
  rw [e]
  refine ⟨?_, ?_, ?_⟩
  · show (if g.score > g.highScore then g.score else g.highScore) = max g.highScore g.score
    split
    · rename_i h; exact (max_eq_right (le_of_lt h)).symm
    · rename_i h; exact (max_eq_left (not_lt.mp h)).symm
  · intro h
    show (if g.score > g.highScore then some g.score else g.storage.flappyBirdHighScore) = _
    rw [if_pos h]
  · intro h
    show (if g.score > g.highScore then some g.score else g.storage.flappyBirdHighScore) = _
    rw [if_neg h]

/-- Witness for C12: a session ending with score 5 and one ending with score 0, both with
the high score 0. -/
theorem high_score_persistence_witness :
    (Game.scoredFive.endGame (Env.const (1 / 2))).storage.flappyBirdHighScore =
        some Game.scoredFive.score ∧
      (Game.fresh.endGame (Env.const (1 / 2))).storage.flappyBirdHighScore =
        Game.fresh.storage.flappyBirdHighScore :=
  ⟨(high_score_persistence (Env.const (1 / 2)) Game.scoredFive).2.1 (by decide),
    (high_score_persistence (Env.const (1 / 2)) Game.fresh).2.2 (by decide)⟩


/-- C16: `togglePause()` takes `playing` to `paused` (with `gamePaused` true) and `paused` to
`playing` (with `gamePaused` false) and changes nothing in the phases `menu` and `gameover`;
two toggles from `playing` give `playing` again; and on a paused game any number of
`update()` calls leaves the whole state unchanged. -/
theorem pause_spec (env : Env) (g : Game) (n : Nat) :
    (g.gameState = GameState.playing →
      g.togglePause.gameState = GameState.paused ∧ g.togglePause.gamePaused = true ∧
        g.togglePause.togglePause.gameState = GameState.playing ∧
        g.togglePause.togglePause.gamePaused = false ∧
        Game.updates env n g.togglePause = g.togglePause) ∧
    (g.gameState = GameState.paused →
      g.togglePause.gameState = GameState.playing ∧ g.togglePause.gamePaused = false) ∧
    ((g.gameState = GameState.menu ∨ g.gameState = GameState.gameover) → g.togglePause = g) ∧
    (g.gamePaused = true → Game.updates env n g = g) := by
  refine ⟨?_, ?_, ?_, ?_⟩
  · intro h
    have h1 : g.togglePause.gameState = GameState.paused := by simp [Game.togglePause, h]
    have h2 : g.togglePause.gamePaused = true := by simp [Game.togglePause, h]
    refine ⟨h1, h2, ?_, ?_, Game.updates_idle env n _ (Or.inr h2)⟩
    · simp [Game.togglePause, h]
    · simp [Game.togglePause, h]
  · intro h
    constructor <;> simp [Game.togglePause, h]
  · rintro (h | h) <;> simp [Game.togglePause, h]
  · intro h
    exact Game.updates_idle env n g (Or.inr h)

/-- Witness for C16: the fresh game (playing), paused, toggled back, and a game in the menu. -/
theorem pause_spec_witness :
    Game.updates (Env.const (1 / 2)) 5 Game.fresh.togglePause = Game.fresh.togglePause ∧
      Game.fresh.togglePause.togglePause.gameState = GameState.playing ∧
      (Game.new Storage.empty).togglePause = Game.new Storage.empty ∧
      Game.updates (Env.const (1 / 2)) 5 Game.fresh.togglePause = Game.fresh.togglePause :=
  ⟨((pause_spec (Env.const (1 / 2)) Game.fresh 5).1 rfl).2.2.2.2,
    ((pause_spec (Env.const (1 / 2)) Game.fresh.togglePause 5).2.1 rfl).1,
    (pause_spec (Env.const (1 / 2)) (Game.new Storage.empty) 5).2.2.1 (Or.inl rfl),
    (pause_spec (Env.const (1 / 2)) Game.fresh.togglePause 5).2.2.2 rfl⟩

/-- C18 fails on the bounds path: the bird of `fallingOut` leaves the canvas on the next
tick, the phase becomes `gameover`, and the streak is still 3 and the combo multiplier
still 1.3. -/
theorem bounds_gameover_keeps_streak :
    (Game.fallingOut.update (Env.const (1 / 2))).gameState = GameState.gameover ∧
      Game.fallingOut.gameState = GameState.playing ∧
      (Game.fallingOut.update (Env.const (1 / 2))).consecutiveScores = 3 ∧
      (Game.fallingOut.update (Env.const (1 / 2))).comboMultiplier = 13 / 10 := by
  have hb : Game.fallingOut.bird.update.y > Game.fallingOut.canvas.height ∨
      Game.fallingOut.bird.update.y < 0 := by
    left
    norm_num [Game.fallingOut, Game.fresh, Game.startGame, Game.new, Game.loadStats,
      Storage.empty, Bird.update, Bird.new]
  rw [Game.update_running _ Game.fallingOut rfl rfl, if_pos hb]
  obtain ⟨ps, fs, n, e⟩ := Game.endGame_eq (Env.const (1 / 2)) Game.fallingOut.advance
  rw [e]
  exact ⟨rfl, rfl, rfl, rfl⟩

/-- Counterexample to C19: on a canvas 200 high with gap size 180 and the draw 0, the pipe of
`generatePipe()` has its gap from 75 to 255, outside the canvas. -/
theorem generatePipe_small_canvas_invalid :
    (Game.smallCanvas.generatePipe (Env.const 0)).pipes = [Pipe.new 400 75 180] ∧
      (0 : ℚ) < 180 ∧ (180 : ℚ) ≤ Game.smallCanvas.canvas.height ∧
      ¬ ((0 : ℚ) ≤ (Pipe.new 400 75 180).gap ∧
        (Pipe.new 400 75 180).gap + (Pipe.new 400 75 180).gapSize ≤
          Game.smallCanvas.canvas.height) := by
  refine ⟨?_, by norm_num, ?_, ?_⟩
  · simp [Game.generatePipe, Game.random, Game.smallCanvas, Game.fresh, Game.startGame, Game.new,
      Game.loadStats, Storage.empty, Env.const]
  · norm_num [Game.smallCanvas]
  · norm_num [Game.smallCanvas, Pipe.new]

/-- C19, amended: `generatePipe()` does no clamping, the gap of the new pipe is always
`r * (H - G - 150) + 75`. When `H - G ≥ 75` and the draw `r` lies in `[0, 1)` the new pipe has
its gap inside the canvas (`gap ≥ 0` and `gap + gapSize ≤ H`), also when the nominal range
`[75, H - G - 75]` is empty; when `H - G < 75` the draw 0 gives a pipe whose gap ends below
the canvas. -/
theorem generatePipe_valid (env : Env) (g : Game)
    (hH : 75 ≤ g.canvas.height - g.difficultySettings.gapSize)
    (hr0 : 0 ≤ env.random g.randomCalls) (hr1 : env.random g.randomCalls < 1) :
    (∃ pipe : Pipe, (g.generatePipe env).pipes = g.pipes ++ [pipe] ∧
      pipe.gap = env.random g.randomCalls *
        (g.canvas.height - g.difficultySettings.gapSize - 150) + 75 ∧
      pipe.gapSize = g.difficultySettings.gapSize ∧
      0 ≤ pipe.gap ∧ pipe.gap + pipe.gapSize ≤ g.canvas.height) ∧
    (∀ (env' : Env) (q : Game), q.canvas.height - q.difficultySettings.gapSize < 75 →
      env'.random q.randomCalls = 0 →
      ∃ pipe : Pipe, (q.generatePipe env').pipes = q.pipes ++ [pipe] ∧
        ¬ (pipe.gap + pipe.gapSize ≤ q.canvas.height)) := by
  constructor
  · have e : (Pipe.new g.canvas.width
        (env.random g.randomCalls *
          (g.canvas.height - g.difficultySettings.gapSize - 75 - 75) + 75)
        g.difficultySettings.gapSize).gap =
        env.random g.randomCalls *
          (g.canvas.height - g.difficultySettings.gapSize - 150) + 75 := by
      simp only [Pipe.new]; ring
    refine ⟨_, rfl, ?_, rfl, ?_, ?_⟩
    · simp only [Game.random]
      exact e
    · simp only [Game.random]
      rw [e]
      by_cases hD : 150 ≤ g.canvas.height - g.difficultySettings.gapSize
      · have := mul_nonneg hr0 (sub_nonneg.mpr hD)
        linarith
      · have h1 : env.random g.randomCalls *
            (150 - (g.canvas.height - g.difficultySettings.gapSize)) ≤
            1 * (150 - (g.canvas.height - g.difficultySettings.gapSize)) :=
          mul_le_mul_of_nonneg_right hr1.le (by linarith)
        linarith
    · simp only [Game.random]
      rw [e]
      show _ + (Pipe.new _ _ _).gapSize ≤ _
      simp only [Pipe.new]
      by_cases hD : 150 ≤ g.canvas.height - g.difficultySettings.gapSize
      · have h1 : env.random g.randomCalls *
            (g.canvas.height - g.difficultySettings.gapSize - 150) ≤
            1 * (g.canvas.height - g.difficultySettings.gapSize - 150) :=
          mul_le_mul_of_nonneg_right hr1.le (by linarith)
        linarith
      · have := mul_nonneg hr0
          (show (0 : ℚ) ≤ 150 - (g.canvas.height - g.difficultySettings.gapSize) by linarith)
        linarith
  · intro env' q hD hr
    refine ⟨_, rfl, ?_⟩
    simp only [Game.random, Pipe.new, hr]
    intro h
    linarith


/-- Witness for C19: a canvas 300 high with gap size 180, where the nominal range
`[75, 45]` is empty, with the draw `1/2`: the gap runs from 60 to 240. -/
theorem generatePipe_valid_witness :
    Game.lowCanvas.canvas.height - Game.lowCanvas.difficultySettings.gapSize - 75 < 75 ∧
      ∃ pipe : Pipe,
        (Game.lowCanvas.generatePipe (Env.const (1 / 2))).pipes =
            Game.lowCanvas.pipes ++ [pipe] ∧
          pipe.gap = 60 ∧ 0 ≤ pipe.gap ∧ pipe.gap + pipe.gapSize ≤ Game.lowCanvas.canvas.height := by
  obtain ⟨pipe, h1, h2, -, h4, h5⟩ :=
    (generatePipe_valid (Env.const (1 / 2)) Game.lowCanvas
      (by norm_num [Game.lowCanvas, Game.fresh, Game.startGame, Game.new, Game.loadStats,
        Storage.empty])
      (by norm_num [Env.const]) (by norm_num [Env.const])).1
  refine ⟨by norm_num [Game.lowCanvas, Game.fresh, Game.startGame, Game.new, Game.loadStats,
    Storage.empty], pipe, h1, ?_, h4, h5⟩
  rw [h2]
  norm_num [Game.lowCanvas, Game.fresh, Game.startGame, Game.new, Game.loadStats,
    Storage.empty, Env.const]

/-- C20: `startGame()` empties the pipes, particles, power-ups, score floaters and modifiers,
zeroes the score, the coins, the frame counter, `pipesMissed` and the screen shake, sets the
combo multiplier to 1 and the streak to 0, sets the session running, unpaused and `playing`,
and installs a freshly constructed bird with the previous bird's character; the high score
and the difficulty profile are kept and `gamesPlayed` grows by one. -/
theorem startGame_resets (g : Game) :
    g.startGame.pipes = [] ∧ g.startGame.particles = [] ∧ g.startGame.powerUps = [] ∧
      g.startGame.scoreFloaters = [] ∧ (∀ k, g.startGame.activePowerUps k = none) ∧
      g.startGame.score = 0 ∧ g.startGame.coins = 0 ∧ g.startGame.frameCount = 0 ∧
      g.startGame.pipesMissed = 0 ∧ g.startGame.screenShake = 0 ∧
      g.startGame.comboMultiplier = 1 ∧ g.startGame.consecutiveScores = 0 ∧
      g.startGame.gameRunning = true ∧ g.startGame.gamePaused = false ∧
      g.startGame.gameState = GameState.playing ∧
      g.startGame.bird = Bird.new g.bird.character ∧
      g.startGame.bird.x = 100 ∧ g.startGame.bird.y = 200 ∧ g.startGame.bird.velocity = 0 ∧
      g.startGame.bird.rotation = 0 ∧ g.startGame.bird.character = g.bird.character ∧
      g.startGame.highScore = g.highScore ∧
      g.startGame.difficultySettings = g.difficultySettings ∧
      g.startGame.difficulty = g.difficulty ∧
      g.startGame.sessionStats.gamesPlayed = g.sessionStats.gamesPlayed + 1 :=
  ⟨rfl, rfl, rfl, rfl, fun _ => rfl, rfl, rfl, rfl, rfl, rfl, rfl, rfl, rfl, rfl, rfl, rfl, rfl,
    rfl, rfl, rfl, rfl, rfl, rfl, rfl, rfl⟩


/-! ### Ranks -/

theorem Rank.holds_iff (r : Rank) (score : Int) :
    r.holds score = true ↔
      r.minScore ≤ score ∧ ∀ m, r.maxScore = some m → score ≤ m := by
  unfold Rank.holds
  cases r.maxScore <;> simp

theorem ranks_find_cons (score : Int) (r : Rank) (l : List Rank) :
    List.find? (fun rank => rank.holds score) (r :: l) =
      if r.minScore ≤ score ∧ ∀ m, r.maxScore = some m → score ≤ m then some r
      else List.find? (fun rank => rank.holds score) l := by
  by_cases h : r.holds score = true
  · rw [if_pos ((Rank.holds_iff r score).mp h)]
    simp [List.find?_cons, h]
  · rw [if_neg (fun hc => h ((Rank.holds_iff r score).mpr hc))]
    simp [List.find?_cons, h]

theorem tier_cases (score : Int) :
    score < 0 ∨ (0 ≤ score ∧ score < 50) ∨ (50 ≤ score ∧ score < 100) ∨
      (100 ≤ score ∧ score < 200) ∨ (200 ≤ score ∧ score < 400) ∨
      (400 ≤ score ∧ score < 700) ∨ (700 ≤ score ∧ score < 1000) ∨ 1000 ≤ score := by
  omega

/-- The rank of a score, tier by tier. -/
theorem rankFor_eq (score : Int) :
    rankFor score =
      if score < 50 then Rank.rookie
      else if score < 100 then Rank.beginner
      else if score < 200 then Rank.amateur
      else if score < 400 then Rank.pro
      else if score < 700 then Rank.expert
      else if score < 1000 then Rank.master
      else Rank.legend := by
  unfold rankFor ranks
  simp only [ranks_find_cons, List.find?_nil, Rank.rookie, Rank.beginner, Rank.amateur,
    Rank.pro, Rank.expert, Rank.master, Rank.legend, Option.some.injEq, forall_eq',
    reduceCtorEq, false_implies, implies_true, and_true]
  rcases tier_cases score with h | h | h | h | h | h | h | h <;>
    simp (disch := omega) only [if_pos, if_neg] <;> rfl

theorem rankFor_tiers (score : Int) :
    (score < 50 → rankFor score = Rank.rookie) ∧
      (50 ≤ score → score < 100 → rankFor score = Rank.beginner) ∧
      (100 ≤ score → score < 200 → rankFor score = Rank.amateur) ∧
      (200 ≤ score → score < 400 → rankFor score = Rank.pro) ∧
      (400 ≤ score → score < 700 → rankFor score = Rank.expert) ∧
      (700 ≤ score → score < 1000 → rankFor score = Rank.master) ∧
      (1000 ≤ score → rankFor score = Rank.legend) := by
  rw [rankFor_eq]
  refine ⟨?_, ?_, ?_, ?_, ?_, ?_, ?_⟩ <;> intros <;>
    simp (disch := omega) only [if_pos, if_neg]

/-- The rank of a score is in the table, holds the score when it is not negative, and sits
at an index that grows with the score. -/
theorem rankFor_index (score : Int) :
    ∃ i, i < 7 ∧ ranks.indexOf (rankFor score) = i ∧ ranks.get? i = some (rankFor score) ∧
      (0 ≤ score → (rankFor score).holds score = true) ∧
      (∀ t, score ≤ t → i ≤ ranks.indexOf (rankFor t)) := by
  obtain ⟨h0, h1, h2, h3, h4, h5, h6⟩ := rankFor_tiers score
  have mono : ∀ t, (50 ≤ t → 1 ≤ ranks.indexOf (rankFor t)) ∧
      (100 ≤ t → 2 ≤ ranks.indexOf (rankFor t)) ∧ (200 ≤ t → 3 ≤ ranks.indexOf (rankFor t)) ∧
      (400 ≤ t → 4 ≤ ranks.indexOf (rankFor t)) ∧ (700 ≤ t → 5 ≤ ranks.indexOf (rankFor t)) ∧
      (1000 ≤ t → 6 ≤ ranks.indexOf (rankFor t)) := by
    intro t
    obtain ⟨t0, t1, t2, t3, t4, t5, t6⟩ := rankFor_tiers t
    rcases tier_cases t with h | h | h | h | h | h | h | h
    · rw [t0 (by omega)]; refine ⟨?_, ?_, ?_, ?_, ?_, ?_⟩ <;> intro <;> omega
    · rw [t0 (by omega)]; refine ⟨?_, ?_, ?_, ?_, ?_, ?_⟩ <;> intro <;> omega
    · rw [t1 h.1 h.2]
      refine ⟨?_, ?_, ?_, ?_, ?_, ?_⟩ <;> intro <;> first | omega | decide
    · rw [t2 h.1 h.2]
      refine ⟨?_, ?_, ?_, ?_, ?_, ?_⟩ <;> intro <;> first | omega | decide
    · rw [t3 h.1 h.2]
      refine ⟨?_, ?_, ?_, ?_, ?_, ?_⟩ <;> intro <;> first | omega | decide
    · rw [t4 h.1 h.2]
      refine ⟨?_, ?_, ?_, ?_, ?_, ?_⟩ <;> intro <;> first | omega | decide
    · rw [t5 h.1 h.2]
      refine ⟨?_, ?_, ?_, ?_, ?_, ?_⟩ <;> intro <;> first | omega | decide
    · rw [t6 h]
      refine ⟨?_, ?_, ?_, ?_, ?_, ?_⟩ <;> intro <;> first | omega | decide
  rcases tier_cases score with h | h | h | h | h | h | h | h
  · rw [h0 (by omega)]
    exact ⟨0, by decide, by decide, rfl, fun hc => absurd hc (by omega), fun _ _ => Nat.zero_le _⟩
  · rw [h0 (by omega)]
    refine ⟨0, by decide, by decide, rfl, fun _ => ?_, fun _ _ => Nat.zero_le _⟩
    rw [Rank.holds_iff]; simp [Rank.rookie]; omega
  · rw [h1 h.1 h.2]
    refine ⟨1, by decide, by decide, rfl, fun _ => ?_, fun t ht => (mono t).1 (by omega)⟩
    rw [Rank.holds_iff]; simp [Rank.beginner]; omega
  · rw [h2 h.1 h.2]
    refine ⟨2, by decide, by decide, rfl, fun _ => ?_, fun t ht => (mono t).2.1 (by omega)⟩
    rw [Rank.holds_iff]; simp [Rank.amateur]; omega
  · rw [h3 h.1 h.2]
    refine ⟨3, by decide, by decide, rfl, fun _ => ?_, fun t ht => (mono t).2.2.1 (by omega)⟩
    rw [Rank.holds_iff]; simp [Rank.pro]; omega
  · rw [h4 h.1 h.2]
    refine ⟨4, by decide, by decide, rfl, fun _ => ?_, fun t ht => (mono t).2.2.2.1 (by omega)⟩
    rw [Rank.holds_iff]; simp [Rank.expert]; omega
  · rw [h5 h.1 h.2]
    refine ⟨5, by decide, by decide, rfl, fun _ => ?_,
      fun t ht => (mono t).2.2.2.2.1 (by omega)⟩
    rw [Rank.holds_iff]; simp [Rank.master]; omega
  · rw [h6 h]
    refine ⟨6, by decide, by decide, rfl, fun _ => ?_,
      fun t ht => (mono t).2.2.2.2.2 (by omega)⟩
    rw [Rank.holds_iff]; simp [Rank.legend]; omega


theorem rankFor_unique (score : Int) (r : Rank) (hr : r ∈ ranks) (hh : r.holds score = true) :
    r = rankFor score := by
  obtain ⟨h0, h1, h2, h3, h4, h5, h6⟩ := rankFor_tiers score
  rw [Rank.holds_iff] at hh
  simp only [ranks, List.mem_cons, List.mem_singleton, List.not_mem_nil, or_false] at hr
  rcases hr with rfl | rfl | rfl | rfl | rfl | rfl | rfl
  · have := hh.2 49 rfl; exact (h0 (by omega)).symm
  · have := hh.2 99 rfl; have := hh.1; simp only [Rank.beginner] at this
    exact (h1 (by omega) (by omega)).symm
  · have := hh.2 199 rfl; have := hh.1; simp only [Rank.amateur] at this
    exact (h2 (by omega) (by omega)).symm
  · have := hh.2 399 rfl; have := hh.1; simp only [Rank.pro] at this
    exact (h3 (by omega) (by omega)).symm
  · have := hh.2 699 rfl; have := hh.1; simp only [Rank.expert] at this
    exact (h4 (by omega) (by omega)).symm
  · have := hh.2 999 rfl; have := hh.1; simp only [Rank.master] at this
    exact (h5 (by omega) (by omega)).symm
  · have := hh.1; simp only [Rank.legend] at this
    exact (h6 (by omega)).symm

/-- C14: for a score `≥ 0` exactly one entry of `ranks` has `minScore ≤ score ≤ maxScore`,
and `getCurrentRank()` returns it: Rookie for 0..49, Beginner for 50..99, Amateur for
100..199, Pro for 200..399, Expert for 400..699, Master for 700..999, Legend from 1000 on; the
index of the returned rank does not decrease when the score grows; and a score that no entry
matches, such as a negative one, gives Rookie. -/
theorem rank_total (g : Game) :
    g.getCurrentRank = rankFor g.score ∧ g.getHighScoreRank = rankFor g.highScore ∧
    (0 ≤ g.score →
      (∃! r, r ∈ ranks ∧ r.holds g.score = true) ∧ g.getCurrentRank ∈ ranks ∧
        g.getCurrentRank.holds g.score = true) ∧
    ((0 ≤ g.score → g.score ≤ 49 → g.getCurrentRank.name = "Rookie") ∧
      (50 ≤ g.score → g.score ≤ 99 → g.getCurrentRank.name = "Beginner") ∧
      (100 ≤ g.score → g.score ≤ 199 → g.getCurrentRank.name = "Amateur") ∧
      (200 ≤ g.score → g.score ≤ 399 → g.getCurrentRank.name = "Pro") ∧
      (400 ≤ g.score → g.score ≤ 699 → g.getCurrentRank.name = "Expert") ∧
      (700 ≤ g.score → g.score ≤ 999 → g.getCurrentRank.name = "Master") ∧
      (1000 ≤ g.score → g.getCurrentRank.name = "Legend")) ∧
    (∀ g' : Game, g.score ≤ g'.score →
      ranks.indexOf g.getCurrentRank ≤ ranks.indexOf g'.getCurrentRank) ∧
    ((∀ r ∈ ranks, r.holds g.score = false) → g.getCurrentRank = Rank.rookie) ∧
    (g.score < 0 → g.getCurrentRank = Rank.rookie) := by
  obtain ⟨h0, h1, h2, h3, h4, h5, h6⟩ := rankFor_tiers g.score
  obtain ⟨i, hi, hidx, hget, hholds, hmono⟩ := rankFor_index g.score
  have hmem : rankFor g.score ∈ ranks := List.get?_mem hget
  refine ⟨rfl, rfl, ?_, ⟨?_, ?_, ?_, ?_, ?_, ?_, ?_⟩, ?_, ?_, ?_⟩
  · intro hs
    exact ⟨⟨rankFor g.score, ⟨hmem, hholds hs⟩, fun r hr => rankFor_unique g.score r hr.1 hr.2⟩,
      hmem, hholds hs⟩
  · intro _ hb; show (rankFor g.score).name = _; rw [h0 (by omega)]; rfl
  · intro ha hb; show (rankFor g.score).name = _; rw [h1 ha (by omega)]; rfl
  · intro ha hb; show (rankFor g.score).name = _; rw [h2 ha (by omega)]; rfl
  · intro ha hb; show (rankFor g.score).name = _; rw [h3 ha (by omega)]; rfl
  · intro ha hb; show (rankFor g.score).name = _; rw [h4 ha (by omega)]; rfl
  · intro ha hb; show (rankFor g.score).name = _; rw [h5 ha (by omega)]; rfl
  · intro ha; show (rankFor g.score).name = _; rw [h6 ha]; rfl
  · intro g' hg
    show ranks.indexOf (rankFor g.score) ≤ ranks.indexOf (rankFor g'.score)
    rw [hidx]
    exact hmono g'.score hg
  · intro hall
    by_cases hs : 0 ≤ g.score
    · have := hall _ hmem
      rw [hholds hs] at this
      exact absurd this (by simp)
    · exact h0 (by omega)
  · intro hs
    exact h0 (by omega)

/-- Witness for C14: the score 120 is an Amateur score. -/
theorem rank_total_witness :
    Game.scored120.getCurrentRank.name = "Amateur" ∧
      Game.scored120.getCurrentRank.holds Game.scored120.score = true :=
  ⟨(rank_total Game.scored120).2.2.2.1.2.2.1 (by decide) (by decide),
    ((rank_total Game.scored120).2.2.1 (by decide)).2.2⟩

theorem progress_bounds (s lo hi : Int) (h1 : lo ≤ s) (h2 : s < hi) :
    min (((s : ℚ) - lo) / ((hi : ℚ) - lo) * 100) 100 = ((s : ℚ) - lo) / ((hi : ℚ) - lo) * 100 ∧
      0 ≤ ((s : ℚ) - lo) / ((hi : ℚ) - lo) * 100 ∧
      ((s : ℚ) - lo) / ((hi : ℚ) - lo) * 100 < 100 ∧
      (((s : ℚ) - lo) / ((hi : ℚ) - lo) * 100 = 0 ↔ s = lo) := by
  have a1 : (lo : ℚ) ≤ s := by exact_mod_cast h1
  have a2 : (s : ℚ) < hi := by exact_mod_cast h2
  have a3 : (0 : ℚ) < (hi : ℚ) - lo := by linarith
  have a4 : ((s : ℚ) - lo) / ((hi : ℚ) - lo) < 1 := by rw [div_lt_one a3]; linarith
  have a5 : 0 ≤ ((s : ℚ) - lo) / ((hi : ℚ) - lo) := div_nonneg (by linarith) a3.le
  refine ⟨min_eq_left (by linarith), by linarith, by linarith, ?_⟩
  constructor
  · intro h
    have : ((s : ℚ) - lo) / ((hi : ℚ) - lo) = 0 := by linarith
    rw [div_eq_zero_iff] at this
    rcases this with h | h
    · have : (s : ℚ) = lo := by linarith
      exact_mod_cast this
    · exact absurd h a3.ne'
  · intro h
    rw [h]; simp

theorem Game.getRankProgress_of (g : Game) (cur next : Rank) (i : Nat)
    (hc : rankFor g.score = cur) (hi : ranks.indexOf cur = i)
    (hn : ranks.get? (i + 1) = some next) :
    ranks.get? (ranks.indexOf g.getCurrentRank + 1) = some next ∧
      g.getCurrentRank = cur ∧
      g.getRankProgress =
        min (((g.score : ℚ) - cur.minScore) / ((next.minScore : ℚ) - cur.minScore) * 100)
          100 := by
  have e : g.getCurrentRank = cur := hc
  refine ⟨by rw [e, hi, hn], e, ?_⟩
  unfold Game.getRankProgress
  simp only [e, hi, hn]


/-- The progress inside a tier below the top one. -/
theorem Game.rank_progress_tier (g : Game) (cur next : Rank) (i : Nat)
    (hc : rankFor g.score = cur) (hi : ranks.indexOf cur = i)
    (hn : ranks.get? (i + 1) = some next) (h1 : cur.minScore ≤ g.score)
    (h2 : g.score < next.minScore) :
    ∃ next', ranks.get? (ranks.indexOf g.getCurrentRank + 1) = some next' ∧
      g.getRankProgress =
        ((g.score : ℚ) - g.getCurrentRank.minScore) /
          ((next'.minScore : ℚ) - g.getCurrentRank.minScore) * 100 ∧
      0 ≤ g.getRankProgress ∧ g.getRankProgress < 100 ∧
      (g.getRankProgress = 0 ↔ g.score = g.getCurrentRank.minScore) := by
  obtain ⟨e1, e2, e3⟩ := Game.getRankProgress_of g cur next i hc hi hn
  obtain ⟨b1, b2, b3, b4⟩ := progress_bounds g.score cur.minScore next.minScore h1 h2
  rw [b1] at e3
  refine ⟨next, e1, ?_, ?_, ?_, ?_⟩
  · rw [e3, e2]
  · rw [e3]; exact b2
  · rw [e3]; exact b3
  · rw [e3, e2]; exact b4

/-- C15: `getRankProgress()` is 100 on the top tier (score `≥ 1000`); for a score in
`[0, 1000)` it is `(score - current.minScore) / (next.minScore - current.minScore) * 100`,
which lies in `[0, 100)` and is 0 exactly at the tier's `minScore`; it never exceeds 100. -/
theorem rank_progress (g : Game) :
    (1000 ≤ g.score → g.getRankProgress = 100) ∧
    (0 ≤ g.score → g.score < 1000 →
      ∃ next, ranks.get? (ranks.indexOf g.getCurrentRank + 1) = some next ∧
        g.getRankProgress =
          ((g.score : ℚ) - g.getCurrentRank.minScore) /
            ((next.minScore : ℚ) - g.getCurrentRank.minScore) * 100 ∧
        0 ≤ g.getRankProgress ∧ g.getRankProgress < 100 ∧
        (g.getRankProgress = 0 ↔ g.score = g.getCurrentRank.minScore)) ∧
    (0 ≤ g.score → g.getRankProgress ≤ 100) := by
  obtain ⟨h0, h1, h2, h3, h4, h5, h6⟩ := rankFor_tiers g.score
  have top : 1000 ≤ g.score → g.getRankProgress = 100 := by
    intro h
    unfold Game.getRankProgress Game.getCurrentRank
    rw [h6 h]
    rfl
  have mid : 0 ≤ g.score → g.score < 1000 →
      ∃ next, ranks.get? (ranks.indexOf g.getCurrentRank + 1) = some next ∧
        g.getRankProgress =
          ((g.score : ℚ) - g.getCurrentRank.minScore) /
            ((next.minScore : ℚ) - g.getCurrentRank.minScore) * 100 ∧
        0 ≤ g.getRankProgress ∧ g.getRankProgress < 100 ∧
        (g.getRankProgress = 0 ↔ g.score = g.getCurrentRank.minScore) := by
    intro ha hb
    rcases tier_cases g.score with h | h | h | h | h | h | h | h
    · omega
    · exact Game.rank_progress_tier g Rank.rookie Rank.beginner 0 (h0 h.2) (by decide) rfl
        h.1 h.2
    · exact Game.rank_progress_tier g Rank.beginner Rank.amateur 1 (h1 h.1 h.2) (by decide) rfl
        h.1 h.2
    · exact Game.rank_progress_tier g Rank.amateur Rank.pro 2 (h2 h.1 h.2) (by decide) rfl
        h.1 h.2
    · exact Game.rank_progress_tier g Rank.pro Rank.expert 3 (h3 h.1 h.2) (by decide) rfl
        h.1 h.2
    · exact Game.rank_progress_tier g Rank.expert Rank.master 4 (h4 h.1 h.2) (by decide) rfl
        h.1 h.2
    · exact Game.rank_progress_tier g Rank.master Rank.legend 5 (h5 h.1 h.2) (by decide) rfl
        h.1 h.2
    · omega
  refine ⟨top, mid, ?_⟩
  intro ha
  by_cases hb : g.score < 1000
  · obtain ⟨_, -, -, -, hlt, -⟩ := mid ha hb
    exact hlt.le
  · rw [top (by omega)]

/-- Witness for C15: the score 120 is a fifth of the way through the Amateur tier. -/
theorem rank_progress_witness :
    ∃ next, ranks.get? (ranks.indexOf Game.scored120.getCurrentRank + 1) = some next ∧
      Game.scored120.getRankProgress =
        ((Game.scored120.score : ℚ) - Game.scored120.getCurrentRank.minScore) /
          ((next.minScore : ℚ) - Game.scored120.getCurrentRank.minScore) * 100 ∧
      Game.scored120.getRankProgress < 100 := by
  obtain ⟨next, h1, h2, -, h4, -⟩ := (rank_progress Game.scored120).2.1 (by decide) (by decide)
  exact ⟨next, h1, h2, h4⟩

/-! ### The leaderboard and the drawing pass -/

/-- C13 fails on the code: after the 25 calls `saveScore(1)`, ..., `saveScore(25)` on an empty
store the persisted leaderboard holds the 11 scores 25, ..., 15, not the 20 highest. -/
theorem leaderboard_keeps_eleven :
    (Game.saveScores (Env.const (1 / 2)) oneTo25 Game.fresh).storedScores =
        [25, 24, 23, 22, 21, 20, 19, 18, 17, 16, 15] ∧
      (Game.saveScores (Env.const (1 / 2)) oneTo25 Game.fresh).storedScores.length = 11 ∧
      oneTo25.length = 25 ∧ Game.fresh.storedScores = [] := by
  decide

/-- C17 fails on the code: `draw()` on a paused game with a coin next to the bird moves the
coin, picks it up, removes it from `powerUps` and adds 10 to `coins` and to
`sessionStats.totalCoins`, and leaves particles and a score floater behind. -/
theorem draw_mutates_paused_game :
    Game.pausedWithCoin.gameState = GameState.paused ∧
      Game.pausedWithCoin.powerUps.length = 1 ∧
      (Game.pausedWithCoin.draw (Env.const (1 / 2))).powerUps = [] ∧
      Game.pausedWithCoin.coins = 0 ∧
      (Game.pausedWithCoin.draw (Env.const (1 / 2))).coins = 10 ∧
      (Game.pausedWithCoin.draw (Env.const (1 / 2))).sessionStats.totalCoins =
        Game.pausedWithCoin.sessionStats.totalCoins + 10 ∧
      (Game.pausedWithCoin.draw (Env.const (1 / 2))).particles.length = 16 ∧
      (Game.pausedWithCoin.draw (Env.const (1 / 2))).scoreFloaters.length = 1 := by
  decide!


/-! ### Scoring a pipe once -/

theorem setPassed_eq (pipes : List Pipe) (i : Nat) (p : Pipe) (h : pipes[i]? = some p) :
    setPassed pipes i = pipes.set i { p with passed := true } := by
  simp [setPassed, h]

theorem pipes_set_self (pipes : List Pipe) (i : Nat) (p : Pipe) (h : pipes[i]? = some p) :
    pipes.set i p = pipes := by
  apply List.ext_getElem?
  intro j
  rw [List.getElem?_set]
  split
  · rename_i hij
    subst hij
    split
    · exact h.symm
    · rename_i hl
      rw [List.getElem?_eq_none (not_lt.mp hl)]
  · rfl

/-- The score check and removal of a round, on a state whose pipe `i` is the moved pipe. -/
theorem Game.scoreAndRemove_spec (env : Env) (i : Nat) (p : Pipe) (g : Game)
    (h : g.pipes[i]? = some p) :
    (g.scoreAndRemove env i p).pipes =
        (if p.isOffScreen then
          (g.pipes.set i (if p.scores g.bird then { p with passed := true } else p)).eraseIdx i
        else g.pipes.set i (if p.scores g.bird then { p with passed := true } else p)) ∧
      (g.scoreAndRemove env i p).pipesMissed =
        g.pipesMissed + (if p.scores g.bird then 1 else 0) ∧
      (g.scoreAndRemove env i p).consecutiveScores =
        g.consecutiveScores + (if p.scores g.bird then 1 else 0) ∧
      (g.scoreAndRemove env i p).score =
        g.score + (if p.scores g.bird then g.finalScore (comboFor (g.consecutiveScores + 1))
          else 0) := by
  obtain ⟨ps, fs, n, bc, e⟩ := Game.scorePipe_eq env i g
  have hset : g.pipes.set i p = g.pipes := pipes_set_self g.pipes i p h
  unfold Game.scoreAndRemove
  cases hs : p.scores g.bird <;> cases ho : p.isOffScreen <;>
    simp only [if_true, if_false, Bool.false_eq_true, e, Game.withFx, Game.awardPass,
      setPassed_eq g.pipes i p h, hset, add_zero] <;>
    refine ⟨?_, ?_, ?_, ?_⟩ <;> first | rfl | trivial


theorem Game.useGhost_eq (g : Game) :
    ∃ m : ActivePowerUps, g.useGhost = { g with activePowerUps := m } ∧
      m PowerUpType.doublePoints = g.activePowerUps PowerUpType.doublePoints := by
  unfold Game.useGhost
  cases h : g.activePowerUps PowerUpType.ghost with
  | none => exact ⟨g.activePowerUps, rfl, rfl⟩
  | some ghost =>
    simp only
    split
    · exact ⟨_, rfl, by simp [ActivePowerUps.delete]⟩
    · exact ⟨_, rfl, by simp [ActivePowerUps.set]⟩

/-- A collision that does not end the session leaves the pipes, the bird, the score, the
streak, `pipesMissed` and the double-points entry as they were. -/
theorem Game.resolveCollision_survived (env : Env) (g : Game)
    (h : (g.resolveCollision env).2 = false) :
    (g.resolveCollision env).1.pipes = g.pipes ∧
      (g.resolveCollision env).1.bird = g.bird ∧
      (g.resolveCollision env).1.score = g.score ∧
      (g.resolveCollision env).1.pipesMissed = g.pipesMissed ∧
      (g.resolveCollision env).1.consecutiveScores = g.consecutiveScores ∧
      (g.resolveCollision env).1.activePowerUps PowerUpType.doublePoints =
        g.activePowerUps PowerUpType.doublePoints := by
  by_cases hs : g.activePowerUps PowerUpType.shield = none
  · by_cases hg : g.activePowerUps PowerUpType.ghost = none
    · have := (Game.resolveCollision_fatal env g hs hg).1
      rw [h] at this
      exact absurd this (by simp)
    · rw [Game.resolveCollision_ghost env g hs hg]
      obtain ⟨m, e, hm⟩ := Game.useGhost_eq g
      rw [e]
      exact ⟨rfl, rfl, rfl, rfl, rfl, hm⟩
  · obtain ⟨ps, fs, n, e⟩ := Game.resolveCollision_shield env g
      ((ActivePowerUps.has_eq_true _ _).mpr hs)
    rw [e]
    exact ⟨rfl, rfl, rfl, rfl, rfl, by simp [ActivePowerUps.delete]⟩

/-- A collision that ends the session leaves the pipes, the score and `pipesMissed` as they
were. -/
theorem Game.resolveCollision_ended (env : Env) (g : Game)
    (h : (g.resolveCollision env).2 = true) :
    (g.resolveCollision env).1.pipes = g.pipes ∧
      (g.resolveCollision env).1.score = g.score ∧
      (g.resolveCollision env).1.pipesMissed = g.pipesMissed := by
  by_cases hs : g.activePowerUps PowerUpType.shield = none
  · by_cases hg : g.activePowerUps PowerUpType.ghost = none
    · obtain ⟨-, -, -, -, -, h6, h7, h8⟩ := Game.resolveCollision_fatal env g hs hg
      exact ⟨h6, h7, h8⟩
    · rw [Game.resolveCollision_ghost env g hs hg] at h
      exact absurd h (by simp)
  · obtain ⟨ps, fs, n, e⟩ := Game.resolveCollision_shield env g
      ((ActivePowerUps.has_eq_true _ _).mpr hs)
    rw [e] at h
    exact absurd h (by simp)

theorem Game.finalScore_congr (g g' : Game) (c : ℚ)
    (h : g'.activePowerUps PowerUpType.doublePoints = g.activePowerUps PowerUpType.doublePoints) :
    g'.finalScore c = g.finalScore c := by
  unfold Game.finalScore ActivePowerUps.has
  rw [h]


theorem Pipe.move_passed (p : Pipe) (sm : ℚ) : (p.move sm).passed = p.passed := rfl

/-- A round marks its pipe passed exactly when the score branch runs or the pipe was passed
already, and the score branch runs only for a pipe that was not passed. -/
theorem Pipe.round_passed (sm : ℚ) (bird : Bird) (returned : Bool) (p : Pipe) :
    (p.round sm bird returned).1.passed = (p.passed || (p.round sm bird returned).2) ∧
      ((p.round sm bird returned).2 = true → p.passed = false) := by
  unfold Pipe.round
  cases hr : returned <;> cases hs : (p.move sm).scores bird <;>
    simp only [Bool.not_true, Bool.not_false, Bool.false_and, Bool.true_and, if_true, if_false,
      Bool.false_eq_true, Pipe.move_passed, Bool.or_false, Bool.or_true, true_and,
      false_implies, and_true, imp_self]
  intro
  simp only [Pipe.scores, Pipe.move_passed, Bool.and_eq_true, Bool.not_eq_true'] at hs
  exact hs.1

/-- A pipe that is passed stays passed and never runs the score branch again. -/
theorem Pipe.rounds_of_passed (inputs : List (ℚ × Bird × Bool)) (p : Pipe)
    (h : p.passed = true) :
    (Pipe.rounds inputs p).1.passed = true ∧ (Pipe.rounds inputs p).2 = 0 := by
  induction inputs generalizing p with
  | nil => exact ⟨h, rfl⟩
  | cons a rest ih =>
    obtain ⟨sm, bird, returned⟩ := a
    obtain ⟨r1, r2⟩ := Pipe.round_passed sm bird returned p
    have r3 : (p.round sm bird returned).2 = false := by
      cases hc : (p.round sm bird returned).2
      · rfl
      · rw [r2 hc] at h; exact absurd h (by simp)
    obtain ⟨i1, i2⟩ := ih (p.round sm bird returned).1 (by rw [r1, h]; rfl)
    exact ⟨i1, by show (if (p.round sm bird returned).2 = true then 1 else 0) + _ = 0
                  rw [r3, i2]; rfl⟩

/-- A pipe that starts not passed has run the score branch once if it is passed now, and
never if it is not. -/
theorem Pipe.rounds_of_unpassed (inputs : List (ℚ × Bird × Bool)) (p : Pipe)
    (h : p.passed = false) :
    (Pipe.rounds inputs p).2 = if (Pipe.rounds inputs p).1.passed = true then 1 else 0 := by
  induction inputs generalizing p with
  | nil => show 0 = _; rw [show (Pipe.rounds [] p).1.passed = p.passed from rfl, h]; rfl
  | cons a rest ih =>
    obtain ⟨sm, bird, returned⟩ := a
    obtain ⟨r1, -⟩ := Pipe.round_passed sm bird returned p
    show (if (p.round sm bird returned).2 = true then 1 else 0) +
        (Pipe.rounds rest (p.round sm bird returned).1).2 =
      if (Pipe.rounds rest (p.round sm bird returned).1).1.passed = true then 1 else 0
    cases hc : (p.round sm bird returned).2
    · rw [ih _ (by rw [r1, h, hc]; rfl)]
      simp
    · obtain ⟨i1, i2⟩ := Pipe.rounds_of_passed rest (p.round sm bird returned).1
        (by rw [r1, h, hc]; rfl)
      rw [i1, i2]
      rfl

/-- One round of the pipe loop acts on its own pipe as `Pipe.round`, removes it only when it
is off screen, and adds to `pipesMissed`, the score and the streak exactly when the score
branch runs for it. -/
theorem Game.pipeIter_round (env : Env) (sm : ℚ) (i : Nat) (g : Game) (p : Pipe)
    (h : g.pipes[i]? = some p) :
    (g.pipeIter env sm i).1.pipes =
        (if (p.move sm).isOffScreen && !(g.pipeIter env sm i).2 then
          (g.pipes.set i (p.round sm g.bird (g.pipeIter env sm i).2).1).eraseIdx i
        else g.pipes.set i (p.round sm g.bird (g.pipeIter env sm i).2).1) ∧
      (g.pipeIter env sm i).1.pipesMissed =
        g.pipesMissed + (if (p.round sm g.bird (g.pipeIter env sm i).2).2 then 1 else 0) ∧
      (g.pipeIter env sm i).1.score =
        g.score + (if (p.round sm g.bird (g.pipeIter env sm i).2).2 then
          g.finalScore (comboFor (g.consecutiveScores + 1)) else 0) ∧
      ((g.pipeIter env sm i).2 = false →
        (g.pipeIter env sm i).1.consecutiveScores =
          g.consecutiveScores + (if (p.round sm g.bird (g.pipeIter env sm i).2).2 then 1 else 0)) := by
  have hlt : i < g.pipes.length := by
    by_contra hc
    rw [List.getElem?_eq_none (not_lt.mp hc)] at h
    exact absurd h (by simp)
  have hm : (g.pipes.set i (p.move sm))[i]? = some (p.move sm) := by
    simp [List.getElem?_set, hlt]
  have key : ∀ g' : Game, g'.pipes = g.pipes.set i (p.move sm) → g'.bird = g.bird →
      g'.score = g.score → g'.pipesMissed = g.pipesMissed →
      g'.consecutiveScores = g.consecutiveScores →
      g'.activePowerUps PowerUpType.doublePoints = g.activePowerUps PowerUpType.doublePoints →
      (g'.scoreAndRemove env i (p.move sm)).pipes =
        (if (p.move sm).isOffScreen && !false then
          (g.pipes.set i (p.round sm g.bird false).1).eraseIdx i
        else g.pipes.set i (p.round sm g.bird false).1) ∧
      (g'.scoreAndRemove env i (p.move sm)).pipesMissed =
        g.pipesMissed + (if (p.round sm g.bird false).2 then 1 else 0) ∧
      (g'.scoreAndRemove env i (p.move sm)).score =
        g.score + (if (p.round sm g.bird false).2 then
          g.finalScore (comboFor (g.consecutiveScores + 1)) else 0) ∧
      (false = false →
        (g'.scoreAndRemove env i (p.move sm)).consecutiveScores =
          g.consecutiveScores + (if (p.round sm g.bird false).2 then 1 else 0)) := by
    intro g' e1 e2 e3 e4 e5 e6
    obtain ⟨s1, s2, s3, s4⟩ := Game.scoreAndRemove_spec env i (p.move sm) g'
      (by rw [e1]; exact hm)
    rw [s1, s2, s3, s4, e1, e2, e3, e4, e5, Game.finalScore_congr g g' _ e6, List.set_set]
    unfold Pipe.round
    cases hs : (p.move sm).scores g.bird <;> cases ho : (p.move sm).isOffScreen <;>
      simp
  cases hc : (p.move sm).collidesWith g.bird with
  | false =>
    rw [Game.pipeIter_miss env sm i g p h hc]
    exact key _ rfl rfl rfl rfl rfl rfl
  | true =>
    rw [Game.pipeIter_hit env sm i g p h hc]
    cases hb : (Game.resolveCollision env { g with pipes := g.pipes.set i (p.move sm) }).2 with
    | false =>
      obtain ⟨f1, f2, f3, f4, f5, f6⟩ := Game.resolveCollision_survived env _ hb
      have e : Game.resolveCollision env { g with pipes := g.pipes.set i (p.move sm) } =
          ((Game.resolveCollision env { g with pipes := g.pipes.set i (p.move sm) }).1,
            false) := by
        rw [← hb]
      rw [e]
      exact key _ f1 f2 f3 f4 f5 f6
    | true =>
      obtain ⟨f1, f2, f3⟩ := Game.resolveCollision_ended env _ hb
      have e : Game.resolveCollision env { g with pipes := g.pipes.set i (p.move sm) } =
          ((Game.resolveCollision env { g with pipes := g.pipes.set i (p.move sm) }).1,
            true) := by
        rw [← hb]
      rw [e]
      simp only [Pipe.round, Bool.not_true, Bool.and_false, Bool.false_and,
        Bool.false_eq_true, if_false, add_zero]
      exact ⟨f1, f3, f2, fun hc => absurd hc (by simp)⟩


theorem pipes_get_mid (A B : List Pipe) (p : Pipe) : (A ++ p :: B)[A.length]? = some p := by
  induction A with
  | nil => simp
  | cons a A ih => simpa using ih

theorem pipes_set_mid (A B : List Pipe) (p q : Pipe) :
    (A ++ p :: B).set A.length q = A ++ q :: B := by
  induction A with
  | nil => rfl
  | cons a A ih => simp

theorem pipes_erase_mid (A B : List Pipe) (q : Pipe) :
    (A ++ q :: B).eraseIdx A.length = A ++ B := by
  induction A with
  | nil => rfl
  | cons a A ih => simpa using ih

theorem Game.pipeIter_bird (env : Env) (sm : ℚ) (i : Nat) (g : Game)
    (h : (g.pipeIter env sm i).2 = false) : (g.pipeIter env sm i).1.bird = g.bird := by
  cases hp : g.pipes[i]? with
  | none => rw [Game.pipeIter_none env sm i g hp]
  | some p =>
    cases hc : (p.move sm).collidesWith g.bird with
    | false =>
      rw [Game.pipeIter_miss env sm i g p hp hc]
      exact (Game.scoreAndRemove_frame env i _ _).2.1
    | true =>
      rw [Game.pipeIter_hit env sm i g p hp hc] at h ⊢
      cases hb : (Game.resolveCollision env { g with pipes := g.pipes.set i (p.move sm) }).2 with
      | false =>
        have e : Game.resolveCollision env { g with pipes := g.pipes.set i (p.move sm) } =
            ((Game.resolveCollision env { g with pipes := g.pipes.set i (p.move sm) }).1,
              false) := by
          rw [← hb]
        rw [e]
        simp only
        rw [(Game.scoreAndRemove_frame env i _ _).2.1]
        exact (Game.resolveCollision_survived env _ hb).2.1
      | true =>
        have e : Game.resolveCollision env { g with pipes := g.pipes.set i (p.move sm) } =
            ((Game.resolveCollision env { g with pipes := g.pipes.set i (p.move sm) }).1,
              true) := by
          rw [← hb]
        rw [e] at h
        exact absurd h (by simp)

/-- A pipe loop that runs to its end puts every pipe it visits through exactly one round, in
place, drops the ones that are off screen, and counts in `pipesMissed` the rounds whose score
branch ran. -/
theorem Game.pipeLoop_rounds (env : Env) (sm : ℚ) (n : Nat) :
    ∀ (A B : List Pipe) (g : Game), A.length = n → g.pipes = A ++ B →
      (g.pipeLoop env sm n).2 = false →
      (g.pipeLoop env sm n).1.pipes = A.filterMap (Pipe.survive sm g.bird) ++ B ∧
        (g.pipeLoop env sm n).1.pipesMissed =
          g.pipesMissed + (A.countP fun p => (p.round sm g.bird false).2) ∧
        (g.pipeLoop env sm n).1.bird = g.bird := by
  induction n with
  | zero =>
    intro A B g hA hg _
    have : A = [] := List.eq_nil_of_length_eq_zero hA
    subst this
    exact ⟨by simpa using hg, by simp [Game.pipeLoop], rfl⟩
  | succ n ih =>
    intro A B g hA hg hr
    rcases List.eq_nil_or_concat A with hnil | ⟨L, p, hL⟩
    · rw [hnil] at hA; exact absurd hA (by simp)
    · subst hL
      have hLn : L.length = n := by simpa using hA
      subst hLn
      have hpipes : g.pipes = L ++ p :: B := by rw [hg]; simp
      have hp : g.pipes[L.length]? = some p := by rw [hpipes]; exact pipes_get_mid L B p
      unfold Game.pipeLoop at hr ⊢
      cases hb : (g.pipeIter env sm L.length).2 with
      | true =>
        have e : g.pipeIter env sm L.length = ((g.pipeIter env sm L.length).1, true) := by
          rw [← hb]
        rw [e] at hr
        exact absurd hr (by simp)
      | false =>
        have e : g.pipeIter env sm L.length = ((g.pipeIter env sm L.length).1, false) := by
          rw [← hb]
        rw [e] at hr ⊢
        simp only at hr ⊢
        obtain ⟨r1, r2, -, -⟩ := Game.pipeIter_round env sm L.length g p hp
        have rb := Game.pipeIter_bird env sm L.length g hb
        rw [hb] at r1 r2
        rw [hpipes, pipes_set_mid, pipes_erase_mid] at r1
        cases ho : (p.move sm).isOffScreen with
        | true =>
          rw [ho] at r1
          simp only [Bool.not_false, Bool.and_self, if_true] at r1
          obtain ⟨i1, i2, i3⟩ := ih L B _ rfl r1 hr
          rw [i1, i2, i3, rb, r2]
          refine ⟨?_, ?_, rfl⟩
          · simp [List.filterMap_append, Pipe.survive, ho]
          · simp [List.countP_append, List.countP_cons, add_assoc, add_comm]
        | false =>
          rw [ho] at r1
          simp only [Bool.false_and, Bool.false_eq_true, if_false] at r1
          obtain ⟨i1, i2, i3⟩ := ih L ((p.round sm g.bird false).1 :: B) _ rfl r1 hr
          rw [i1, i2, i3, rb, r2]
          refine ⟨?_, ?_, rfl⟩
          · simp [List.filterMap_append, Pipe.survive, ho]
          · simp [List.countP_append, List.countP_cons, add_assoc, add_comm]

/-- In a round that goes on, a pipe whose right edge is left of the bird is passed after it. -/
theorem Pipe.round_cleared (sm : ℚ) (bird : Bird) (p : Pipe)
    (h : (p.move sm).x + (p.move sm).width < bird.x) :
    (p.round sm bird false).1.passed = true := by
  unfold Pipe.round
  cases hp : p.passed
  · have hs : (p.move sm).scores bird = true := by
      simp [Pipe.scores, Pipe.move_passed, hp, h]
    simp [hs]
  · have hs : (p.move sm).scores bird = false := by
      simp [Pipe.scores, Pipe.move_passed, hp]
    simp [hs, Pipe.move_passed, hp]

/-! ### What the steps of a tick keep -/

theorem Game.survives_refl (g : Game) : g.Survives g :=
  ⟨rfl, rfl, rfl, rfl, rfl, rfl, rfl, rfl, rfl, fun _ _ _ => rfl, fun h => ⟨h, le_refl _⟩⟩

theorem Game.survives_trans {a b c : Game} (h1 : a.Survives b) (h2 : b.Survives c) :
    a.Survives c := by
  obtain ⟨a1, a2, a3, a4, a5, a6, a7, a8, a9, a10, a11⟩ := h1
  obtain ⟨b1, b2, b3, b4, b5, b6, b7, b8, b9, b10, b11⟩ := h2
  refine ⟨b1.trans a1, b2.trans a2, b3.trans a3, b4.trans a4, b5.trans a5, b6.trans a6,
    b7.trans a7, b8.trans a8, b9.trans a9, fun k h h' => (b10 k h h').trans (a10 k h h'), ?_⟩
  intro h
  obtain ⟨i1, i2⟩ := a11 h
  obtain ⟨j1, j2⟩ := b11 i1
  exact ⟨j1, le_trans i2 j2⟩

theorem Game.Survives.ends {a b c : Game} (h1 : a.Survives b) (h2 : b.EndsFrom c) :
    a.EndsFrom c := by
  obtain ⟨a1, a2, a3, a4, a5, a6, a7, a8, a9, a10, a11⟩ := h1
  obtain ⟨b1, b2, b3, b4, b5, b6, b7, b8, b9⟩ := h2
  refine ⟨b1, b2, b3.trans a1, by rw [b4, a2, a1], by rw [b5, a3], b6.trans a9,
    fun k h h' => (b7 k h h').trans (a10 k h h'), ?_, b9.trans a8⟩
  intro h
  obtain ⟨i1, i2⟩ := a11 h
  obtain ⟨j1, j2⟩ := b8 i1
  exact ⟨j1, le_trans i2 j2⟩

theorem Game.FxOnly.survives {g g' : Game} (h : g.FxOnly g') : g.Survives g' := by
  obtain ⟨ps, fs, n, rfl⟩ := h
  exact ⟨rfl, rfl, rfl, rfl, rfl, rfl, rfl, rfl, rfl, fun _ _ _ => rfl, fun h => ⟨h, le_refl _⟩⟩

theorem comboFor_bounds (cs : Int) (h : 0 ≤ cs) : 1 ≤ comboFor cs ∧ comboFor cs ≤ 3 := by
  unfold comboFor
  have h' : (0 : ℚ) ≤ cs := by exact_mod_cast h
  exact ⟨le_min (by linarith) (by norm_num), min_le_right _ _⟩

theorem Game.finalScore_bounds (g : Game) (c : ℚ) (h1 : 1 ≤ c) (h3 : c ≤ 3) :
    1 ≤ g.finalScore c ∧ g.finalScore c ≤ 6 := by
  unfold Game.finalScore
  split
  · exact ⟨Int.le_floor.mpr (by push_cast; linarith),
      Int.lt_add_one_iff.mp (Int.floor_lt.mpr (by push_cast; linarith))⟩
  · exact ⟨Int.le_floor.mpr (by push_cast; linarith),
      Int.lt_add_one_iff.mp (Int.floor_lt.mpr (by push_cast; linarith))⟩

theorem Game.survives_scoreAndRemove (env : Env) (i : Nat) (p : Pipe) (g : Game) :
    g.Survives (g.scoreAndRemove env i p) := by
  obtain ⟨ps, fs, n, bc, e⟩ := Game.scorePipe_eq env i g
  have inv : g.ComboInv →
      Game.ComboInv
          { (g.awardPass i).withFx ps fs n with
            sessionStats := { (g.awardPass i).sessionStats with bestCombo := bc } } ∧
        g.score ≤ g.score + g.finalScore (comboFor (g.consecutiveScores + 1)) := by
    rintro ⟨-, c2, c3⟩
    have hb := comboFor_bounds (g.consecutiveScores + 1) (by omega)
    have hf := Game.finalScore_bounds g _ hb.1 hb.2
    refine ⟨⟨rfl, ?_, ?_⟩, by omega⟩
    · show 0 ≤ g.consecutiveScores + 1
      omega
    · show 0 ≤ g.score + g.finalScore (comboFor (g.consecutiveScores + 1))
      omega
  unfold Game.scoreAndRemove
  simp only [e]
  split <;> split
  · exact ⟨rfl, rfl, rfl, rfl, rfl, rfl, rfl, rfl, rfl, fun _ _ _ => rfl,
      fun h => ⟨⟨(inv h).1.1, (inv h).1.2⟩, (inv h).2⟩⟩
  · exact ⟨rfl, rfl, rfl, rfl, rfl, rfl, rfl, rfl, rfl, fun _ _ _ => rfl,
      fun h => ⟨h, le_refl _⟩⟩
  · exact ⟨rfl, rfl, rfl, rfl, rfl, rfl, rfl, rfl, rfl, fun _ _ _ => rfl, inv⟩
  · exact Game.survives_refl g


theorem Game.endsFrom_endGame (env : Env) (g : Game) : g.EndsFrom (g.endGame env) := by
  obtain ⟨ps, fs, n, e⟩ := Game.endGame_eq env g
  rw [e]
  exact ⟨rfl, rfl, rfl, rfl, rfl, rfl, fun _ _ _ => rfl, fun h => ⟨h, le_refl _⟩, rfl⟩

theorem Game.survives_resolveCollision (env : Env) (g : Game)
    (h : (g.resolveCollision env).2 = false) : g.Survives (g.resolveCollision env).1 := by
  by_cases hs : g.activePowerUps PowerUpType.shield = none
  · by_cases hg : g.activePowerUps PowerUpType.ghost = none
    · have := (Game.resolveCollision_fatal env g hs hg).1
      rw [h] at this
      exact absurd this (by simp)
    · rw [Game.resolveCollision_ghost env g hs hg]
      unfold Game.useGhost
      cases hgh : g.activePowerUps PowerUpType.ghost with
      | none => exact Game.survives_refl g
      | some ghost =>
        simp only
        split
        · exact ⟨rfl, rfl, rfl, rfl, rfl, rfl, rfl, rfl, rfl,
            fun k _ h' => by simp [ActivePowerUps.delete, h'], fun h => ⟨h, le_refl _⟩⟩
        · exact ⟨rfl, rfl, rfl, rfl, rfl, rfl, rfl, rfl, rfl,
            fun k _ h' => by simp [ActivePowerUps.set, h'], fun h => ⟨h, le_refl _⟩⟩
  · obtain ⟨ps, fs, n, e⟩ := Game.resolveCollision_shield env g
      ((ActivePowerUps.has_eq_true _ _).mpr hs)
    rw [e]
    exact ⟨rfl, rfl, rfl, rfl, rfl, rfl, rfl, rfl, rfl,
      fun k h' _ => by simp [ActivePowerUps.delete, Game.withFx, h'], fun h => ⟨h, le_refl _⟩⟩

theorem comboFor_zero : comboFor 0 = 1 := by norm_num [comboFor]

theorem Game.endsFrom_resolveCollision (env : Env) (g : Game)
    (h : (g.resolveCollision env).2 = true) : g.EndsFrom (g.resolveCollision env).1 := by
  by_cases hs : g.activePowerUps PowerUpType.shield = none
  · by_cases hg : g.activePowerUps PowerUpType.ghost = none
    · have h1 := (ActivePowerUps.has_eq_false _ _).mpr hs
      have h2 := (ActivePowerUps.has_eq_false _ _).mpr hg
      obtain ⟨ps, fs, n, e⟩ := Game.fxOnly_createExplosionParticles env g.bird.x g.bird.y g
      unfold Game.resolveCollision
      simp only [h1, h2, Bool.not_false, Bool.and_self, if_true, e]
      have s1 : g.Survives
          { g.withFx ps fs n with
            screenShake := 10
            screenShakeIntensity := 5
            consecutiveScores := 0
            comboMultiplier := 1 } :=
        ⟨rfl, rfl, rfl, rfl, rfl, rfl, rfl, rfl, rfl, fun _ _ _ => rfl,
          fun h => ⟨⟨comboFor_zero.symm, le_refl _, h.2.2⟩, le_refl _⟩⟩
      exact Game.Survives.ends s1 (Game.endsFrom_endGame env _)
    · rw [Game.resolveCollision_ghost env g hs hg] at h
      exact absurd h (by simp)
  · obtain ⟨ps, fs, n, e⟩ := Game.resolveCollision_shield env g
      ((ActivePowerUps.has_eq_true _ _).mpr hs)
    rw [e] at h
    exact absurd h (by simp)

/-- One round of the pipe loop either goes on, keeping what `Survives` lists, or ends the
session. -/
theorem Game.pipeIter_summary (env : Env) (sm : ℚ) (i : Nat) (g : Game) :
    ((g.pipeIter env sm i).2 = false → g.Survives (g.pipeIter env sm i).1) ∧
      ((g.pipeIter env sm i).2 = true → g.EndsFrom (g.pipeIter env sm i).1) := by
  cases hp : g.pipes[i]? with
  | none =>
    rw [Game.pipeIter_none env sm i g hp]
    exact ⟨fun _ => Game.survives_refl g, fun h => absurd h (by simp)⟩
  | some p =>
    have s0 : g.Survives { g with pipes := g.pipes.set i (p.move sm) } :=
      ⟨rfl, rfl, rfl, rfl, rfl, rfl, rfl, rfl, rfl, fun _ _ _ => rfl, fun h => ⟨h, le_refl _⟩⟩
    cases hc : (p.move sm).collidesWith g.bird with
    | false =>
      rw [Game.pipeIter_miss env sm i g p hp hc]
      exact ⟨fun _ => Game.survives_trans s0 (Game.survives_scoreAndRemove env i _ _),
        fun h => absurd h (by simp)⟩
    | true =>
      rw [Game.pipeIter_hit env sm i g p hp hc]
      cases hb : (Game.resolveCollision env { g with pipes := g.pipes.set i (p.move sm) }).2 with
      | false =>
        have e : Game.resolveCollision env { g with pipes := g.pipes.set i (p.move sm) } =
            ((Game.resolveCollision env { g with pipes := g.pipes.set i (p.move sm) }).1,
              false) := by
          rw [← hb]
        rw [e]
        exact ⟨fun _ => Game.survives_trans s0
            (Game.survives_trans (Game.survives_resolveCollision env _ hb)
              (Game.survives_scoreAndRemove env i _ _)),
          fun h => absurd h (by simp)⟩
      | true =>
        have e : Game.resolveCollision env { g with pipes := g.pipes.set i (p.move sm) } =
            ((Game.resolveCollision env { g with pipes := g.pipes.set i (p.move sm) }).1,
              true) := by
          rw [← hb]
        rw [e]
        exact ⟨fun h => absurd h (by simp),
          fun _ => Game.Survives.ends s0 (Game.endsFrom_resolveCollision env _ hb)⟩

/-- The pipe loop either runs to its end, keeping what `Survives` lists, or ends the
session. -/
theorem Game.pipeLoop_summary (env : Env) (sm : ℚ) (n : Nat) (g : Game) :
    ((g.pipeLoop env sm n).2 = false → g.Survives (g.pipeLoop env sm n).1) ∧
      ((g.pipeLoop env sm n).2 = true → g.EndsFrom (g.pipeLoop env sm n).1) := by
  induction n generalizing g with
  | zero => exact ⟨fun _ => Game.survives_refl g, fun h => absurd h (by simp [Game.pipeLoop])⟩
  | succ n ih =>
    obtain ⟨s1, s2⟩ := Game.pipeIter_summary env sm n g
    unfold Game.pipeLoop
    cases hb : (g.pipeIter env sm n).2 with
    | true =>
      have e : g.pipeIter env sm n = ((g.pipeIter env sm n).1, true) := by rw [← hb]
      rw [e]
      exact ⟨fun h => absurd h (by simp), fun _ => s2 hb⟩
    | false =>
      have e : g.pipeIter env sm n = ((g.pipeIter env sm n).1, false) := by rw [← hb]
      rw [e]
      obtain ⟨i1, i2⟩ := ih (g.pipeIter env sm n).1
      exact ⟨fun h => Game.survives_trans (s1 hb) (i1 h),
        fun h => Game.Survives.ends (s1 hb) (i2 h)⟩


theorem tickPowerUps_congr (m m' : ActivePowerUps) (k : PowerUpType) (h : m' k = m k) :
    tickPowerUps m' k = tickPowerUps m k := by
  unfold tickPowerUps
  rw [h]

theorem Game.spawnStep_advance (env : Env) (g : Game) :
    (g.advance.spawnStep env).coins = g.coins ∧
      (g.advance.spawnStep env).sessionStats = g.sessionStats ∧
      (g.advance.spawnStep env).powerUps = g.powerUps ∧
      (g.advance.spawnStep env).activePowerUps = g.activePowerUps ∧
      (g.advance.spawnStep env).score = g.score ∧
      (g.advance.spawnStep env).consecutiveScores = g.consecutiveScores ∧
      (g.advance.spawnStep env).comboMultiplier = g.comboMultiplier ∧
      (g.advance.spawnStep env).gameRunning = g.gameRunning ∧
      (g.advance.spawnStep env).gamePaused = g.gamePaused ∧
      (g.advance.spawnStep env).gameState = g.gameState ∧
      (g.advance.spawnStep env).bird = g.bird.update ∧
      (g.advance.spawnStep env).gameSpeedMultiplier = g.gameSpeedMultiplier := by
  by_cases h : g.advance.frameCount %
      (if g.advance.difficultySettings.spawnRate = 0 then 160
        else g.advance.difficultySettings.spawnRate) = 0
  · simp only [Game.spawnStep, h, if_true]
    exact ⟨rfl, rfl, rfl, rfl, rfl, rfl, rfl, rfl, rfl, rfl, rfl, rfl⟩
  · simp only [Game.spawnStep, h, if_false]
    exact ⟨rfl, rfl, rfl, rfl, rfl, rfl, rfl, rfl, rfl, rfl, rfl, rfl⟩

/-- A tick of a running, unpaused game either goes on (`TickOn`) or ends the session
(`EndsFrom`), according to `gameRunning` afterwards. -/
theorem Game.update_summary (env : Env) (g : Game) (hr : g.gameRunning = true)
    (hp : g.gamePaused = false) :
    ((g.update env).gameRunning = true → g.TickOn (g.update env)) ∧
      ((g.update env).gameRunning = false → g.EndsFrom (g.update env)) := by
  rw [Game.update_running env g hr hp]
  split
  · have he : g.EndsFrom (g.advance.endGame env) := by
      obtain ⟨ps, fs, n, e⟩ := Game.endGame_eq env g.advance
      rw [e]
      exact ⟨rfl, rfl, rfl, rfl, rfl, rfl, fun _ _ _ => rfl, fun h => ⟨h, le_refl _⟩, rfl⟩
    exact ⟨fun h => absurd (he.1 ▸ h) (by simp), fun _ => he⟩
  · obtain ⟨e1, e2, e3, e4, e5, e6, e7, e8, e9, e10, e11, e12⟩ := Game.spawnStep_advance env g
    obtain ⟨l1, l2⟩ := Game.pipeLoop_summary env (g.advance.spawnStep env).speedMultiplier
      (g.advance.spawnStep env).pipes.length (g.advance.spawnStep env)
    have inv : g.ComboInv → (g.advance.spawnStep env).ComboInv := by
      rintro ⟨c1, c2, c3⟩
      exact ⟨by rw [e7, e6]; exact c1, by rw [e6]; exact c2, by rw [e5]; exact c3⟩
    cases hb : ((g.advance.spawnStep env).pipeLoop env (g.advance.spawnStep env).speedMultiplier
      (g.advance.spawnStep env).pipes.length).2 with
    | true =>
      have e : (g.advance.spawnStep env).pipeLoop env (g.advance.spawnStep env).speedMultiplier
          (g.advance.spawnStep env).pipes.length =
          (((g.advance.spawnStep env).pipeLoop env (g.advance.spawnStep env).speedMultiplier
            (g.advance.spawnStep env).pipes.length).1, true) := by
        rw [← hb]
      obtain ⟨b1, b2, b3, b4, b5, b6, b7, b8, b9⟩ := l2 hb
      rw [e]
      simp only
      have he : g.EndsFrom ((g.advance.spawnStep env).pipeLoop env
          (g.advance.spawnStep env).speedMultiplier (g.advance.spawnStep env).pipes.length).1 :=
        ⟨b1, b2, b3.trans e1, by rw [b4, e2, e1], by rw [b5, e2], b6.trans e3,
          fun k h h' => by rw [b7 k h h', e4],
          fun h => ⟨(b8 (inv h)).1, by rw [← e5]; exact (b8 (inv h)).2⟩, b9.trans e12⟩
      exact ⟨fun h => absurd (b1 ▸ h) (by simp), fun _ => he⟩
    | false =>
      have e : (g.advance.spawnStep env).pipeLoop env (g.advance.spawnStep env).speedMultiplier
          (g.advance.spawnStep env).pipes.length =
          (((g.advance.spawnStep env).pipeLoop env (g.advance.spawnStep env).speedMultiplier
            (g.advance.spawnStep env).pipes.length).1, false) := by
        rw [← hb]
      obtain ⟨a1, a2, a3, a4, a5, a6, a7, a8, a9, a10, a11⟩ := l1 hb
      rw [e]
      simp only
      obtain ⟨pus, k, ef⟩ := Game.finishTick_eq env
        ((g.advance.spawnStep env).pipeLoop env (g.advance.spawnStep env).speedMultiplier
          (g.advance.spawnStep env).pipes.length).1
      rw [ef]
      have ht : g.TickOn
          { ((g.advance.spawnStep env).pipeLoop env (g.advance.spawnStep env).speedMultiplier
              (g.advance.spawnStep env).pipes.length).1 with
            activePowerUps := tickPowerUps
              ((g.advance.spawnStep env).pipeLoop env (g.advance.spawnStep env).speedMultiplier
                (g.advance.spawnStep env).pipes.length).1.activePowerUps
            particles := updateParticles
              ((g.advance.spawnStep env).pipeLoop env (g.advance.spawnStep env).speedMultiplier
                (g.advance.spawnStep env).pipes.length).1.particles
            powerUps := pus
            randomCalls := k } :=
        ⟨by show _ = true; rw [a4, e8, hr], a5.trans e9, a6.trans e10, a1.trans e1,
          by show _ = g.sessionStats.totalCoins; rw [a2, e2],
          by show _ = g.sessionStats.totalScore; rw [a3, e2], a7.trans e11, a8.trans e12,
          fun k h h' => tickPowerUps_congr _ _ k (by rw [a10 k h h', e4]),
          fun h => ⟨(a11 (inv h)).1, by rw [← e5]; exact (a11 (inv h)).2⟩⟩
      exact ⟨fun _ => ht, fun h => absurd (ht.1 ▸ h) (by simp)⟩


/-! ### Activation and the drawing pass -/

/-- The state after `activatePowerUp(type)`: the modifiers of `ActivePowerUps.activate` and
other visual effects. -/
theorem Game.activatePowerUp_eq (env : Env) (type : PowerUpType) (g : Game) :
    ∃ ps fs n, g.activatePowerUp env type =
      { g.withFx ps fs n with activePowerUps := g.activePowerUps.activate type } := by
  cases type
  case shield =>
    obtain ⟨ps, fs, n, e⟩ := Game.fxOnly_createExplosionParticles env g.bird.x g.bird.y
      { g with
        activePowerUps := g.activePowerUps.set PowerUpType.shield
          { duration := (powerUpTypes PowerUpType.shield).duration, uses := none } }
    refine ⟨ps, fs, n, ?_⟩
    unfold Game.activatePowerUp
    simp only
    rw [e]
    rfl
  all_goals exact ⟨g.particles, g.scoreFloaters, g.randomCalls, rfl⟩

theorem ActivePowerUps.activate_coin_key (m : ActivePowerUps) (type : PowerUpType) :
    (m.activate type) PowerUpType.coin = m PowerUpType.coin := by
  unfold ActivePowerUps.activate
  split
  · rfl
  · rename_i h
    simp only [ActivePowerUps.set]
    rw [if_neg (fun hc => h hc.symm)]

/-- The state after the pick-up of the power-up `pu` at index `i`. -/
theorem Game.pickUp_eq (env : Env) (i : Nat) (pu : PowerUp) (g : Game) :
    ∃ ps fs n, g.pickUp env i pu =
      { g.withFx ps fs n with
        activePowerUps := g.activePowerUps.activate pu.type
        coins := g.coins + (if pu.type = PowerUpType.coin then 10 else 0)
        sessionStats := { g.sessionStats with
          totalCoins :=
            g.sessionStats.totalCoins + (if pu.type = PowerUpType.coin then 10 else 0) }
        powerUps := g.powerUps.eraseIdx i } := by
  obtain ⟨ps, fs, n, e⟩ := Game.activatePowerUp_eq env pu.type g
  have h1 : ∀ g1 : Game, g1.FxOnly
      (Game.createScoreFloater env pu.x pu.y
        (if pu.type = PowerUpType.coin then "+10 🪙" else "+" ++ pu.type.name)
        (Game.createPowerUpParticles env pu.x pu.y g1)) := fun g1 =>
    Game.FxOnly.trans (Game.fxOnly_createPowerUpParticles env pu.x pu.y g1)
      (Game.fxOnly_createScoreFloater env _ _ _ _)
  unfold Game.pickUp
  simp only [e]
  by_cases hc : pu.type = PowerUpType.coin
  · simp only [Game.coinReward, hc, if_true]
    obtain ⟨ps', fs', n', e'⟩ := h1
      { Game.withFx g ps fs n with
        activePowerUps := g.activePowerUps.activate PowerUpType.coin
        coins := g.coins + 10
        sessionStats := { g.sessionStats with totalCoins := g.sessionStats.totalCoins + 10 } }
    simp only [hc, if_true, Game.withFx] at e' ⊢
    rw [e']
    exact ⟨ps', fs', n', rfl⟩
  · simp only [Game.coinReward, hc, if_false]
    obtain ⟨ps', fs', n', e'⟩ := h1
      { Game.withFx g ps fs n with activePowerUps := g.activePowerUps.activate pu.type }
    simp only [hc, if_false, Game.withFx] at e' ⊢
    rw [e']
    refine ⟨ps', fs', n', ?_⟩
    simp only [add_zero]


theorem Game.drawKeeps_refl (g : Game) : g.DrawKeeps g :=
  ⟨rfl, rfl, rfl, rfl, rfl, rfl, rfl, rfl, rfl, fun h => h, by simp, rfl⟩

theorem Game.drawKeeps_trans {a b c : Game} (h1 : a.DrawKeeps b) (h2 : b.DrawKeeps c) :
    a.DrawKeeps c := by
  obtain ⟨a1, a2, a3, a4, a5, a6, a7, a8, a9, a10, a11, a12⟩ := h1
  obtain ⟨b1, b2, b3, b4, b5, b6, b7, b8, b9, b10, b11, b12⟩ := h2
  exact ⟨b1.trans a1, b2.trans a2, b3.trans a3, b4.trans a4, b5.trans a5, b6.trans a6,
    b7.trans a7, b8.trans a8, b9.trans a9, fun h => b10 (a10 h), by omega, b12.trans a12⟩

theorem powerUps_get_mid (A B : List PowerUp) (p : PowerUp) :
    (A ++ p :: B)[A.length]? = some p := by
  induction A with
  | nil => simp
  | cons a A ih => simpa using ih

theorem powerUps_set_mid (A B : List PowerUp) (p q : PowerUp) :
    (A ++ p :: B).set A.length q = A ++ q :: B := by
  induction A with
  | nil => rfl
  | cons a A ih => simp

theorem powerUps_erase_mid (A B : List PowerUp) (q : PowerUp) :
    (A ++ q :: B).eraseIdx A.length = A ++ B := by
  induction A with
  | nil => rfl
  | cons a A ih => simpa using ih

/-- One round of the power-up loop of `draw()` on the power-up `pu` at the end of the part
`A` still to visit: the power-up is moved; when it then touches the bird it is removed and
its effect applied (10 coins for a coin, the activation of its modifier otherwise); when it
is off screen it is removed; otherwise it stays, moved. -/
theorem Game.drawPowerUpIter_spec (env : Env) (A B : List PowerUp) (pu : PowerUp) (g : Game)
    (h : g.powerUps = A ++ pu :: B) :
    (g.drawPowerUpIter env A.length).powerUps =
        A ++ (match pu.survive g.bird with
          | some q => q :: B
          | none => B) ∧
      (g.drawPowerUpIter env A.length).coins =
        g.coins + (if pu.coinPicked g.bird then 10 else 0) ∧
      (g.drawPowerUpIter env A.length).sessionStats.totalCoins =
        g.sessionStats.totalCoins + (if pu.coinPicked g.bird then 10 else 0) ∧
      (g.drawPowerUpIter env A.length).activePowerUps =
        (if pu.move.touches g.bird then g.activePowerUps.activate pu.type
          else g.activePowerUps) ∧
      g.DrawKeeps (g.drawPowerUpIter env A.length) := by
  have hp : g.powerUps[A.length]? = some pu := by rw [h]; exact powerUps_get_mid A B pu
  have hset : g.powerUps.set A.length pu.move = A ++ pu.move :: B := by
    rw [h]; exact powerUps_set_mid A B pu pu.move
  unfold Game.drawPowerUpIter
  simp only [hp, hset]
  have hty : pu.move.type = pu.type := rfl
  cases ht : pu.move.touches g.bird with
  | true =>
    simp only [if_true]
    obtain ⟨ps, fs, n, e⟩ := Game.pickUp_eq env A.length pu.move
      { g with powerUps := A ++ pu.move :: B }
    rw [e]
    refine ⟨?_, ?_, ?_, ?_, ⟨rfl, rfl, rfl, rfl, rfl, rfl, rfl, rfl, rfl, ?_, ?_, rfl⟩⟩
    · simp [PowerUp.survive, ht, Game.withFx, powerUps_erase_mid]
    · simp [PowerUp.coinPicked, ht, hty, Game.withFx]
    · simp [PowerUp.coinPicked, ht, hty, Game.withFx]
    · simp [hty, Game.withFx]
    · intro hc
      show (g.activePowerUps.activate pu.move.type) PowerUpType.coin = none
      rw [ActivePowerUps.activate_coin_key]
      exact hc
    · show g.sessionStats.totalCoins + _ - g.sessionStats.totalCoins = g.coins + _ - g.coins
      omega
  | false =>
    simp only [Bool.false_eq_true, if_false]
    cases ho : pu.move.isOffScreen with
    | true =>
      simp only [if_true, powerUps_erase_mid]
      refine ⟨?_, ?_, ?_, ?_,
        ⟨rfl, rfl, rfl, rfl, rfl, rfl, rfl, rfl, rfl, fun hc => hc, ?_, rfl⟩⟩
      · simp [PowerUp.survive, ht, ho]
      · simp [PowerUp.coinPicked, ht]
      · simp [PowerUp.coinPicked, ht]
      · trivial
      · simp
    | false =>
      simp only [Bool.false_eq_true, if_false]
      refine ⟨?_, ?_, ?_, ?_,
        ⟨rfl, rfl, rfl, rfl, rfl, rfl, rfl, rfl, rfl, fun hc => hc, ?_, rfl⟩⟩
      · simp [PowerUp.survive, ht, ho]
      · simp [PowerUp.coinPicked, ht]
      · simp [PowerUp.coinPicked, ht]
      · trivial
      · simp


/-- A pass of the power-up loop of `draw()` over the part `A` of the live power-ups: every
power-up of `A` is moved once, in place; the ones that touch the bird or are off screen are
removed; each coin picked up adds 10 to the coins and to the cumulative coins. -/
theorem Game.drawPowerUpLoop_pass (env : Env) (n : Nat) :
    ∀ (A B : List PowerUp) (g : Game), A.length = n → g.powerUps = A ++ B →
      (Game.drawPowerUpLoop env n g).powerUps = A.filterMap (PowerUp.survive g.bird) ++ B ∧
        (Game.drawPowerUpLoop env n g).coins =
          g.coins + 10 * (A.countP (PowerUp.coinPicked g.bird)) ∧
        (Game.drawPowerUpLoop env n g).sessionStats.totalCoins =
          g.sessionStats.totalCoins + 10 * (A.countP (PowerUp.coinPicked g.bird)) ∧
        g.DrawKeeps (Game.drawPowerUpLoop env n g) := by
  induction n with
  | zero =>
    intro A B g hA hg
    have : A = [] := List.eq_nil_of_length_eq_zero hA
    subst this
    exact ⟨by simpa using hg, by simp [Game.drawPowerUpLoop], by simp [Game.drawPowerUpLoop],
      Game.drawKeeps_refl g⟩
  | succ n ih =>
    intro A B g hA hg
    rcases List.eq_nil_or_concat A with hnil | ⟨L, p, hL⟩
    · rw [hnil] at hA; exact absurd hA (by simp)
    · subst hL
      have hLn : L.length = n := by simpa using hA
      subst hLn
      have hpu : g.powerUps = L ++ p :: B := by rw [hg]; simp
      obtain ⟨s1, s2, s3, -, s5⟩ := Game.drawPowerUpIter_spec env L B p g hpu
      have hb : (g.drawPowerUpIter env L.length).bird = g.bird := s5.2.2.2.2.2.2.1
      show (Game.drawPowerUpLoop env L.length (g.drawPowerUpIter env L.length)).powerUps = _ ∧
        (Game.drawPowerUpLoop env L.length (g.drawPowerUpIter env L.length)).coins = _ ∧
        (Game.drawPowerUpLoop env L.length
          (g.drawPowerUpIter env L.length)).sessionStats.totalCoins = _ ∧
        g.DrawKeeps (Game.drawPowerUpLoop env L.length (g.drawPowerUpIter env L.length))
      obtain ⟨i1, i2, i3, i4⟩ := ih L _ (g.drawPowerUpIter env L.length) rfl s1
      rw [i1, i2, i3, hb, s2, s3]
      refine ⟨?_, ?_, ?_, Game.drawKeeps_trans s5 i4⟩
      · cases hs : p.survive g.bird <;> simp [List.filterMap_append, hs]
      · cases hc : p.coinPicked g.bird <;>
          simp [List.countP_append, List.countP_cons, hc] <;> ring
      · cases hc : p.coinPicked g.bird <;>
          simp [List.countP_append, List.countP_cons, hc] <;> ring


theorem Game.fxOnly_drawShake (env : Env) (g : Game) : g.FxOnly (g.drawShake env) := by
  unfold Game.drawShake
  split
  · exact ⟨_, _, _, rfl⟩
  · exact Game.FxOnly.refl g

theorem Game.FxOnly.drawKeeps {g g' : Game} (h : g.FxOnly g') : g.DrawKeeps g' := by
  obtain ⟨ps, fs, n, rfl⟩ := h
  exact ⟨rfl, rfl, rfl, rfl, rfl, rfl, rfl, rfl, rfl, fun h => h, by simp [Game.withFx],
    rfl⟩

/-- `draw()`: in the menu phase only visual effects change; in any other phase the power-up
loop makes one pass over the live power-ups. -/
theorem Game.draw_pass (env : Env) (g : Game) :
    (g.gameState = GameState.menu → g.FxOnly (g.draw env)) ∧
      (g.gameState ≠ GameState.menu →
        (g.draw env).powerUps = g.powerUps.filterMap (PowerUp.survive g.bird) ∧
          (g.draw env).coins = g.coins + 10 * (g.powerUps.countP (PowerUp.coinPicked g.bird)) ∧
          (g.draw env).sessionStats.totalCoins =
            g.sessionStats.totalCoins + 10 * (g.powerUps.countP (PowerUp.coinPicked g.bird)) ∧
          g.DrawKeeps (g.draw env)) := by
  obtain ⟨ps, fs, n, e⟩ := Game.fxOnly_drawShake env g
  unfold Game.draw
  simp only [e]
  have hs : (g.withFx ps fs n).gameState = g.gameState := rfl
  constructor
  · intro hm
    rw [hs, if_pos hm]
    exact ⟨ps, fs, n, rfl⟩
  · intro hm
    rw [hs, if_neg hm]
    obtain ⟨h1, h2, h3, h4⟩ := Game.drawPowerUpLoop_pass env (g.withFx ps fs n).powerUps.length
      (g.withFx ps fs n).powerUps [] (g.withFx ps fs n) rfl (List.append_nil _).symm
    rw [List.append_nil] at h1
    exact ⟨h1, h2, h3, Game.drawKeeps_trans (Game.FxOnly.drawKeeps ⟨ps, fs, n, rfl⟩) h4⟩

theorem Game.drawKeeps_draw (env : Env) (g : Game) : g.DrawKeeps (g.draw env) := by
  by_cases hm : g.gameState = GameState.menu
  · exact Game.FxOnly.drawKeeps ((Game.draw_pass env g).1 hm)
  · exact ((Game.draw_pass env g).2 hm).2.2.2

/-! ### Invariants of a run -/

theorem tickPowerUps_none (m : ActivePowerUps) (k : PowerUpType) (h : m k = none) :
    tickPowerUps m k = none := by
  unfold tickPowerUps
  rw [h]

/-- No call of a session installs a `coin` modifier. -/
theorem Game.step_coin_key (c : Command) (g : Game)
    (h : g.activePowerUps PowerUpType.coin = none) :
    (g.step c).activePowerUps PowerUpType.coin = none := by
  cases c with
  | update env =>
    show (g.update env).activePowerUps PowerUpType.coin = none
    by_cases hr : g.gameRunning = true ∧ g.gamePaused = false
    · obtain ⟨s1, s2⟩ := Game.update_summary env g hr.1 hr.2
      cases hu : (g.update env).gameRunning with
      | true =>
        rw [(s1 hu).2.2.2.2.2.2.2.2.1 _ (by decide) (by decide)]
        exact tickPowerUps_none _ _ h
      | false =>
        rw [(s2 hu).2.2.2.2.2.2.1 _ (by decide) (by decide)]
        exact h
    · rw [Game.update_idle env g (by
        rcases Bool.eq_false_or_eq_true g.gameRunning with h1 | h1
        · rcases Bool.eq_false_or_eq_true g.gamePaused with h2 | h2
          · exact Or.inr h2
          · exact absurd ⟨h1, h2⟩ hr
        · exact Or.inl h1)]
      exact h
  | draw env => exact (Game.drawKeeps_draw env g).2.2.2.2.2.2.2.2.2.1 h
  | flap =>
    show g.handleInput.activePowerUps PowerUpType.coin = none
    unfold Game.handleInput
    split <;> exact h
  | pause =>
    show g.togglePause.activePowerUps PowerUpType.coin = none
    unfold Game.togglePause
    split
    · exact h
    · split <;> exact h
  | activate env type =>
    show (g.activatePowerUp env type).activePowerUps PowerUpType.coin = none
    obtain ⟨ps, fs, n, e⟩ := Game.activatePowerUp_eq env type g
    rw [e]
    show (g.activePowerUps.activate type) PowerUpType.coin = none
    rw [ActivePowerUps.activate_coin_key]
    exact h
  | menu => exact h


theorem Game.update_of_not_active (env : Env) (g : Game)
    (h : ¬ (g.gameRunning = true ∧ g.gamePaused = false)) : g.update env = g := by
  apply Game.update_idle
  cases h1 : g.gameRunning
  · exact Or.inl rfl
  · cases h2 : g.gamePaused
    · exact absurd ⟨h1, h2⟩ h
    · exact Or.inr rfl

theorem Game.run_coin_key (cmds : List Command) (g : Game)
    (h : g.activePowerUps PowerUpType.coin = none) :
    (Game.run cmds g).activePowerUps PowerUpType.coin = none := by
  induction cmds generalizing g with
  | nil => exact h
  | cons c cmds ih => exact ih (g.step c) (Game.step_coin_key c g h)

theorem Game.runSessions_coin_key (sessions : List (List Command)) (g : Game)
    (h : g.activePowerUps PowerUpType.coin = none) :
    (Game.runSessions sessions g).activePowerUps PowerUpType.coin = none := by
  induction sessions generalizing g with
  | nil => exact h
  | cons cmds sessions ih => exact ih _ (Game.run_coin_key cmds g.startGame rfl)

theorem Game.new_coin_key (storage : Storage) :
    (Game.new storage).activePowerUps PowerUpType.coin = none := by
  unfold Game.new Game.loadStats
  split <;> rfl

/-- C21: for a type other than `coin`, `activatePowerUp(type)` sets the entry of that type to
a fresh one with the table duration (shield 300, slowMotion 350, magnet 500, doublePoints 750,
ghost 150, speedBoost 400; the ghost entry also has 2 uses) and leaves every other entry as
it was; a second activation in a row leaves the modifiers as after the first (and the whole
state, except for the shield, whose activation also adds explosion particles);
`activatePowerUp('coin')` leaves the modifiers unchanged; and over any sequence of sessions
from the constructor the modifiers never hold a `coin` entry. -/
theorem activatePowerUp_spec (env : Env) (g : Game) (type : PowerUpType) (storage : Storage)
    (sessions : List (List Command)) :
    (type ≠ PowerUpType.coin →
      (g.activatePowerUp env type).activePowerUps type =
        some { duration := (powerUpTypes type).duration,
               uses := if type = PowerUpType.ghost then some 2 else none }) ∧
    ((powerUpTypes PowerUpType.shield).duration = 300 ∧
      (powerUpTypes PowerUpType.slowMotion).duration = 350 ∧
      (powerUpTypes PowerUpType.magnet).duration = 500 ∧
      (powerUpTypes PowerUpType.doublePoints).duration = 750 ∧
      (powerUpTypes PowerUpType.ghost).duration = 150 ∧
      (powerUpTypes PowerUpType.speedBoost).duration = 400) ∧
    (∀ k, k ≠ type → (g.activatePowerUp env type).activePowerUps k = g.activePowerUps k) ∧
    ((g.activatePowerUp env type).activatePowerUp env type).activePowerUps =
      (g.activatePowerUp env type).activePowerUps ∧
    (type ≠ PowerUpType.shield →
      (g.activatePowerUp env type).activatePowerUp env type = g.activatePowerUp env type) ∧
    (g.activatePowerUp env PowerUpType.coin).activePowerUps = g.activePowerUps ∧
    (Game.runSessions sessions (Game.new storage)).activePowerUps PowerUpType.coin = none := by
  obtain ⟨ps, fs, n, e⟩ := Game.activatePowerUp_eq env type g
  obtain ⟨ps', fs', n', e'⟩ := Game.activatePowerUp_eq env type (g.activatePowerUp env type)
  refine ⟨?_, ⟨rfl, rfl, rfl, rfl, rfl, rfl⟩, ?_, ?_, ?_, rfl,
    Game.runSessions_coin_key sessions _ (Game.new_coin_key storage)⟩
  · intro hc
    rw [e]
    show (g.activePowerUps.activate type) type = _
    simp [ActivePowerUps.activate, hc, ActivePowerUps.set, freshEntry]
  · intro k hk
    rw [e]
    show (g.activePowerUps.activate type) k = _
    unfold ActivePowerUps.activate
    split
    · rfl
    · simp [ActivePowerUps.set, hk]
  · rw [e', e]
    show ((g.activePowerUps.activate type).activate type) = g.activePowerUps.activate type
    unfold ActivePowerUps.activate
    split
    · rfl
    · funext k
      simp only [ActivePowerUps.set]
      split <;> rfl
  · intro hs
    cases type
    case shield => exact absurd rfl hs
    case coin => rfl
    all_goals
      simp only [Game.activatePowerUp]
      congr 1
      funext k
      simp only [ActivePowerUps.set]
      split <;> rfl

/-- Witness for C21: the magnet on the fresh game. -/
theorem activatePowerUp_spec_witness :
    (Game.fresh.activatePowerUp (Env.const (1 / 2)) PowerUpType.magnet).activePowerUps
        PowerUpType.magnet =
      some { duration := (powerUpTypes PowerUpType.magnet).duration,
             uses := if PowerUpType.magnet = PowerUpType.ghost then some 2 else none } ∧
      (Game.fresh.activatePowerUp (Env.const (1 / 2)) PowerUpType.magnet).activatePowerUp
          (Env.const (1 / 2)) PowerUpType.magnet =
        Game.fresh.activatePowerUp (Env.const (1 / 2)) PowerUpType.magnet :=
  ⟨(activatePowerUp_spec (Env.const (1 / 2)) Game.fresh PowerUpType.magnet Storage.empty []).1
      (by decide),
    (activatePowerUp_spec (Env.const (1 / 2)) Game.fresh PowerUpType.magnet Storage.empty
      []).2.2.2.2.1 (by decide)⟩


/-- Every call of a session keeps the combo invariant, and under it does not decrease the
score. -/
theorem Game.step_comboInv (c : Command) (g : Game) (h : g.ComboInv) :
    (g.step c).ComboInv ∧ g.score ≤ (g.step c).score := by
  cases c with
  | update env =>
    show (g.update env).ComboInv ∧ g.score ≤ (g.update env).score
    by_cases hr : g.gameRunning = true ∧ g.gamePaused = false
    · obtain ⟨s1, s2⟩ := Game.update_summary env g hr.1 hr.2
      cases hu : (g.update env).gameRunning with
      | true => exact (s1 hu).2.2.2.2.2.2.2.2.2 h
      | false => exact (s2 hu).2.2.2.2.2.2.2.1 h
    · rw [Game.update_of_not_active env g hr]
      exact ⟨h, le_refl _⟩
  | draw env =>
    obtain ⟨d1, d2, d3, -⟩ := Game.drawKeeps_draw env g
    show (g.draw env).ComboInv ∧ g.score ≤ (g.draw env).score
    obtain ⟨c1, c2, c3⟩ := h
    exact ⟨⟨by rw [d3, d2]; exact c1, by rw [d2]; exact c2, by rw [d1]; exact c3⟩,
      by rw [d1]⟩
  | flap =>
    show g.handleInput.ComboInv ∧ g.score ≤ g.handleInput.score
    unfold Game.handleInput
    split <;> exact ⟨h, le_refl _⟩
  | pause =>
    show g.togglePause.ComboInv ∧ g.score ≤ g.togglePause.score
    unfold Game.togglePause
    split
    · exact ⟨h, le_refl _⟩
    · split <;> exact ⟨h, le_refl _⟩
  | activate env type =>
    show (g.activatePowerUp env type).ComboInv ∧ g.score ≤ (g.activatePowerUp env type).score
    obtain ⟨ps, fs, n, e⟩ := Game.activatePowerUp_eq env type g
    rw [e]
    exact ⟨h, le_refl _⟩
  | menu => exact ⟨h, le_refl _⟩

theorem Game.run_comboInv (cmds : List Command) (g : Game) (h : g.ComboInv) :
    (Game.run cmds g).ComboInv ∧ g.score ≤ (Game.run cmds g).score := by
  induction cmds generalizing g with
  | nil => exact ⟨h, le_refl _⟩
  | cons c cmds ih =>
    obtain ⟨s1, s2⟩ := Game.step_comboInv c g h
    obtain ⟨i1, i2⟩ := ih (g.step c) s1
    exact ⟨i1, le_trans s2 i2⟩

theorem Game.run_append (a b : List Command) (g : Game) :
    Game.run (a ++ b) g = Game.run b (Game.run a g) := by
  simp [Game.run, List.foldl_append]

/-- The points of a pass at the new streak `s`. -/
theorem Game.finalScore_values (g : Game) (s : Int) (hs : 1 ≤ s) :
    (g.activePowerUps PowerUpType.doublePoints = none →
      (s ≤ 9 → g.finalScore (comboFor s) = 1) ∧
        (10 ≤ s → s ≤ 19 → g.finalScore (comboFor s) = 2) ∧
        (20 ≤ s → g.finalScore (comboFor s) = 3)) ∧
      (g.activePowerUps PowerUpType.doublePoints ≠ none →
        2 ≤ g.finalScore (comboFor s) ∧ g.finalScore (comboFor s) ≤ 6) := by
  have h1 : (1 : ℚ) ≤ s := by exact_mod_cast hs
  constructor
  · intro hd
    have e : g.finalScore (comboFor s) = ⌊comboFor s⌋ := by
      simp [Game.finalScore, ActivePowerUps.has, hd]
    rw [e]
    unfold comboFor
    refine ⟨?_, ?_, ?_⟩
    · intro h9
      have h2 : (s : ℚ) ≤ 9 := by exact_mod_cast h9
      rw [min_eq_left (by linarith), Int.floor_eq_iff]
      constructor <;> push_cast <;> linarith
    · intro h10 h19
      have h2 : (10 : ℚ) ≤ s := by exact_mod_cast h10
      have h3 : (s : ℚ) ≤ 19 := by exact_mod_cast h19
      rw [min_eq_left (by linarith), Int.floor_eq_iff]
      constructor <;> push_cast <;> linarith
    · intro h20
      have h2 : (20 : ℚ) ≤ s := by exact_mod_cast h20
      rw [min_eq_right (by linarith)]
      exact Int.floor_intCast 3
  · intro hd
    have e : g.finalScore (comboFor s) = ⌊2 * comboFor s⌋ := by
      have : (g.activePowerUps PowerUpType.doublePoints).isSome = true :=
        Option.isSome_iff_ne_none.mpr hd
      simp [Game.finalScore, ActivePowerUps.has, this]
    obtain ⟨b1, b2⟩ := comboFor_bounds s (by omega)
    rw [e]
    exact ⟨Int.le_floor.mpr (by push_cast; linarith),
      Int.lt_add_one_iff.mp (Int.floor_lt.mpr (by push_cast; linarith))⟩


/-- C27: in every state reached from `startGame()` by `update()`, `draw()` (the pick-ups),
flaps, pauses and modifier activations, `comboMultiplier` is
`min(1 + 0.1 * consecutiveScores, 3)` and lies between 1 and 3, the score is non-negative and
no further call decreases it. A scored pipe raises the streak by one and adds
`floor(points * comboMultiplier)` for the new streak, which is between 1 and 6: without double
points 1, 2, 3 for the new streak in 1..9, 10..19, 20 and up, and 2 to 6 with double points. -/
theorem combo_score_invariants (g0 : Game) (cmds : List Command) :
    ((Game.run cmds g0.startGame).comboMultiplier =
        min (1 + (1 / 10) * ((Game.run cmds g0.startGame).consecutiveScores : ℚ)) 3 ∧
      1 ≤ (Game.run cmds g0.startGame).comboMultiplier ∧
      (Game.run cmds g0.startGame).comboMultiplier ≤ 3 ∧
      0 ≤ (Game.run cmds g0.startGame).consecutiveScores ∧
      0 ≤ (Game.run cmds g0.startGame).score) ∧
    (∀ c : Command,
      (Game.run cmds g0.startGame).score ≤ (Game.run (cmds ++ [c]) g0.startGame).score) ∧
    (∀ (q : Game) (env : Env) (i : Nat) (p : Pipe),
      0 ≤ q.consecutiveScores → p.scores q.bird = true →
        (q.scoreAndRemove env i p).consecutiveScores = q.consecutiveScores + 1 ∧
        (q.scoreAndRemove env i p).comboMultiplier = comboFor (q.consecutiveScores + 1) ∧
        (q.scoreAndRemove env i p).score =
          q.score + q.finalScore (comboFor (q.consecutiveScores + 1)) ∧
        1 ≤ q.finalScore (comboFor (q.consecutiveScores + 1)) ∧
        q.finalScore (comboFor (q.consecutiveScores + 1)) ≤ 6 ∧
        (q.activePowerUps PowerUpType.doublePoints = none →
          (q.consecutiveScores + 1 ≤ 9 →
              q.finalScore (comboFor (q.consecutiveScores + 1)) = 1) ∧
            (10 ≤ q.consecutiveScores + 1 → q.consecutiveScores + 1 ≤ 19 →
              q.finalScore (comboFor (q.consecutiveScores + 1)) = 2) ∧
            (20 ≤ q.consecutiveScores + 1 →
              q.finalScore (comboFor (q.consecutiveScores + 1)) = 3)) ∧
        (q.activePowerUps PowerUpType.doublePoints ≠ none →
          2 ≤ q.finalScore (comboFor (q.consecutiveScores + 1)) ∧
            q.finalScore (comboFor (q.consecutiveScores + 1)) ≤ 6)) := by
  have h0 : g0.startGame.ComboInv := by
    refine ⟨?_, le_refl _, le_refl _⟩
    show (1 : ℚ) = comboFor 0
    exact comboFor_zero.symm
  obtain ⟨⟨c1, c2, c3⟩, -⟩ := Game.run_comboInv cmds g0.startGame h0
  have hinv := (Game.run_comboInv cmds g0.startGame h0).1
  refine ⟨⟨?_, ?_, ?_, c2, c3⟩, ?_, ?_⟩
  · rw [c1, comboFor, mul_comm]
  · rw [c1]; exact (comboFor_bounds _ c2).1
  · rw [c1]; exact (comboFor_bounds _ c2).2
  · intro c
    rw [Game.run_append]
    exact (Game.step_comboInv c _ hinv).2
  · intro q env i p hq hp
    obtain ⟨b1, b2⟩ := comboFor_bounds (q.consecutiveScores + 1) (by omega)
    obtain ⟨v1, v2⟩ := Game.finalScore_values q (q.consecutiveScores + 1) (by omega)
    obtain ⟨ps, fs, n, bc, e⟩ := Game.scorePipe_eq env i q
    refine ⟨?_, ?_, ?_, (Game.finalScore_bounds q _ b1 b2).1,
      (Game.finalScore_bounds q _ b1 b2).2, v1, v2⟩ <;>
    · unfold Game.scoreAndRemove
      cases ho : p.isOffScreen <;>
        simp only [hp, if_true, if_false, Bool.false_eq_true, e, Game.withFx, Game.awardPass]

theorem combo_score_invariants_witness :
    (0 : Int) ≤ Game.doubled.consecutiveScores ∧
      (Pipe.new 0 100 180).scores Game.doubled.bird = true ∧
      Game.doubled.activePowerUps PowerUpType.doublePoints ≠ none ∧
      (Game.doubled.scoreAndRemove (Env.const (1 / 2)) 0 (Pipe.new 0 100 180)).score =
        Game.doubled.score +
          Game.doubled.finalScore (comboFor (Game.doubled.consecutiveScores + 1)) ∧
      2 ≤ Game.doubled.finalScore (comboFor (Game.doubled.consecutiveScores + 1)) ∧
      (0 : Int) ≤ (Game.run [Command.flap] Game.fresh.startGame).score := by
  have hq : (0 : Int) ≤ Game.doubled.consecutiveScores := by decide
  have hp : (Pipe.new 0 100 180).scores Game.doubled.bird = true := by decide!
  have hd : Game.doubled.activePowerUps PowerUpType.doublePoints ≠ none := by
    simp [Game.doubled, Game.activatePowerUp, ActivePowerUps.set]
  have h := combo_score_invariants Game.fresh [Command.flap]
  have hs := h.2.2 Game.doubled (Env.const (1 / 2)) 0 (Pipe.new 0 100 180) hq hp
  exact ⟨hq, hp, hd, hs.2.2.1, (hs.2.2.2.2.2.2 hd).1, h.1.2.2.2.2⟩


/-! ### The coins of a session -/

/-- Every call keeps the coin accounting of a session, with the coins its drawing pass picks
up. -/
theorem Game.step_statsInv (T0 S0 : Int) (k : Nat) (c : Command) (g : Game)
    (h : g.StatsInv T0 S0 k) : (g.step c).StatsInv T0 S0 (k + Game.coinsPicked [c] g) := by
  obtain ⟨hc, hrun⟩ := h
  cases c with
  | update env =>
    show (g.update env).StatsInv T0 S0 (k + (0 + 0))
    by_cases hr : g.gameRunning = true ∧ g.gamePaused = false
    · obtain ⟨s1, s2⟩ := Game.update_summary env g hr.1 hr.2
      cases hu : (g.update env).gameRunning with
      | true =>
        obtain ⟨-, -, -, t4, t5, t6, -⟩ := s1 hu
        exact ⟨by rw [t4, hc]; rfl, fun _ => by rw [t5, t6]; exact hrun hr.1⟩
      | false =>
        refine ⟨by rw [(s2 hu).2.2.1, hc]; rfl, fun hh => ?_⟩
        rw [hu] at hh
        exact absurd hh (by simp)
    · rw [Game.update_of_not_active env g hr]
      exact ⟨hc, hrun⟩
  | draw env =>
    obtain ⟨p1, p2⟩ := Game.draw_pass env g
    by_cases hm : g.gameState = GameState.menu
    · obtain ⟨ps, fs, n, e⟩ := p1 hm
      show (g.draw env).StatsInv T0 S0
        (k + ((if g.gameState = GameState.menu then 0
          else g.powerUps.countP (PowerUp.coinPicked g.bird)) + 0))
      rw [if_pos hm, e]
      exact ⟨hc, hrun⟩
    · obtain ⟨-, q2, q3, d⟩ := p2 hm
      show (g.draw env).StatsInv T0 S0
        (k + ((if g.gameState = GameState.menu then 0
          else g.powerUps.countP (PowerUp.coinPicked g.bird)) + 0))
      rw [if_neg hm]
      refine ⟨by rw [q2, hc]; push_cast; ring, fun hh => ?_⟩
      rw [d.2.2.2.1] at hh
      obtain ⟨r1, r2⟩ := hrun hh
      exact ⟨by rw [q3, r1]; push_cast; ring, by rw [d.2.2.2.2.2.2.2.2.1, r2]⟩
  | flap =>
    show g.handleInput.StatsInv T0 S0 (k + (0 + 0))
    unfold Game.handleInput
    split <;> exact ⟨hc, hrun⟩
  | pause =>
    show g.togglePause.StatsInv T0 S0 (k + (0 + 0))
    unfold Game.togglePause
    split
    · exact ⟨hc, hrun⟩
    · split <;> exact ⟨hc, hrun⟩
  | activate env type =>
    show (g.activatePowerUp env type).StatsInv T0 S0 (k + (0 + 0))
    obtain ⟨ps, fs, n, e⟩ := Game.activatePowerUp_eq env type g
    rw [e]
    exact ⟨hc, hrun⟩
  | menu =>
    exact ⟨hc, fun hh => absurd (show false = true from hh) (by simp)⟩

theorem Game.run_statsInv (T0 S0 : Int) (cmds : List Command) :
    ∀ (k : Nat) (g : Game), g.StatsInv T0 S0 k →
      (Game.run cmds g).StatsInv T0 S0 (k + Game.coinsPicked cmds g) := by
  induction cmds with
  | nil => intro k g h; exact h
  | cons c cmds ih =>
    intro k g h
    have h1 := Game.step_statsInv T0 S0 k c g h
    have h2 := ih _ (g.step c) h1
    have e : k + Game.coinsPicked (c :: cmds) g =
        k + Game.coinsPicked [c] g + Game.coinsPicked cmds (g.step c) := by
      simp only [Game.coinsPicked]
      omega
    rw [e]
    exact h2


/-- C26: a session is `startGame()` followed by calls of `update()`, `draw()`, flaps, pauses
and modifier activations (no ad reward), up to the tick that ends it. If its drawing passes
pick up `k` coins, then at the end `coins` is `10 k`, `sessionStats.totalCoins` has grown by
`20 k` since `startGame()` (10 per pick-up, and the session's coins once more in `endGame()`),
and `sessionStats.totalScore` has grown by exactly the final score. -/
theorem coins_counted_twice (g0 : Game) (cmds : List Command) (env : Env)
    (hr : (Game.run cmds g0.startGame).gameRunning = true)
    (he : ((Game.run cmds g0.startGame).update env).gameRunning = false) :
    ((Game.run cmds g0.startGame).update env).gameState = GameState.gameover ∧
      ((Game.run cmds g0.startGame).update env).coins =
        10 * (Game.coinsPicked cmds g0.startGame : Int) ∧
      ((Game.run cmds g0.startGame).update env).sessionStats.totalCoins =
        g0.sessionStats.totalCoins + 20 * (Game.coinsPicked cmds g0.startGame : Int) ∧
      ((Game.run cmds g0.startGame).update env).sessionStats.totalScore =
        g0.sessionStats.totalScore + ((Game.run cmds g0.startGame).update env).score := by
  have h0 : g0.startGame.StatsInv g0.sessionStats.totalCoins g0.sessionStats.totalScore 0 :=
    ⟨rfl, fun _ => ⟨by show g0.sessionStats.totalCoins = _ + 10 * ((0 : Nat) : Int); simp, rfl⟩⟩
  have h1 := Game.run_statsInv _ _ cmds 0 g0.startGame h0
  rw [Nat.zero_add] at h1
  obtain ⟨c1, c2⟩ := h1
  obtain ⟨c3, c4⟩ := c2 hr
  have hp : (Game.run cmds g0.startGame).gamePaused = false := by
    cases hq : (Game.run cmds g0.startGame).gamePaused with
    | false => rfl
    | true =>
      rw [Game.update_idle env _ (Or.inr hq), hr] at he
      exact absurd he (by simp)
  obtain ⟨e1, e2, e3, e4, e5, -⟩ := (Game.update_summary env _ hr hp).2 he
  refine ⟨e2, by rw [e3, c1], ?_, by rw [e5, c4]⟩
  rw [e4, c3, c1]
  ring

theorem coins_counted_twice_witness :
    Game.coinsPicked coinSession (Game.new Storage.empty).startGame = 1 ∧
      ((Game.run coinSession (Game.new Storage.empty).startGame).update
        Env.coinAtBird).coins = 10 ∧
      ((Game.run coinSession (Game.new Storage.empty).startGame).update
        Env.coinAtBird).sessionStats.totalCoins = 20 := by
  have hk : Game.coinsPicked coinSession (Game.new Storage.empty).startGame = 1 := by decide!
  have h := coins_counted_twice (Game.new Storage.empty) coinSession Env.coinAtBird
    (by decide!) (by decide!)
  rw [hk] at h
  exact ⟨hk, h.2.1, h.2.2.1⟩


/-! ### The modifiers of a drawing pass -/

/-- The modifiers after the rounds of the power-up loop for the indices below `n`: the
activations of the touched power-ups, the last one first. -/
theorem Game.drawPowerUpLoop_active (env : Env) (n : Nat) :
    ∀ (A B : List PowerUp) (g : Game), A.length = n → g.powerUps = A ++ B →
      (Game.drawPowerUpLoop env n g).activePowerUps =
        A.foldr (fun pu m => if pu.move.touches g.bird then m.activate pu.type else m)
          g.activePowerUps := by
  induction n with
  | zero =>
    intro A B g hA _
    have : A = [] := List.eq_nil_of_length_eq_zero hA
    subst this
    rfl
  | succ n ih =>
    intro A B g hA hg
    rcases List.eq_nil_or_concat A with hnil | ⟨L, p, hL⟩
    · rw [hnil] at hA; exact absurd hA (by simp)
    · subst hL
      have hLn : L.length = n := by simpa using hA
      subst hLn
      have hpu : g.powerUps = L ++ p :: B := by rw [hg]; simp
      obtain ⟨s1, -, -, s4, s5⟩ := Game.drawPowerUpIter_spec env L B p g hpu
      have hb : (g.drawPowerUpIter env L.length).bird = g.bird := s5.2.2.2.2.2.2.1
      show (Game.drawPowerUpLoop env L.length (g.drawPowerUpIter env L.length)).activePowerUps
        = _
      rw [ih L _ (g.drawPowerUpIter env L.length) rfl s1, hb, s4, List.concat_eq_append,
        List.foldr_append]
      rfl

theorem Game.draw_active (env : Env) (g : Game) (hm : g.gameState ≠ GameState.menu) :
    (g.draw env).activePowerUps =
      g.powerUps.foldr (fun pu m => if pu.move.touches g.bird then m.activate pu.type else m)
        g.activePowerUps := by
  obtain ⟨ps, fs, n, e⟩ := Game.fxOnly_drawShake env g
  unfold Game.draw
  simp only [e]
  have hs : (g.withFx ps fs n).gameState = g.gameState := rfl
  rw [hs, if_neg hm]
  exact Game.drawPowerUpLoop_active env (g.withFx ps fs n).powerUps.length
    (g.withFx ps fs n).powerUps [] (g.withFx ps fs n) rfl (List.append_nil _).symm

/-- The entry of the type `t` after the activations of a pass. -/
theorem activate_foldr (bird : Bird) (A : List PowerUp) (m : ActivePowerUps) (t : PowerUpType) :
    (A.foldr (fun pu m => if pu.move.touches bird then m.activate pu.type else m) m) t =
      if decide (t ≠ PowerUpType.coin) &&
          A.any (fun pu => pu.move.touches bird && decide (pu.type = t)) then
        some (freshEntry t)
      else m t := by
  induction A with
  | nil => simp
  | cons pu A ih =>
    rw [List.foldr_cons, List.any_cons]
    cases ht : pu.move.touches bird with
    | false =>
      simp only [Bool.false_eq_true, if_false, Bool.false_and, Bool.false_or]
      exact ih
    | true =>
      simp only [if_true, Bool.true_and]
      generalize List.foldr
        (fun pu m => if pu.move.touches bird then m.activate pu.type else m) m A = M at ih ⊢
      unfold ActivePowerUps.activate
      by_cases hc : pu.type = PowerUpType.coin
      · rw [if_pos hc, ih]
        by_cases htc : t = PowerUpType.coin
        · simp [htc]
        · have : ¬ pu.type = t := fun h => htc (h ▸ hc)
          simp [this]
      · rw [if_neg hc]
        unfold ActivePowerUps.set
        by_cases hty : t = pu.type
        · subst hty
          simp [hc]
        · rw [if_neg hty, ih]
          have : ¬ pu.type = t := fun h => hty h.symm
          simp [this]


/-- A spawned power-up enters at the right edge with the speed 3 and the width 30. -/
theorem Game.spawnPowerUp_speed (env : Env) (g : Game) :
    ∃ pu : PowerUp, (g.spawnPowerUp env).powerUps = g.powerUps ++ [pu] ∧ pu.speed = 3 ∧
      pu.width = 30 ∧ pu.x = g.canvas.width := by
  unfold Game.spawnPowerUp
  simp only [Game.random]
  split <;> exact ⟨_, rfl, rfl, rfl, rfl⟩

/-- C22: the power-up pass of `draw()` (every phase but the menu). A spawned power-up has the
speed 3, and its round moves it left by its speed. If the moved power-up is within 30 of the
bird in both coordinates, the round removes it and applies its effect: a coin adds exactly 10
coins and leaves the modifiers as they were, any other type is activated as by
`activatePowerUp`; this happens whether or not it is off screen. Otherwise the round removes
it exactly when `x + width < 0`, and changes neither the coins nor the modifiers. Over the
whole pass the survivors are the moved power-ups that are neither touched nor off screen, the
coins grow by 10 per touched coin, and a modifier is freshly installed exactly for the types
other than coin of the touched power-ups. -/
theorem powerUp_pass_spec (env : Env) (g : Game) (A B : List PowerUp) (pu : PowerUp)
    (hm : g.gameState ≠ GameState.menu) (h : g.powerUps = A ++ pu :: B) :
    ((∃ q : PowerUp, (g.spawnPowerUp env).powerUps = g.powerUps ++ [q] ∧ q.speed = 3) ∧
      pu.move.x = pu.x - pu.speed ∧ pu.move.y = pu.y ∧ pu.move.type = pu.type ∧
      pu.move.speed = pu.speed ∧ pu.move.width = pu.width) ∧
    (pu.move.touches g.bird = true →
      (g.drawPowerUpIter env A.length).powerUps = A ++ B ∧
        (g.drawPowerUpIter env A.length).activePowerUps =
          (g.activatePowerUp env pu.type).activePowerUps ∧
        (pu.type = PowerUpType.coin →
          (g.drawPowerUpIter env A.length).coins = g.coins + 10 ∧
            (g.drawPowerUpIter env A.length).activePowerUps = g.activePowerUps) ∧
        (pu.type ≠ PowerUpType.coin →
          (g.drawPowerUpIter env A.length).coins = g.coins ∧
            (g.drawPowerUpIter env A.length).activePowerUps =
              g.activePowerUps.set pu.type (freshEntry pu.type))) ∧
    (pu.move.touches g.bird = false →
      (g.drawPowerUpIter env A.length).powerUps =
          (if pu.move.x + pu.move.width < 0 then A ++ B else A ++ pu.move :: B) ∧
        (g.drawPowerUpIter env A.length).coins = g.coins ∧
        (g.drawPowerUpIter env A.length).activePowerUps = g.activePowerUps) ∧
    ((g.draw env).powerUps =
        g.powerUps.filterMap (fun q =>
          if q.move.touches g.bird || decide (q.move.x + q.move.width < 0) then none
          else some q.move) ∧
      (g.draw env).coins =
        g.coins + 10 * (g.powerUps.countP fun q =>
          q.move.touches g.bird && decide (q.type = PowerUpType.coin)) ∧
      ∀ t : PowerUpType, (g.draw env).activePowerUps t =
        if decide (t ≠ PowerUpType.coin) &&
            g.powerUps.any (fun q => q.move.touches g.bird && decide (q.type = t)) then
          some (freshEntry t)
        else g.activePowerUps t) := by
  obtain ⟨q, hq1, hq2, -⟩ := Game.spawnPowerUp_speed env g
  obtain ⟨s1, s2, s3, s4, -⟩ := Game.drawPowerUpIter_spec env A B pu g h
  obtain ⟨ps, fs, n, ea⟩ := Game.activatePowerUp_eq env pu.type g
  obtain ⟨d1, d2, -, -⟩ := (Game.draw_pass env g).2 hm
  refine ⟨⟨⟨q, hq1, hq2⟩, rfl, rfl, rfl, rfl, rfl⟩, ?_, ?_, ?_⟩
  · intro ht
    have hsv : pu.survive g.bird = none := by simp [PowerUp.survive, ht]
    rw [hsv] at s1
    rw [if_pos ht] at s4
    refine ⟨s1, by rw [s4, ea], ?_, ?_⟩
    · intro hc
      have hcp : pu.coinPicked g.bird = true := by simp [PowerUp.coinPicked, ht, hc]
      rw [hcp] at s2
      exact ⟨s2, by rw [s4, ActivePowerUps.activate, if_pos hc]⟩
    · intro hc
      have hcp : pu.coinPicked g.bird = false := by simp [PowerUp.coinPicked, hc]
      rw [hcp] at s2
      exact ⟨by simpa using s2, by rw [s4, ActivePowerUps.activate, if_neg hc]⟩
  · intro ht
    have hcp : pu.coinPicked g.bird = false := by simp [PowerUp.coinPicked, ht]
    rw [hcp] at s2
    rw [ht] at s4
    refine ⟨?_, by simpa using s2, by simpa using s4⟩
    rw [s1]
    by_cases ho : pu.move.x + pu.move.width < 0
    · simp [PowerUp.survive, ht, PowerUp.isOffScreen, ho]
    · simp [PowerUp.survive, ht, PowerUp.isOffScreen, ho]
  · refine ⟨d1, d2, fun t => ?_⟩
    rw [Game.draw_active env g hm]
    exact activate_foldr g.bird g.powerUps g.activePowerUps t

theorem powerUp_pass_spec_witness :
    Game.pausedWithCoin.gameState ≠ GameState.menu ∧
      (Game.pausedWithCoin.draw (Env.const (1 / 2))).powerUps = [] ∧
      (Game.pausedWithCoin.draw (Env.const (1 / 2))).coins = 10 ∧
      (Game.pausedWithCoin.drawPowerUpIter (Env.const (1 / 2)) 0).activePowerUps =
        Game.pausedWithCoin.activePowerUps := by
  have hm : Game.pausedWithCoin.gameState ≠ GameState.menu := by decide
  have h := powerUp_pass_spec (Env.const (1 / 2)) Game.pausedWithCoin [] []
    (PowerUp.coinAt 103 200) hm rfl
  have ht : (PowerUp.coinAt 103 200).move.touches Game.pausedWithCoin.bird = true := by
    decide!
  refine ⟨hm, ?_, ?_, ((h.2.1 ht).2.2.1 rfl).2⟩
  · rw [h.2.2.2.1]
    decide!
  · rw [h.2.2.2.2.1]
    decide!


/-! ### The speed of the pipes -/

/-- No call writes `gameSpeedMultiplier`. -/
theorem Game.step_speed (c : Command) (g : Game) :
    (g.step c).gameSpeedMultiplier = g.gameSpeedMultiplier := by
  cases c with
  | update env =>
    show (g.update env).gameSpeedMultiplier = g.gameSpeedMultiplier
    by_cases hr : g.gameRunning = true ∧ g.gamePaused = false
    · obtain ⟨s1, s2⟩ := Game.update_summary env g hr.1 hr.2
      cases hu : (g.update env).gameRunning with
      | true => exact (s1 hu).2.2.2.2.2.2.2.1
      | false => exact (s2 hu).2.2.2.2.2.2.2.2
    · rw [Game.update_of_not_active env g hr]
  | draw env => exact (Game.drawKeeps_draw env g).2.2.2.2.2.2.2.2.2.2.2
  | flap =>
    show g.handleInput.gameSpeedMultiplier = g.gameSpeedMultiplier
    unfold Game.handleInput
    split <;> rfl
  | pause =>
    show g.togglePause.gameSpeedMultiplier = g.gameSpeedMultiplier
    unfold Game.togglePause
    split
    · rfl
    · split <;> rfl
  | activate env type =>
    show (g.activatePowerUp env type).gameSpeedMultiplier = g.gameSpeedMultiplier
    obtain ⟨ps, fs, n, e⟩ := Game.activatePowerUp_eq env type g
    rw [e]
    rfl
  | menu => rfl

theorem Game.run_speed (cmds : List Command) (g : Game) :
    (Game.run cmds g).gameSpeedMultiplier = g.gameSpeedMultiplier := by
  induction cmds generalizing g with
  | nil => rfl
  | cons c cmds ih => exact (ih (g.step c)).trans (Game.step_speed c g)

theorem Game.runSessions_speed (sessions : List (List Command)) (g : Game) :
    (Game.runSessions sessions g).gameSpeedMultiplier = g.gameSpeedMultiplier := by
  induction sessions generalizing g with
  | nil => rfl
  | cons cmds sessions ih => exact (ih _).trans (Game.run_speed cmds g.startGame)

theorem Game.new_speed (storage : Storage) :
    (Game.new storage).gameSpeedMultiplier = 13 / 20 := by
  unfold Game.new Game.loadStats
  split <;> rfl

/-- A tick of a running, unpaused game that leaves the game running went through the whole
pipe loop: the pipes after it are the survivors of one round each. -/
theorem Game.update_pipes (env : Env) (g : Game) (hr : g.gameRunning = true)
    (hp : g.gamePaused = false) (hu : (g.update env).gameRunning = true) :
    (g.update env).pipes =
      (g.advance.spawnStep env).pipes.filterMap
        (Pipe.survive g.speedMultiplier g.bird.update) := by
  obtain ⟨-, -, -, e4, -, -, -, -, -, -, e11, e12⟩ := Game.spawnStep_advance env g
  have hsm : (g.advance.spawnStep env).speedMultiplier = g.speedMultiplier := by
    unfold Game.speedMultiplier
    rw [e4, e12]
  rw [Game.update_running env g hr hp] at hu ⊢
  split at hu
  · rw [(Game.endsFrom_endGame env g.advance).1] at hu
    exact absurd hu (by simp)
  · rename_i hb
    rw [if_neg hb]
    obtain ⟨-, l2⟩ := Game.pipeLoop_summary env (g.advance.spawnStep env).speedMultiplier
      (g.advance.spawnStep env).pipes.length (g.advance.spawnStep env)
    cases hf : ((g.advance.spawnStep env).pipeLoop env (g.advance.spawnStep env).speedMultiplier
      (g.advance.spawnStep env).pipes.length).2 with
    | true =>
      have e : (g.advance.spawnStep env).pipeLoop env (g.advance.spawnStep env).speedMultiplier
          (g.advance.spawnStep env).pipes.length =
          (((g.advance.spawnStep env).pipeLoop env (g.advance.spawnStep env).speedMultiplier
            (g.advance.spawnStep env).pipes.length).1, true) := by
        rw [← hf]
      rw [e] at hu
      simp only at hu
      rw [(l2 hf).1] at hu
      exact absurd hu (by simp)
    | false =>
      have e : (g.advance.spawnStep env).pipeLoop env (g.advance.spawnStep env).speedMultiplier
          (g.advance.spawnStep env).pipes.length =
          (((g.advance.spawnStep env).pipeLoop env (g.advance.spawnStep env).speedMultiplier
            (g.advance.spawnStep env).pipes.length).1, false) := by
        rw [← hf]
      rw [e]
      simp only
      obtain ⟨pus, k, ef⟩ := Game.finishTick_eq env
        ((g.advance.spawnStep env).pipeLoop env (g.advance.spawnStep env).speedMultiplier
          (g.advance.spawnStep env).pipes.length).1
      rw [ef]
      obtain ⟨r1, -, -⟩ := Game.pipeLoop_rounds env (g.advance.spawnStep env).speedMultiplier
        (g.advance.spawnStep env).pipes.length (g.advance.spawnStep env).pipes []
        (g.advance.spawnStep env) rfl (List.append_nil _).symm hf
      rw [List.append_nil, hsm, e11] at r1
      rw [hsm]
      exact r1

/-- What a round leaves of a pipe has the speed `3 * speedMultiplier` and has moved left by
it. -/
theorem Pipe.survive_speed (sm : ℚ) (bird : Bird) (p q : Pipe)
    (h : Pipe.survive sm bird p = some q) : q.speed = 3 * sm ∧ q.x = p.x - 3 * sm := by
  unfold Pipe.survive at h
  split at h
  · exact absurd h (by simp)
  · have e : (Pipe.round sm bird false p).1 = q := Option.some.inj h
    rw [← e]
    unfold Pipe.round
    split <;> exact ⟨rfl, rfl⟩


/-- C23: `gameSpeedMultiplier` is 0.65 in a constructed game and in every state reached from
it by sessions of calls. In a tick of a running, unpaused game with that constant which
leaves the game running, the multiplier of the tick is `0.65 * m` with `m = 0.5` when the
slow-motion modifier is active (also when the speed boost is active too), `m = 1.3` when only
the speed boost is active and `m = 1` otherwise; every pipe live in the pipe loop (the pipes
before the tick and the one the tick spawns) gets the speed `3 * 0.65 * m` and moves left by
exactly that, and the pipes after the tick are those of them that are not off screen then. -/
theorem pipe_speed_per_tick (env : Env) (g : Game) (hr : g.gameRunning = true)
    (hp : g.gamePaused = false) (hs : g.gameSpeedMultiplier = 13 / 20)
    (hu : (g.update env).gameRunning = true) :
    (∀ (storage : Storage) (sessions : List (List Command)),
      (Game.runSessions sessions (Game.new storage)).gameSpeedMultiplier = 13 / 20) ∧
    ((g.advance.spawnStep env).speedMultiplier = g.speedMultiplier ∧
      (g.activePowerUps.has PowerUpType.slowMotion = true →
        g.speedMultiplier = 13 / 20 * (1 / 2)) ∧
      (g.activePowerUps.has PowerUpType.slowMotion = false →
        g.activePowerUps.has PowerUpType.speedBoost = true →
        g.speedMultiplier = 13 / 20 * (13 / 10)) ∧
      (g.activePowerUps.has PowerUpType.slowMotion = false →
        g.activePowerUps.has PowerUpType.speedBoost = false →
        g.speedMultiplier = 13 / 20 * 1)) ∧
    (∀ p : Pipe, (p.move g.speedMultiplier).speed = 3 * g.speedMultiplier ∧
      (p.move g.speedMultiplier).x = p.x - 3 * g.speedMultiplier) ∧
    (g.update env).pipes =
      (g.advance.spawnStep env).pipes.filterMap (fun p =>
        if (p.move g.speedMultiplier).x + (p.move g.speedMultiplier).width < 0 then none
        else some (p.round g.speedMultiplier g.bird.update false).1) ∧
    (∀ q ∈ (g.update env).pipes, q.speed = 3 * g.speedMultiplier ∧
      ∃ p ∈ (g.advance.spawnStep env).pipes, q.x = p.x - 3 * g.speedMultiplier) := by
  obtain ⟨-, -, -, e4, -, -, -, -, -, -, -, e12⟩ := Game.spawnStep_advance env g
  have hpipes := Game.update_pipes env g hr hp hu
  refine ⟨fun storage sessions => ?_, ⟨?_, ?_, ?_, ?_⟩, fun p => ⟨rfl, rfl⟩, ?_, ?_⟩
  · rw [Game.runSessions_speed, Game.new_speed]
  · unfold Game.speedMultiplier
    rw [e4, e12]
  · intro h1
    simp [Game.speedMultiplier, h1, hs]
  · intro h1 h2
    simp [Game.speedMultiplier, h1, h2, hs]
  · intro h1 h2
    simp [Game.speedMultiplier, h1, h2, hs]
  · rw [hpipes]
    apply List.filterMap_congr
    intro p _
    simp [Pipe.survive, Pipe.isOffScreen]
  · intro q hq
    rw [hpipes, List.mem_filterMap] at hq
    obtain ⟨p, hp1, hp2⟩ := hq
    obtain ⟨h1, h2⟩ := Pipe.survive_speed _ _ p q hp2
    exact ⟨h1, p, hp1, h2⟩

theorem pipe_speed_per_tick_witness :
    Game.slowAndBoosted.activePowerUps.has PowerUpType.slowMotion = true ∧
      Game.slowAndBoosted.activePowerUps.has PowerUpType.speedBoost = true ∧
      Game.slowAndBoosted.speedMultiplier = 13 / 20 * (1 / 2) ∧
      ((Game.slowAndBoosted.update (Env.const (1 / 2))).pipes.map fun q => (q.x, q.speed)) =
        [(300 - 39 / 40, 39 / 40)] := by
  have hsl : Game.slowAndBoosted.activePowerUps.has PowerUpType.slowMotion = true := by decide
  have hsb : Game.slowAndBoosted.activePowerUps.has PowerUpType.speedBoost = true := by decide
  have h := pipe_speed_per_tick (Env.const (1 / 2)) Game.slowAndBoosted rfl rfl rfl
    (by decide!)
  refine ⟨hsl, hsb, h.2.1.2.1 hsl, ?_⟩
  rw [h.2.2.2.1]
  decide!


/-! ### The modifier timers -/

theorem tickPowerUps_some (m : ActivePowerUps) (k : PowerUpType) (e : ActivePowerUp)
    (h : m k = some e) :
    tickPowerUps m k =
      if e.duration - 1 ≤ 0 then none else some { e with duration := e.duration - 1 } := by
  unfold tickPowerUps
  rw [h]

theorem tickPowerUps_pos (m : ActivePowerUps) (k : PowerUpType) (e : ActivePowerUp)
    (h : tickPowerUps m k = some e) : 1 ≤ e.duration := by
  cases hm : m k with
  | none =>
    rw [tickPowerUps_none m k hm] at h
    exact absurd h (by simp)
  | some e0 =>
    rw [tickPowerUps_some m k e0 hm] at h
    split at h
    · exact absurd h (by simp)
    · rename_i hd
      have e1 : e = { e0 with duration := e0.duration - 1 } := (Option.some.inj h).symm
      rw [e1]
      show 1 ≤ e0.duration - 1
      omega

/-- The pipe loop leaves every modifier other than shield and ghost as it was. -/
theorem Game.afterPipes_active (env : Env) (g : Game) (k : PowerUpType)
    (h1 : k ≠ PowerUpType.shield) (h2 : k ≠ PowerUpType.ghost) :
    (g.afterPipes env).activePowerUps k = g.activePowerUps k := by
  obtain ⟨-, -, -, e4, -⟩ := Game.spawnStep_advance env g
  obtain ⟨l1, l2⟩ := Game.pipeLoop_summary env (g.advance.spawnStep env).speedMultiplier
    (g.advance.spawnStep env).pipes.length (g.advance.spawnStep env)
  unfold Game.afterPipes
  cases hf : ((g.advance.spawnStep env).pipeLoop env (g.advance.spawnStep env).speedMultiplier
    (g.advance.spawnStep env).pipes.length).2 with
  | true => rw [(l2 hf).2.2.2.2.2.2.1 k h1 h2, e4]
  | false => rw [(l1 hf).2.2.2.2.2.2.2.2.2.1 k h1 h2, e4]

/-- A tick of a running, unpaused game that leaves the game running has run the modifier
timers on the state its pipe loop left. -/
theorem Game.update_timers (env : Env) (g : Game) (hr : g.gameRunning = true)
    (hp : g.gamePaused = false) (hu : (g.update env).gameRunning = true) :
    (g.update env).activePowerUps = tickPowerUps (g.afterPipes env).activePowerUps := by
  unfold Game.afterPipes
  rw [Game.update_running env g hr hp] at hu ⊢
  split at hu
  · rw [(Game.endsFrom_endGame env g.advance).1] at hu
    exact absurd hu (by simp)
  · rename_i hb
    rw [if_neg hb]
    obtain ⟨-, l2⟩ := Game.pipeLoop_summary env (g.advance.spawnStep env).speedMultiplier
      (g.advance.spawnStep env).pipes.length (g.advance.spawnStep env)
    cases hf : ((g.advance.spawnStep env).pipeLoop env (g.advance.spawnStep env).speedMultiplier
      (g.advance.spawnStep env).pipes.length).2 with
    | true =>
      have e : (g.advance.spawnStep env).pipeLoop env (g.advance.spawnStep env).speedMultiplier
          (g.advance.spawnStep env).pipes.length =
          (((g.advance.spawnStep env).pipeLoop env (g.advance.spawnStep env).speedMultiplier
            (g.advance.spawnStep env).pipes.length).1, true) := by
        rw [← hf]
      rw [e] at hu
      simp only at hu
      rw [(l2 hf).1] at hu
      exact absurd hu (by simp)
    | false =>
      have e : (g.advance.spawnStep env).pipeLoop env (g.advance.spawnStep env).speedMultiplier
          (g.advance.spawnStep env).pipes.length =
          (((g.advance.spawnStep env).pipeLoop env (g.advance.spawnStep env).speedMultiplier
            (g.advance.spawnStep env).pipes.length).1, false) := by
        rw [← hf]
      rw [e]
      simp only
      obtain ⟨pus, n, ef⟩ := Game.finishTick_eq env
        ((g.advance.spawnStep env).pipeLoop env (g.advance.spawnStep env).speedMultiplier
          (g.advance.spawnStep env).pipes.length).1
      rw [ef]

/-- A run of ticks that is still running at its end was running and unpaused before each of
its ticks. -/
theorem Game.updates_running (env : Env) (g : Game) (hp : g.gamePaused = false) (j : Nat)
    (hrun : (Game.updates env j g).gameRunning = true) :
    ∀ i, i ≤ j → (Game.updates env i g).gameRunning = true ∧
      (Game.updates env i g).gamePaused = false := by
  induction j with
  | zero =>
    intro i hi
    have : i = 0 := by omega
    subst this
    exact ⟨hrun, hp⟩
  | succ j ih =>
    have hj : (Game.updates env j g).gameRunning = true := by
      cases h : (Game.updates env j g).gameRunning with
      | true => rfl
      | false =>
        rw [Game.updates_succ, Game.update_idle env _ (Or.inl h), h] at hrun
        exact absurd hrun (by simp)
    intro i hi
    rcases Nat.lt_or_ge i (j + 1) with h | h
    · exact ih hj i (by omega)
    · have : i = j + 1 := by omega
      subst this
      obtain ⟨r, p⟩ := ih hj j (le_refl _)
      refine ⟨hrun, ?_⟩
      rw [Game.updates_succ] at hrun ⊢
      rw [((Game.update_summary env _ r p).1 hrun).2.1]
      exact p

/-- The entry of a modifier that no collision consumes, after `j` ticks of a run that is
still running. -/
theorem Game.updates_timer (env : Env) (g : Game) (k : PowerUpType) (e : ActivePowerUp)
    (hp : g.gamePaused = false) (hk : g.activePowerUps k = some e) (hd : 0 < e.duration)
    (j : Nat) (hrun : (Game.updates env j g).gameRunning = true)
    (hkeep : ∀ i, i < j → ((Game.updates env i g).afterPipes env).activePowerUps k =
      (Game.updates env i g).activePowerUps k) :
    (Game.updates env j g).activePowerUps k =
      if (j : Int) < e.duration then some { e with duration := e.duration - j } else none := by
  induction j with
  | zero =>
    show g.activePowerUps k = _
    rw [hk, if_pos (by exact_mod_cast hd)]
    simp
  | succ j ih =>
    obtain ⟨r, p⟩ := Game.updates_running env g hp (j + 1) hrun j (Nat.le_succ j)
    have hprev := ih r (fun i hi => hkeep i (by omega))
    have hrun2 := hrun
    rw [Game.updates_succ] at hrun2 ⊢
    rw [Game.update_timers env _ r p hrun2,
      tickPowerUps_congr _ _ k (hkeep j (Nat.lt_succ_self j))]
    by_cases hlt : (j : Int) < e.duration
    · rw [if_pos hlt] at hprev
      rw [tickPowerUps_some _ k _ hprev]
      show (if e.duration - (j : Int) - 1 ≤ 0 then none
        else some ({ duration := e.duration - (j : Int) - 1, uses := e.uses } :
          ActivePowerUp)) = _
      by_cases hlt2 : ((j + 1 : Nat) : Int) < e.duration
      · rw [if_pos hlt2, if_neg (by push_cast at hlt2; omega)]
        congr 2
        push_cast
        ring
      · rw [if_neg hlt2, if_pos (by push_cast at hlt2; omega)]
    · rw [if_neg hlt] at hprev
      rw [tickPowerUps_none _ k hprev, if_neg (by push_cast; omega)]


/-- C24: the modifier timers. In a tick of a running, unpaused game that does not end the
session, every modifier present after the pipe loop (that is, after the collision handling)
loses exactly one unit of duration and is removed when its duration is then 0 or less, an
absent one stays absent, and every modifier left after the tick has a duration of at least 1;
the pipe loop itself leaves every modifier other than shield and ghost as it was.
`activatePowerUp` installs the table duration, which is positive. Consequently, in a run of
ticks that is still running after `j` ticks, a modifier with the duration `d > 0` at the start
that no collision consumes has the duration `d - j` before tick `j + 1` when `j < d` (it is
present in the pipe loops of the ticks `1 .. d`) and is absent when `j ≥ d` (from the end of
tick `d` onwards). -/
theorem modifier_timers (env : Env) (g : Game) (k : PowerUpType) (e : ActivePowerUp) (j : Nat)
    (hp : g.gamePaused = false) (hk : g.activePowerUps k = some e) (hd : 0 < e.duration)
    (hrun : (Game.updates env j g).gameRunning = true)
    (hkeep : ∀ i, i < j → ((Game.updates env i g).afterPipes env).activePowerUps k =
      (Game.updates env i g).activePowerUps k) :
    (∀ q : Game, q.gameRunning = true → q.gamePaused = false →
      (q.update env).gameRunning = true →
        (q.update env).activePowerUps = tickPowerUps (q.afterPipes env).activePowerUps ∧
        (∀ t a, (q.afterPipes env).activePowerUps t = some a →
          (q.update env).activePowerUps t =
            if a.duration - 1 ≤ 0 then none else some { a with duration := a.duration - 1 }) ∧
        (∀ t, (q.afterPipes env).activePowerUps t = none →
          (q.update env).activePowerUps t = none) ∧
        (∀ t a, (q.update env).activePowerUps t = some a → 1 ≤ a.duration) ∧
        (∀ t, t ≠ PowerUpType.shield → t ≠ PowerUpType.ghost →
          (q.afterPipes env).activePowerUps t = q.activePowerUps t)) ∧
    (∀ (q : Game) (t : PowerUpType), t ≠ PowerUpType.coin →
      (q.activatePowerUp env t).activePowerUps t =
          some { duration := (powerUpTypes t).duration
                 uses := if t = PowerUpType.ghost then some 2 else none } ∧
        0 < (powerUpTypes t).duration) ∧
    (Game.updates env j g).activePowerUps k =
      if (j : Int) < e.duration then some { e with duration := e.duration - j } else none := by
  refine ⟨fun q hr hq hu => ?_, fun q t ht => ?_,
    Game.updates_timer env g k e hp hk hd j hrun hkeep⟩
  · have ht := Game.update_timers env q hr hq hu
    refine ⟨ht, fun t a ha => ?_, fun t ha => ?_, fun t a ha => ?_,
      fun t h1 h2 => Game.afterPipes_active env q t h1 h2⟩
    · rw [ht]
      exact tickPowerUps_some _ t a ha
    · rw [ht]
      exact tickPowerUps_none _ t ha
    · rw [ht] at ha
      exact tickPowerUps_pos _ t a ha
  · obtain ⟨ps, fs, n, ea⟩ := Game.activatePowerUp_eq env t q
    constructor
    · rw [ea]
      show (q.activePowerUps.activate t) t = _
      unfold ActivePowerUps.activate
      rw [if_neg ht]
      unfold ActivePowerUps.set
      rw [if_pos rfl]
      rfl
    · cases t <;> first | exact absurd rfl ht | decide

theorem modifier_timers_witness :
    (Game.updates (Env.const (1 / 2)) 1 Game.magnetEnding).activePowerUps PowerUpType.magnet =
        some { duration := 1, uses := none } ∧
      (Game.updates (Env.const (1 / 2)) 2 Game.magnetEnding).gameRunning = true ∧
      (Game.updates (Env.const (1 / 2)) 2 Game.magnetEnding).activePowerUps PowerUpType.magnet =
        none := by
  have hk : Game.magnetEnding.activePowerUps PowerUpType.magnet =
      some { duration := 2, uses := none } := by decide
  have hr1 : (Game.updates (Env.const (1 / 2)) 1 Game.magnetEnding).gameRunning = true := by
    decide!
  have hr2 : (Game.updates (Env.const (1 / 2)) 2 Game.magnetEnding).gameRunning = true := by
    decide!
  have h1 := (modifier_timers (Env.const (1 / 2)) Game.magnetEnding PowerUpType.magnet
    { duration := 2, uses := none } 1 rfl hk (by decide) hr1
    (fun i _ => Game.afterPipes_active _ _ _ (by decide) (by decide))).2.2
  have h2 := (modifier_timers (Env.const (1 / 2)) Game.magnetEnding PowerUpType.magnet
    { duration := 2, uses := none } 2 rfl hk (by decide) hr2
    (fun i _ => Game.afterPipes_active _ _ _ (by decide) (by decide))).2.2
  exact ⟨h1, hr2, h2⟩


/-! ### The visible leaderboard -/

theorem sortScores_map (l : List ScoreEntry) :
    (sortScores l).map ScoreEntry.score = (l.map ScoreEntry.score).insertionSort (· ≥ ·) :=
  List.map_insertionSort scoreOrder (· ≥ ·) ScoreEntry.score l (fun _ _ _ _ => Iff.rfl)

/-- Cutting a list after `k` places before an ordered insertion does not change the first `k`
places of the result. -/
theorem take_orderedInsert_take (x : Int) :
    ∀ (k : Nat) (s : List Int),
      ((s.take k).orderedInsert (· ≥ ·) x).take k = (s.orderedInsert (· ≥ ·) x).take k := by
  intro k s
  induction s generalizing k with
  | nil => simp
  | cons a t ih =>
    cases k with
    | zero => simp
    | succ k =>
      rw [List.take_succ_cons]
      simp only [List.orderedInsert]
      by_cases h : x ≥ a
      · rw [if_pos h, if_pos h, List.take_succ_cons, List.take_succ_cons]
        congr 1
        cases k with
        | zero => simp
        | succ k =>
          rw [List.take_succ_cons, List.take_succ_cons, List.take_take]
          simp
      · rw [if_neg h, if_neg h, List.take_succ_cons, List.take_succ_cons, ih]

theorem insertionSort_concat (l : List Int) (x : Int) :
    (l ++ [x]).insertionSort (· ≥ ·) = (l.insertionSort (· ≥ ·)).orderedInsert (· ≥ ·) x := by
  apply List.eq_of_perm_of_sorted (r := (· ≥ ·))
  · refine (List.perm_insertionSort _ _).trans ?_
    refine List.perm_append_singleton x l |>.trans ?_
    refine List.Perm.trans ?_ (List.perm_orderedInsert _ _ _).symm
    exact List.Perm.cons x (List.perm_insertionSort _ _).symm
  · exact List.sorted_insertionSort _ _
  · exact List.Sorted.orderedInsert _ _ (List.sorted_insertionSort _ _)

/-- The top `k` of a list with one more score, from the top `k` of the list. -/
theorem highestScores_concat (k : Nat) (l : List Int) (x : Int) :
    ((highestScores k l ++ [x]).insertionSort (· ≥ ·)).take k = highestScores k (l ++ [x]) := by
  have hs : (highestScores k l).Sorted (· ≥ ·) :=
    List.Pairwise.sublist (List.take_sublist _ _) (List.sorted_insertionSort _ _)
  unfold highestScores at hs ⊢
  rw [insertionSort_concat, insertionSort_concat, List.Sorted.insertionSort_eq hs,
    take_orderedInsert_take]

theorem Game.getTopScores_scores (g : Game) :
    g.getTopScores.map ScoreEntry.score = highestScores 10 g.storedScores := by
  unfold Game.getTopScores Game.storedScores highestScores
  cases g.storage.flappyBirdScores <;> simp [List.map_take, sortScores_map]

theorem Game.saveScore_stored (env : Env) (x : Int) (g : Game) :
    (g.saveScore env x).storedScores =
      (highestScores 10 g.storedScores ++ [x]).insertionSort (· ≥ ·) := by
  have hlen : ((highestScores 10 g.storedScores ++ [x]).insertionSort (· ≥ ·)).length ≤ 20 := by
    rw [List.length_insertionSort, List.length_append, highestScores, List.length_take]
    simp
  rw [← List.take_of_length_le hlen, ← Game.getTopScores_scores]
  simp [Game.saveScore, Game.storedScores, List.map_take, sortScores_map]

theorem Game.saveScores_concat (env : Env) (xs : List Int) (x : Int) (g : Game) :
    Game.saveScores env (xs ++ [x]) g = (Game.saveScores env xs g).saveScore env x := by
  simp [Game.saveScores, List.foldl_append]

/-- After a run of `saveScore` calls from an empty store, the visible leaderboard of the
persisted list is the top ten of the scores saved. -/
theorem Game.saveScores_top (env : Env) (g : Game) (h0 : g.storedScores = []) (xs : List Int) :
    highestScores 10 (Game.saveScores env xs g).storedScores = highestScores 10 xs := by
  induction xs using List.reverseRecOn with
  | nil =>
    show highestScores 10 g.storedScores = _
    rw [h0]
  | append_singleton xs x ih =>
    rw [Game.saveScores_concat, Game.saveScore_stored, ih]
    have hs : ((highestScores 10 xs ++ [x]).insertionSort (· ≥ ·)).Sorted (· ≥ ·) :=
      List.sorted_insertionSort _ _
    rw [← highestScores_concat]
    unfold highestScores at hs ⊢
    rw [List.Sorted.insertionSort_eq hs]


/-- C25: the visible leaderboard is the true top ten. Any `saveScore` call leaves at most 11
persisted entries, the new score among them. After the calls `saveScore(x)` for the scores
`xs` in turn, from an empty store, the scores `getTopScores()` returns are the ten highest of
`xs` in descending order: there are `min(n, 10)` of them for `n` calls, they are in
descending order, and together with some rest no higher than any of them they are a
rearrangement of `xs`. -/
theorem visible_leaderboard_top_ten (env : Env) (g : Game) (xs : List Int)
    (h0 : g.storedScores = []) :
    (∀ (q : Game) (x : Int), (q.saveScore env x).storedScores.length ≤ 11 ∧
      x ∈ (q.saveScore env x).storedScores) ∧
    (Game.saveScores env xs g).storedScores.length ≤ 11 ∧
    (Game.saveScores env xs g).getTopScores.map ScoreEntry.score = highestScores 10 xs ∧
    (highestScores 10 xs).length = min xs.length 10 ∧
    (highestScores 10 xs).Sorted (· ≥ ·) ∧
    ∃ rest : List Int, (highestScores 10 xs ++ rest).Perm xs ∧
      ∀ a ∈ highestScores 10 xs, ∀ b ∈ rest, b ≤ a := by
  have hone : ∀ (q : Game) (x : Int), (q.saveScore env x).storedScores.length ≤ 11 ∧
      x ∈ (q.saveScore env x).storedScores := by
    intro q x
    rw [Game.saveScore_stored]
    constructor
    · rw [List.length_insertionSort, List.length_append, highestScores, List.length_take]
      simp
    · rw [List.mem_insertionSort]
      simp
  refine ⟨hone, ?_, ?_, ?_, ?_, ?_⟩
  · rcases List.eq_nil_or_concat xs with hnil | ⟨L, x, hL⟩
    · rw [hnil]
      show g.storedScores.length ≤ 11
      rw [h0]
      simp
    · rw [hL, List.concat_eq_append, Game.saveScores_concat]
      exact (hone _ x).1
  · rw [Game.getTopScores_scores, Game.saveScores_top env g h0]
  · rw [highestScores, List.length_take, List.length_insertionSort, Nat.min_comm]
  · exact List.Pairwise.sublist (List.take_sublist _ _) (List.sorted_insertionSort _ _)
  · refine ⟨(xs.insertionSort (· ≥ ·)).drop 10, ?_, ?_⟩
    · unfold highestScores
      rw [List.take_append_drop]
      exact List.perm_insertionSort _ _
    · intro a ha b hb
      exact List.Sorted.rel_of_mem_take_of_mem_drop (List.sorted_insertionSort (· ≥ ·) xs)
        ha hb

theorem visible_leaderboard_top_ten_witness :
    Game.fresh.storedScores = [] ∧
      (Game.saveScores (Env.const (1 / 2)) oneTo25 Game.fresh).getTopScores.map
        ScoreEntry.score = [25, 24, 23, 22, 21, 20, 19, 18, 17, 16] := by
  have h := visible_leaderboard_top_ten (Env.const (1 / 2)) Game.fresh oneTo25 rfl
  refine ⟨rfl, ?_⟩
  rw [h.2.2.1]
  decide


/-! ### Scoring a pipe once over the ticks of a run -/

/-- A pipe loop that runs to its end adds to the streak the number of rounds whose score
branch ran, and to the score between 1 and 6 points for each of them. -/
theorem Game.pipeLoop_awards (env : Env) (sm : ℚ) (n : Nat) :
    ∀ (A B : List Pipe) (g : Game), A.length = n → g.pipes = A ++ B →
      (g.pipeLoop env sm n).2 = false →
      (g.pipeLoop env sm n).1.consecutiveScores =
          g.consecutiveScores + (A.countP fun p => (p.round sm g.bird false).2) ∧
        (0 ≤ g.consecutiveScores →
          g.score + (A.countP fun p => (p.round sm g.bird false).2) ≤
              (g.pipeLoop env sm n).1.score ∧
            (g.pipeLoop env sm n).1.score ≤
              g.score + 6 * (A.countP fun p => (p.round sm g.bird false).2)) := by
  induction n with
  | zero =>
    intro A B g hA hg _
    have : A = [] := List.eq_nil_of_length_eq_zero hA
    subst this
    simp [Game.pipeLoop]
  | succ n ih =>
    intro A B g hA hg hr
    rcases List.eq_nil_or_concat A with hnil | ⟨L, p, hL⟩
    · rw [hnil] at hA; exact absurd hA (by simp)
    · subst hL
      have hLn : L.length = n := by simpa using hA
      subst hLn
      have hpipes : g.pipes = L ++ p :: B := by rw [hg]; simp
      have hp : g.pipes[L.length]? = some p := by rw [hpipes]; exact pipes_get_mid L B p
      unfold Game.pipeLoop at hr ⊢
      cases hb : (g.pipeIter env sm L.length).2 with
      | true =>
        have e : g.pipeIter env sm L.length = ((g.pipeIter env sm L.length).1, true) := by
          rw [← hb]
        rw [e] at hr
        exact absurd hr (by simp)
      | false =>
        have e : g.pipeIter env sm L.length = ((g.pipeIter env sm L.length).1, false) := by
          rw [← hb]
        rw [e] at hr ⊢
        simp only at hr ⊢
        obtain ⟨r1, -, r3, r4⟩ := Game.pipeIter_round env sm L.length g p hp
        have r4 := r4 hb
        have rb := Game.pipeIter_bird env sm L.length g hb
        rw [hb] at r1 r3 r4
        rw [hpipes, pipes_set_mid, pipes_erase_mid] at r1
        have hB : ∃ B', (g.pipeIter env sm L.length).1.pipes = L ++ B' := by
          cases ho : (p.move sm).isOffScreen with
          | true =>
            rw [ho] at r1
            exact ⟨B, by simpa using r1⟩
          | false =>
            rw [ho] at r1
            exact ⟨_ :: B, by simpa using r1⟩
        obtain ⟨B', hB'⟩ := hB
        obtain ⟨i1, i2⟩ := ih L B' _ rfl hB' hr
        rw [rb] at i1 i2
        have hcount : ((L.concat p).countP fun q => (q.round sm g.bird false).2) =
            (L.countP fun q => (q.round sm g.bird false).2) +
              (if (p.round sm g.bird false).2 then 1 else 0) := by
          simp [List.countP_append, List.countP_cons]
        rw [hcount, i1, r4]
        constructor
        · cases hs : (p.round sm g.bird false).2 <;> simp <;> ring
        · intro h0
          obtain ⟨b1, b2⟩ := comboFor_bounds (g.consecutiveScores + 1) (by omega)
          obtain ⟨f1, f2⟩ := Game.finalScore_bounds g _ b1 b2
          have h0' : 0 ≤ (g.pipeIter env sm L.length).1.consecutiveScores := by
            rw [r4]
            cases hs : (p.round sm g.bird false).2 <;> simp <;> omega
          obtain ⟨j1, j2⟩ := i2 h0'
          rw [r3] at j1 j2
          cases hs : (p.round sm g.bird false).2
          · rw [hs] at j1 j2
            simp only [Bool.false_eq_true, if_false, add_zero] at j1 j2 ⊢
            constructor <;> omega
          · rw [hs] at j1 j2
            simp only [if_true] at j1 j2 ⊢
            push_cast
            constructor <;> omega


/-- The spawn step appends the spawned pipes, which are not passed, and leaves `pipesMissed`
alone. -/
theorem Game.spawnStep_pipes (env : Env) (g : Game) :
    (g.advance.spawnStep env).pipes = g.pipes ++ g.spawned env ∧
      (∀ p ∈ g.spawned env, p.passed = false) ∧
      (g.advance.spawnStep env).pipesMissed = g.pipesMissed := by
  unfold Game.spawned
  by_cases h : g.advance.frameCount %
      (if g.advance.difficultySettings.spawnRate = 0 then 160
        else g.advance.difficultySettings.spawnRate) = 0
  · have e : (g.advance.spawnStep env).pipes =
        g.pipes ++ [Pipe.new g.advance.canvas.width
          (env.random g.advance.randomCalls *
            (g.advance.canvas.height - g.advance.difficultySettings.gapSize - 75 - 75) + 75)
          g.advance.difficultySettings.gapSize] := by
      simp only [Game.spawnStep, h, if_true, Game.generatePipe, Game.random]
      rfl
    rw [e, List.drop_left]
    refine ⟨rfl, ?_, ?_⟩
    · intro p hp
      rw [List.mem_singleton] at hp
      rw [hp]
      rfl
    · simp only [Game.spawnStep, h, if_true, Game.generatePipe, Game.random]
      rfl
  · have e : g.advance.spawnStep env = g.advance := by
      simp only [Game.spawnStep, h, if_false]
    rw [e]
    refine ⟨?_, ?_, rfl⟩
    · show g.pipes = g.pipes ++ g.pipes.drop g.pipes.length
      simp
    · intro p hp
      have : g.advance.pipes.drop g.pipes.length = [] := by
        show g.pipes.drop g.pipes.length = []
        simp
      rw [this] at hp
      exact absurd hp (by simp)

/-- A tick of a running, unpaused game that leaves the game running has run its pipe loop to
its end and then the last steps of the tick. -/
theorem Game.update_going (env : Env) (g : Game) (hr : g.gameRunning = true)
    (hp : g.gamePaused = false) (hu : (g.update env).gameRunning = true) :
    ((g.advance.spawnStep env).pipeLoop env (g.advance.spawnStep env).speedMultiplier
        (g.advance.spawnStep env).pipes.length).2 = false ∧
      g.update env = (g.afterPipes env).finishTick env := by
  unfold Game.afterPipes
  rw [Game.update_running env g hr hp] at hu ⊢
  split at hu
  · rw [(Game.endsFrom_endGame env g.advance).1] at hu
    exact absurd hu (by simp)
  · rename_i hb
    rw [if_neg hb]
    obtain ⟨-, l2⟩ := Game.pipeLoop_summary env (g.advance.spawnStep env).speedMultiplier
      (g.advance.spawnStep env).pipes.length (g.advance.spawnStep env)
    cases hf : ((g.advance.spawnStep env).pipeLoop env (g.advance.spawnStep env).speedMultiplier
      (g.advance.spawnStep env).pipes.length).2 with
    | true =>
      have e : (g.advance.spawnStep env).pipeLoop env (g.advance.spawnStep env).speedMultiplier
          (g.advance.spawnStep env).pipes.length =
          (((g.advance.spawnStep env).pipeLoop env (g.advance.spawnStep env).speedMultiplier
            (g.advance.spawnStep env).pipes.length).1, true) := by
        rw [← hf]
      rw [e] at hu
      simp only at hu
      rw [(l2 hf).1] at hu
      exact absurd hu (by simp)
    | false =>
      have e : (g.advance.spawnStep env).pipeLoop env (g.advance.spawnStep env).speedMultiplier
          (g.advance.spawnStep env).pipes.length =
          (((g.advance.spawnStep env).pipeLoop env (g.advance.spawnStep env).speedMultiplier
            (g.advance.spawnStep env).pipes.length).1, false) := by
        rw [← hf]
      rw [e]
      exact ⟨rfl, rfl⟩

/-- The counters of a tick that leaves the game running: `pipesMissed` and the streak grow by
the number of pipes whose score branch ran, the score by 1 to 6 points for each of them. -/
theorem Game.update_counts (env : Env) (g : Game) (hr : g.gameRunning = true)
    (hp : g.gamePaused = false) (hu : (g.update env).gameRunning = true) :
    (g.update env).pipesMissed =
        g.pipesMissed + ((g.pipes ++ g.spawned env).countP fun p =>
          (p.round g.speedMultiplier g.bird.update false).2) ∧
      (g.update env).consecutiveScores =
        g.consecutiveScores + ((g.pipes ++ g.spawned env).countP fun p =>
          (p.round g.speedMultiplier g.bird.update false).2) ∧
      (0 ≤ g.consecutiveScores →
        g.score + ((g.pipes ++ g.spawned env).countP fun p =>
            (p.round g.speedMultiplier g.bird.update false).2) ≤ (g.update env).score ∧
          (g.update env).score ≤
            g.score + 6 * ((g.pipes ++ g.spawned env).countP fun p =>
              (p.round g.speedMultiplier g.bird.update false).2)) := by
  obtain ⟨-, -, -, e4, e5, e6, -, -, -, -, e11, e12⟩ := Game.spawnStep_advance env g
  obtain ⟨s1, -, s3⟩ := Game.spawnStep_pipes env g
  have hsm : (g.advance.spawnStep env).speedMultiplier = g.speedMultiplier := by
    unfold Game.speedMultiplier
    rw [e4, e12]
  obtain ⟨hf, hup⟩ := Game.update_going env g hr hp hu
  obtain ⟨pus, k, ef⟩ := Game.finishTick_eq env (g.afterPipes env)
  rw [hup, ef]
  obtain ⟨-, r2, -⟩ := Game.pipeLoop_rounds env (g.advance.spawnStep env).speedMultiplier
    (g.advance.spawnStep env).pipes.length (g.advance.spawnStep env).pipes []
    (g.advance.spawnStep env) rfl (List.append_nil _).symm hf
  obtain ⟨a1, a2⟩ := Game.pipeLoop_awards env (g.advance.spawnStep env).speedMultiplier
    (g.advance.spawnStep env).pipes.length (g.advance.spawnStep env).pipes []
    (g.advance.spawnStep env) rfl (List.append_nil _).symm hf
  have r2' : (g.afterPipes env).pipesMissed = _ := r2
  have a1' : (g.afterPipes env).consecutiveScores = _ := a1
  have a2' : 0 ≤ (g.advance.spawnStep env).consecutiveScores →
      _ ≤ (g.afterPipes env).score ∧ (g.afterPipes env).score ≤ _ := a2
  rw [hsm, e11, s1, s3] at r2'
  rw [hsm, e11, s1, e6] at a1'
  rw [hsm, e11, s1, e6, e5] at a2'
  exact ⟨r2', a1', a2'⟩


theorem Pipe.survive_eq (sm : ℚ) (bird : Bird) (p q : Pipe)
    (h : Pipe.survive sm bird p = some q) : q = (p.round sm bird false).1 := by
  unfold Pipe.survive at h
  split at h
  · exact absurd h (by simp)
  · exact (Option.some.inj h).symm

theorem Pipe.life_fst_cons (sm : ℚ) (bird : Bird) (rest : List (ℚ × Bird)) (p : Pipe) :
    (p.life ((sm, bird) :: rest)).1 =
      (Pipe.survive sm bird p).bind fun q => (q.life rest).1 := by
  simp only [Pipe.life]
  cases Pipe.survive sm bird p <;> rfl

theorem Pipe.life_snd_cons (sm : ℚ) (bird : Bird) (rest : List (ℚ × Bird)) (p : Pipe) :
    (p.life ((sm, bird) :: rest)).2 =
      (if (p.round sm bird false).2 then 1 else 0) +
        (match Pipe.survive sm bird p with
          | none => 0
          | some q => (q.life rest).2) := by
  simp only [Pipe.life]
  cases Pipe.survive sm bird p <;> rfl

/-- Over its life a passed pipe stays passed and never runs the score branch; a pipe that is
not passed runs it at most once, and is passed afterwards exactly if it ran. -/
theorem Pipe.life_spec (inputs : List (ℚ × Bird)) :
    ∀ p : Pipe,
      (p.passed = true →
        (p.life inputs).2 = 0 ∧ ∀ q, (p.life inputs).1 = some q → q.passed = true) ∧
      (p.passed = false →
        (p.life inputs).2 ≤ 1 ∧
          ∀ q, (p.life inputs).1 = some q → (q.passed = true ↔ (p.life inputs).2 = 1)) := by
  induction inputs with
  | nil =>
    intro p
    refine ⟨fun h => ⟨rfl, fun q hq => ?_⟩, fun h => ⟨Nat.zero_le 1, fun q hq => ?_⟩⟩
    · have : p = q := Option.some.inj hq
      rw [← this]; exact h
    · have : p = q := Option.some.inj hq
      rw [← this, h]
      show false = true ↔ 0 = 1
      simp
  | cons a rest ih =>
    obtain ⟨sm, bird⟩ := a
    intro p
    obtain ⟨r1, r2⟩ := Pipe.round_passed sm bird false p
    rw [Pipe.life_fst_cons, Pipe.life_snd_cons]
    constructor
    · intro h
      have r3 : (p.round sm bird false).2 = false := by
        cases hc : (p.round sm bird false).2
        · rfl
        · rw [r2 hc] at h; exact absurd h (by simp)
      have r4 : (p.round sm bird false).1.passed = true := by rw [r1, h]; rfl
      cases hs : Pipe.survive sm bird p with
      | none => simp [r3]
      | some q0 =>
        have e := Pipe.survive_eq sm bird p q0 hs
        obtain ⟨i1, i2⟩ := (ih q0).1 (by rw [e]; exact r4)
        simp only [r3, Bool.false_eq_true, if_false, Nat.zero_add, Option.bind]
        exact ⟨i1, i2⟩
    · intro h
      cases hc : (p.round sm bird false).2 with
      | true =>
        have r4 : (p.round sm bird false).1.passed = true := by rw [r1, hc]; simp
        cases hs : Pipe.survive sm bird p with
        | none => simp
        | some q0 =>
          have e := Pipe.survive_eq sm bird p q0 hs
          obtain ⟨i1, i2⟩ := (ih q0).1 (by rw [e]; exact r4)
          simp only [if_true, Option.bind]
          rw [i1]
          exact ⟨le_refl _, fun q hq => ⟨fun _ => rfl, fun _ => i2 q hq⟩⟩
      | false =>
        have r4 : (p.round sm bird false).1.passed = false := by rw [r1, hc, h]; rfl
        cases hs : Pipe.survive sm bird p with
        | none => simp
        | some q0 =>
          have e := Pipe.survive_eq sm bird p q0 hs
          obtain ⟨i1, i2⟩ := (ih q0).2 (by rw [e]; exact r4)
          simp only [Bool.false_eq_true, if_false, Nat.zero_add, Option.bind]
          exact ⟨i1, i2⟩

/-- A pipe keeps its gap, its gap size and its width over its life. -/
theorem Pipe.life_same (inputs : List (ℚ × Bird)) :
    ∀ p q : Pipe, (p.life inputs).1 = some q →
      q.gap = p.gap ∧ q.gapSize = p.gapSize ∧ q.width = p.width := by
  induction inputs with
  | nil =>
    intro p q hq
    have : p = q := Option.some.inj hq
    rw [← this]
    exact ⟨rfl, rfl, rfl⟩
  | cons a rest ih =>
    obtain ⟨sm, bird⟩ := a
    intro p q hq
    rw [Pipe.life_fst_cons] at hq
    cases hs : Pipe.survive sm bird p with
    | none => rw [hs] at hq; exact absurd hq (by simp)
    | some q0 =>
      rw [hs] at hq
      obtain ⟨i1, i2, i3⟩ := ih q0 q hq
      have e := Pipe.survive_eq sm bird p q0 hs
      have k : q0.gap = p.gap ∧ q0.gapSize = p.gapSize ∧ q0.width = p.width := by
        rw [e]
        unfold Pipe.round
        split <;> exact ⟨rfl, rfl, rfl⟩
      exact ⟨i1.trans k.1, i2.trans k.2.1, i3.trans k.2.2⟩

/-- Once the bird has cleared the right edge of a pipe that is not passed, the score branch
runs for it in that round and in no later one. -/
theorem Pipe.life_cleared (sm : ℚ) (bird : Bird) (rest : List (ℚ × Bird)) (p : Pipe)
    (hp : p.passed = false) (h : (p.move sm).x + (p.move sm).width < bird.x) :
    (p.life ((sm, bird) :: rest)).2 = 1 := by
  have hc : (p.round sm bird false).2 = true := by
    have hs : (p.move sm).scores bird = true := by
      simp [Pipe.scores, Pipe.move_passed, hp, h]
    simp [Pipe.round, hs]
  obtain ⟨r1, -⟩ := Pipe.round_passed sm bird false p
  have r4 : (p.round sm bird false).1.passed = true := by rw [r1, hc]; simp
  rw [Pipe.life_snd_cons]
  cases hs : Pipe.survive sm bird p with
  | none => simp [hc]
  | some q0 =>
    have e := Pipe.survive_eq sm bird p q0 hs
    obtain ⟨i1, -⟩ := (Pipe.life_spec rest q0).1 (by rw [e]; exact r4)
    simp [hc, i1]

/-- The counts of the lives of the pipes of a list, split into the first round and the rest
of the lives of the survivors. -/
theorem Pipe.life_sum (sm : ℚ) (bird : Bird) (rest : List (ℚ × Bird)) (l : List Pipe) :
    (l.map fun p => (p.life ((sm, bird) :: rest)).2).sum =
      (l.countP fun p => (p.round sm bird false).2) +
        ((l.filterMap (Pipe.survive sm bird)).map fun q => (q.life rest).2).sum := by
  induction l with
  | nil => rfl
  | cons a l ih =>
    rw [List.map_cons, List.sum_cons, ih, Pipe.life_snd_cons, List.countP_cons,
      List.filterMap_cons]
    cases hs : Pipe.survive sm bird a <;> cases hc : (a.round sm bird false).2 <;>
      simp <;> omega

theorem Pipe.life_filterMap (sm : ℚ) (bird : Bird) (rest : List (ℚ × Bird)) (l : List Pipe) :
    l.filterMap (fun p => (p.life ((sm, bird) :: rest)).1) =
      (l.filterMap (Pipe.survive sm bird)).filterMap fun q => (q.life rest).1 := by
  rw [List.filterMap_filterMap]
  apply List.filterMap_congr
  intro p _
  exact Pipe.life_fst_cons sm bird rest p


/-- A run of ticks that is still running at its end, pipe by pipe: every pipe live at the
start and every pipe spawned on the way has gone through its life, one round per tick, and
`pipesMissed` and the streak have grown by the counts of these lives, the score by 1 to 6
points for each unit of them. -/
theorem Game.updates_lives (env : Env) (n : Nat) :
    ∀ g : Game, g.gamePaused = false → (Game.updates env n g).gameRunning = true →
      (Game.updates env n g).pipes =
          g.pipes.filterMap (fun p => (p.life (Game.tickInputs env n g)).1) ++
            (Game.laterPipes env n g).1 ∧
        (Game.updates env n g).pipesMissed = g.pipesMissed + Game.awardsInRun env n g ∧
        (Game.updates env n g).consecutiveScores =
          g.consecutiveScores + Game.awardsInRun env n g ∧
        (0 ≤ g.consecutiveScores →
          g.score + Game.awardsInRun env n g ≤ (Game.updates env n g).score ∧
            (Game.updates env n g).score ≤ g.score + 6 * Game.awardsInRun env n g) := by
  induction n with
  | zero =>
    intro g _ _
    have e : Game.awardsInRun env 0 g = 0 := by
      simp [Game.awardsInRun, Game.tickInputs, Game.laterPipes, Pipe.life]
    rw [e]
    refine ⟨?_, ?_, ?_, fun _ => ?_⟩
    · show g.pipes = g.pipes.filterMap (fun p => (p.life []).1) ++ []
      simp [Pipe.life]
    · show g.pipesMissed = _
      simp
    · show g.consecutiveScores = _
      simp
    · show g.score + _ ≤ g.score ∧ g.score ≤ _
      simp
  | succ n ih =>
    intro g hp hrun
    obtain ⟨hr0, -⟩ := Game.updates_running env g hp (n + 1) hrun 0 (Nat.zero_le _)
    obtain ⟨hr1, hp1⟩ := Game.updates_running env g hp (n + 1) hrun 1 (by omega)
    have hr0 : g.gameRunning = true := hr0
    have hr1 : (g.update env).gameRunning = true := hr1
    have hp1 : (g.update env).gamePaused = false := hp1
    have hrun' : (Game.updates env n (g.update env)).gameRunning = true := hrun
    obtain ⟨i1, i2, i3, i4⟩ := ih (g.update env) hp1 hrun'
    obtain ⟨c1, c2, c3⟩ := Game.update_counts env g hr0 hp hr1
    have hpipes : (g.update env).pipes =
        (g.pipes ++ g.spawned env).filterMap
          (Pipe.survive g.speedMultiplier g.bird.update) := by
      rw [Game.update_pipes env g hr0 hp hr1, (Game.spawnStep_pipes env g).1]
    have hti : Game.tickInputs env (n + 1) g =
        (g.speedMultiplier, g.bird.update) :: Game.tickInputs env n (g.update env) := rfl
    have hsum : Game.awardsInRun env (n + 1) g =
        ((g.pipes ++ g.spawned env).countP fun p =>
          (p.round g.speedMultiplier g.bird.update false).2) +
          Game.awardsInRun env n (g.update env) := by
      have hl := Pipe.life_sum g.speedMultiplier g.bird.update
        (Game.tickInputs env n (g.update env)) (g.pipes ++ g.spawned env)
      rw [List.map_append, List.sum_append, ← hpipes] at hl
      show (g.pipes.map fun p => (p.life (Game.tickInputs env (n + 1) g)).2).sum +
          (((g.spawned env).map fun p => (p.life (Game.tickInputs env (n + 1) g)).2).sum +
            (Game.laterPipes env n (g.update env)).2) = _
      rw [hti]
      unfold Game.awardsInRun
      omega
    show (Game.updates env n (g.update env)).pipes = _ ∧
      (Game.updates env n (g.update env)).pipesMissed = _ ∧
      (Game.updates env n (g.update env)).consecutiveScores = _ ∧
      (_ → _ ≤ (Game.updates env n (g.update env)).score ∧
        (Game.updates env n (g.update env)).score ≤ _)
    rw [i1, i2, i3, hsum, c1, c2]
    refine ⟨?_, by push_cast; ring, by push_cast; ring, fun h0 => ?_⟩
    · show _ = g.pipes.filterMap (fun p => (p.life (Game.tickInputs env (n + 1) g)).1) ++
        ((g.spawned env).filterMap (fun p => (p.life (Game.tickInputs env (n + 1) g)).1) ++
          (Game.laterPipes env n (g.update env)).1)
      rw [hti, hpipes, ← List.append_assoc, ← List.filterMap_append, Pipe.life_filterMap]
    · obtain ⟨s1, s2⟩ := c3 h0
      obtain ⟨j1, j2⟩ := i4 (by rw [c2]; omega)
      push_cast
      constructor <;> omega


/-- The counts of the lives of the pipes of a list add up to at most the number of pipes in
it that are not passed. -/
theorem Pipe.life_sum_le (inputs : List (ℚ × Bird)) (l : List Pipe) :
    (l.map fun p => (p.life inputs).2).sum ≤ l.countP fun p => !p.passed := by
  induction l with
  | nil => exact Nat.le_refl _
  | cons a l ih =>
    rw [List.map_cons, List.sum_cons, List.countP_cons]
    obtain ⟨l1, l2⟩ := Pipe.life_spec inputs a
    cases ha : a.passed
    · have := (l2 ha).1
      simp only [Bool.not_false, if_true]
      omega
    · rw [(l1 ha).1]
      simp only [Bool.not_true, Bool.false_eq_true, if_false]
      omega

/-- The score branch runs for the pipes spawned during a run at most once each. -/
theorem Game.laterPipes_le (env : Env) (n : Nat) :
    ∀ g : Game, (Game.laterPipes env n g).2 ≤ Game.spawnedInRun env n g := by
  induction n with
  | zero => intro g; exact Nat.le_refl _
  | succ n ih =>
    intro g
    have h1 := Pipe.life_sum_le (Game.tickInputs env (n + 1) g) (g.spawned env)
    have h2 : ((g.spawned env).countP fun p => !p.passed) ≤ (g.spawned env).length :=
      List.countP_le_length _
    have h3 := ih (g.update env)
    show ((g.spawned env).map fun p => (p.life (Game.tickInputs env (n + 1) g)).2).sum +
        (Game.laterPipes env n (g.update env)).2 ≤
      (g.spawned env).length + Game.spawnedInRun env n (g.update env)
    omega

/-- C4: scoring is idempotent over the ticks of `update()`. In a run of `n` ticks that is
still running at its end, every pipe live at the start and every pipe spawned on the way goes
through its life, one round per tick and in place, until a round removes it off screen;
`pipesMissed` and the streak grow by exactly the sum of the counts of these lives, and the
score by 1 to 6 points for each unit of it. Over any life a pipe runs the score branch at most
once: a passed pipe stays passed and never runs it, a pipe that is not passed (as every
spawned pipe is) is passed afterwards exactly if it ran it, and it runs it in the round in
which the bird has cleared its right edge, whatever ticks follow; so `pipesMissed` grows by at most the number of pipes not passed at
the start plus the number of pipes spawned. One tick of a running game
puts every pipe, the spawned one included, through one round and counts the rounds whose score
branch ran; ticks on a game that is over or paused change nothing. Within a round of the pipe
loop (also one in which `update()` returns) the pipe is marked and `pipesMissed`, the score
and the streak grow exactly when the score branch runs for it. -/
theorem scoring_idempotent (env : Env) (g : Game) (n : Nat)
    (hp : g.gamePaused = false) (hrun : (Game.updates env n g).gameRunning = true) :
    ((Game.updates env n g).pipes =
        g.pipes.filterMap (fun p => (p.life (Game.tickInputs env n g)).1) ++
          (Game.laterPipes env n g).1 ∧
      (Game.updates env n g).pipesMissed =
        g.pipesMissed +
          (((g.pipes.map fun p => (p.life (Game.tickInputs env n g)).2).sum +
            (Game.laterPipes env n g).2 : Nat) : Int) ∧
      (Game.updates env n g).consecutiveScores =
        g.consecutiveScores +
          (((g.pipes.map fun p => (p.life (Game.tickInputs env n g)).2).sum +
            (Game.laterPipes env n g).2 : Nat) : Int) ∧
      (0 ≤ g.consecutiveScores →
        g.score +
            (((g.pipes.map fun p => (p.life (Game.tickInputs env n g)).2).sum +
              (Game.laterPipes env n g).2 : Nat) : Int) ≤ (Game.updates env n g).score ∧
          (Game.updates env n g).score ≤
            g.score + 6 *
              (((g.pipes.map fun p => (p.life (Game.tickInputs env n g)).2).sum +
                (Game.laterPipes env n g).2 : Nat) : Int)) ∧
      (Game.updates env n g).pipesMissed ≤
        g.pipesMissed +
          (((g.pipes.countP fun p => !p.passed) + Game.spawnedInRun env n g : Nat) : Int)) ∧
    (∀ (inputs : List (ℚ × Bird)) (p : Pipe),
      (p.life inputs).2 ≤ 1 ∧
        (p.passed = true →
          (p.life inputs).2 = 0 ∧ ∀ q, (p.life inputs).1 = some q → q.passed = true) ∧
        (p.passed = false →
          ∀ q, (p.life inputs).1 = some q → (q.passed = true ↔ (p.life inputs).2 = 1)) ∧
        (∀ q, (p.life inputs).1 = some q →
          q.gap = p.gap ∧ q.gapSize = p.gapSize ∧ q.width = p.width)) ∧
    (∀ (sm : ℚ) (bird : Bird) (rest : List (ℚ × Bird)) (p : Pipe), p.passed = false →
      (p.move sm).x + (p.move sm).width < bird.x → (p.life ((sm, bird) :: rest)).2 = 1) ∧
    (∀ q : Game, q.gameRunning = true → q.gamePaused = false →
      (q.update env).gameRunning = true →
        (q.update env).pipes =
            (q.pipes ++ q.spawned env).filterMap
              (Pipe.survive q.speedMultiplier q.bird.update) ∧
          (q.update env).pipesMissed =
            q.pipesMissed + ((q.pipes ++ q.spawned env).countP fun p =>
              (p.round q.speedMultiplier q.bird.update false).2) ∧
          (q.update env).consecutiveScores =
            q.consecutiveScores + ((q.pipes ++ q.spawned env).countP fun p =>
              (p.round q.speedMultiplier q.bird.update false).2) ∧
          (∀ p ∈ q.spawned env, p.passed = false)) ∧
    (∀ (q : Game) (m : Nat), q.gameRunning = false ∨ q.gamePaused = true →
      Game.updates env m q = q) ∧
    (∀ (sm : ℚ) (i : Nat) (q : Game) (p : Pipe), q.pipes[i]? = some p →
      (q.pipeIter env sm i).1.pipes =
          (if (p.move sm).isOffScreen && !(q.pipeIter env sm i).2 then
            (q.pipes.set i (p.round sm q.bird (q.pipeIter env sm i).2).1).eraseIdx i
          else q.pipes.set i (p.round sm q.bird (q.pipeIter env sm i).2).1) ∧
        (q.pipeIter env sm i).1.pipesMissed =
          q.pipesMissed + (if (p.round sm q.bird (q.pipeIter env sm i).2).2 then 1 else 0) ∧
        (q.pipeIter env sm i).1.score =
          q.score + (if (p.round sm q.bird (q.pipeIter env sm i).2).2 then
            q.finalScore (comboFor (q.consecutiveScores + 1)) else 0) ∧
        ((q.pipeIter env sm i).2 = false →
          (q.pipeIter env sm i).1.consecutiveScores =
            q.consecutiveScores +
              (if (p.round sm q.bird (q.pipeIter env sm i).2).2 then 1 else 0))) ∧
    (∀ (rounds : List (ℚ × Bird × Bool)) (p : Pipe),
      (p.passed = true →
        (Pipe.rounds rounds p).1.passed = true ∧ (Pipe.rounds rounds p).2 = 0) ∧
      (p.passed = false →
        (Pipe.rounds rounds p).2 = if (Pipe.rounds rounds p).1.passed = true then 1 else 0) ∧
      (Pipe.rounds rounds p).2 ≤ 1) ∧
    (∀ (sm : ℚ) (bird : Bird) (p : Pipe), (p.move sm).x + (p.move sm).width < bird.x →
      (p.round sm bird false).1.passed = true) ∧
    (∀ x gap gapSize : ℚ, (Pipe.new x gap gapSize).passed = false) := by
  obtain ⟨u1, u2, u3, u4⟩ := Game.updates_lives env n g hp hrun
  have u5 : (Game.updates env n g).pipesMissed ≤
      g.pipesMissed +
        (((g.pipes.countP fun p => !p.passed) + Game.spawnedInRun env n g : Nat) : Int) := by
    have h1 := Pipe.life_sum_le (Game.tickInputs env n g) g.pipes
    have h2 := Game.laterPipes_le env n g
    rw [u2]
    unfold Game.awardsInRun
    push_cast
    have h1' : (((g.pipes.map fun p => (p.life (Game.tickInputs env n g)).2).sum : Nat) : Int) ≤
        ((g.pipes.countP fun p => !p.passed : Nat) : Int) := by exact_mod_cast h1
    have h2' : (((Game.laterPipes env n g).2 : Nat) : Int) ≤
        ((Game.spawnedInRun env n g : Nat) : Int) := by exact_mod_cast h2
    linarith
  refine ⟨⟨u1, u2, u3, u4, u5⟩, fun inputs p => ?_, fun sm bird rest p h1 h2 =>
      Pipe.life_cleared sm bird rest p h1 h2, fun q hr hq hu => ?_,
    fun q m h => Game.updates_idle env m q h,
    fun sm i q p h => Game.pipeIter_round env sm i q p h, fun rounds p => ?_,
    fun sm bird p h => Pipe.round_cleared sm bird p h, fun _ _ _ => rfl⟩
  · obtain ⟨l1, l2⟩ := Pipe.life_spec inputs p
    refine ⟨?_, l1, fun h => (l2 h).2, Pipe.life_same inputs p⟩
    cases hpp : p.passed
    · exact (l2 hpp).1
    · rw [(l1 hpp).1]
      exact Nat.zero_le 1
  · obtain ⟨c1, c2, -⟩ := Game.update_counts env q hr hq hu
    refine ⟨?_, c1, c2, (Game.spawnStep_pipes env q).2.1⟩
    rw [Game.update_pipes env q hr hq hu, (Game.spawnStep_pipes env q).1]
  · refine ⟨Pipe.rounds_of_passed rounds p, Pipe.rounds_of_unpassed rounds p, ?_⟩
    cases hpp : p.passed
    · rw [Pipe.rounds_of_unpassed rounds p hpp]
      split <;> omega
    · rw [(Pipe.rounds_of_passed rounds p hpp).2]
      omega

/-- Witness for C4: the pipe behind the bird in the fresh game, through five ticks: the score
branch runs for it in the first tick only. -/
theorem scoring_idempotent_witness :
    (Game.updates (Env.const (1 / 2)) 5 Game.onePipeBehind).gameRunning = true ∧
      (Game.updates (Env.const (1 / 2)) 5 Game.onePipeBehind).pipesMissed =
        Game.onePipeBehind.pipesMissed + 1 ∧
      (Game.updates (Env.const (1 / 2)) 5 Game.onePipeBehind).consecutiveScores =
        Game.onePipeBehind.consecutiveScores + 1 ∧
      ((Game.updates (Env.const (1 / 2)) 5 Game.onePipeBehind).pipes.map fun p => p.passed) =
        [true] ∧
      (Pipe.rounds twoRounds (Pipe.new 0 100 180)).2 =
        (if (Pipe.rounds twoRounds (Pipe.new 0 100 180)).1.passed = true then 1 else 0) := by
  have hrun : (Game.updates (Env.const (1 / 2)) 5 Game.onePipeBehind).gameRunning = true := by
    decide!
  have h := scoring_idempotent (Env.const (1 / 2)) Game.onePipeBehind 5 rfl hrun
  have hc : ((Game.onePipeBehind.pipes.map fun p =>
      (p.life (Game.tickInputs (Env.const (1 / 2)) 5 Game.onePipeBehind)).2).sum +
      (Game.laterPipes (Env.const (1 / 2)) 5 Game.onePipeBehind).2) = 1 := by
    decide!
  obtain ⟨⟨h1, h2, h3, -, -⟩, -, -, -, -, -, h7, -⟩ := h
  rw [hc] at h2 h3
  refine ⟨hrun, h2, h3, ?_, (h7 twoRounds (Pipe.new 0 100 180)).2.1 rfl⟩
  rw [h1]
  decide!

end FlyBird
